import Mathlib

/-!
The libexeng ray tracer: sphere intersection, camera setters, scene traversal, frame
buffer, camera update, material formats and the plugin registry.

A shallow embedding of

* `src/exeng/scenegraph/Sphere.hpp`      (`Sphere`, `Sphere::intersect`),
* `src/exeng/scenegraph/Camera.cpp`      (`Camera` and its setters),
* `src/raytracer/RayTracerApp.cpp`       (`flattenHierarchy`, `intersectRay`, `castRay`,
  `traceRay`, `pointToOffset`, `putPixel`, `getPixel`),
* `src/exeng.raytracer/RayTracerApp.cpp` (`update`),
* `src/xe/gfx/Material2.hpp`             (`MaterialAttribDesc2`, `MaterialFormat2`),
* `src/xe/sys/PluginManager.cpp`         (`PluginManager`, `plugin_filename`).

Scalars.  The C++ code computes in `float`.  The embedding is generic in a
linearly ordered field `K` (exact arithmetic, no rounding, no NaN), so every
definition can be run at `K = ℚ` and every theorem also holds at `K = ℝ`.
`std::sqrt` is a library function and is passed in as the parameter `sqrt`;
theorems that need it state what they need of it (`0 ≤ sqrt x`, or exactness
at the one discriminant involved).

Integers.  Values of type `int` are integers; the result of an arithmetic operation is
wrapped to 32 bits in two's complement (`wrapInt32`), and a conversion to `uint32_t` is
the residue modulo `2³²` (`toUInt32`).

Exceptions and failed `assert`s are `Except.error`; a build flag (`EXENG_DEBUG`,
`EXENG_WINDOWS`) is a Boolean argument.  `intersectRayNDEBUG` is `intersectRay` in a build
with `NDEBUG`, where the asserts expand to nothing.
-/

namespace exeng

/-! ## Vectors (header `exeng/math/TVector.hpp`, absent from the source) -/

/-- Modelled from the spec: `Vector2f`, two scalar components. -/
structure Vector2f (K : Type) where
  x : K
  y : K
deriving DecidableEq, Repr

/-- Modelled from the spec: `Vector3f`, a point or direction with three scalar components. -/
structure Vector3f (K : Type) where
  x : K
  y : K
  z : K
deriving DecidableEq, Repr

/-- Modelled from the spec: `Vector4f`, the "4-component float vector" of a material property. -/
structure Vector4f (K : Type) where
  x : K
  y : K
  z : K
  w : K
deriving DecidableEq, Repr

namespace Vector3f

variable {K : Type} [LinearOrderedField K]

/-- Modelled from the spec: `Vector3f(value)`, all components equal to `value`. -/
def splat (value : K) : Vector3f K := ⟨value, value, value⟩

/-- Modelled from the spec: `operator+` on vectors, componentwise. -/
def add (a b : Vector3f K) : Vector3f K := ⟨a.x + b.x, a.y + b.y, a.z + b.z⟩

/-- Modelled from the spec: `operator-` on vectors, componentwise (`r0 − c`). -/
def sub (a b : Vector3f K) : Vector3f K := ⟨a.x - b.x, a.y - b.y, a.z - b.z⟩

/-- Modelled from the spec: scalar times vector. -/
def scale (k : K) (a : Vector3f K) : Vector3f K := ⟨k * a.x, k * a.y, k * a.z⟩

/-- Modelled from the spec: `dot`, the scalar product (`d·(r0−c)`). -/
def dot (a b : Vector3f K) : K := a.x * b.x + a.y * b.y + a.z * b.z

/-- Modelled from the spec: `getMagnitudeSq`, the squared length (`|r0−c|²`). -/
def getMagnitudeSq (a : Vector3f K) : K := a.x * a.x + a.y * a.y + a.z * a.z

/-- Modelled from the spec: `getMagnitude`, the length, through the supplied square root. -/
def getMagnitude (sqrt : K → K) (a : Vector3f K) : K := sqrt a.getMagnitudeSq

/-- Modelled from the spec: `isZero`, the vector is "zero-length". -/
def isZero (a : Vector3f K) : Bool := decide (a = splat 0)

/-- Modelled from the spec: `normalize`, the vector divided by its length. -/
def normalize (sqrt : K → K) (a : Vector3f K) : Vector3f K :=
  scale (1 / a.getMagnitude sqrt) a

end Vector3f

/-! ## Ray and IntersectInfo (headers absent from the source) -/

/-- Modelled from the spec: `Ray`, "origin point, direction vector (not required
unit-length)". -/
structure Ray (K : Type) where
  point : Vector3f K
  direction : Vector3f K
deriving DecidableEq, Repr

namespace Ray

variable {K : Type} [LinearOrderedField K]

def getPoint (ray : Ray K) : Vector3f K := ray.point

def getDirection (ray : Ray K) : Vector3f K := ray.direction

/-- Modelled from the spec: `getPointAt`, the "derived point-at-parameter accessor":
`point + t·direction`. -/
def getPointAt (ray : Ray K) (t : K) : Vector3f K :=
  Vector3f.add ray.point (Vector3f.scale t ray.direction)

end Ray

/-- Modelled from the spec: `Material`, a "named property bag (e.g. "diffuse" →
4-component float vector), looked up by name". -/
structure Material (K : Type) where
  properties : List (String × Vector4f K)
deriving DecidableEq, Repr

/-- Modelled from the spec: `IntersectInfo`, "hit flag, scalar distance, surface normal,
non-owning reference to a material". -/
structure IntersectInfo (K : Type) where
  intersect : Bool
  distance : K
  normal : Vector3f K
  materialPtr : Option (Material K)
deriving DecidableEq, Repr

namespace IntersectInfo

variable {K : Type} [LinearOrderedField K]

/-- Modelled from the spec: the default-constructed `IntersectInfo`; "distance defaults to
zero meaning no hit recorded yet", no hit, no material. -/
def new : IntersectInfo K :=
  { intersect := false, distance := 0, normal := Vector3f.splat 0, materialPtr := none }

end IntersectInfo

/-! ## Sphere (`src/exeng/scenegraph/Sphere.hpp`) -/

structure Sphere (K : Type) where
  center : Vector3f K
  radius : K
deriving DecidableEq, Repr

namespace Sphere

variable {K : Type} [LinearOrderedField K]

/-- Setter `Sphere::setRadius`: a negative radius is stored as zero. -/
def setRadius (s : Sphere K) (radius : K) : Sphere K :=
  let radius := if radius < 0 then 0 else radius
  { s with radius := radius }

/-- Setter `Sphere::setCenter`. -/
def setCenter (s : Sphere K) (center : Vector3f K) : Sphere K :=
  { s with center := center }

/-- Setter `Sphere::setAttributes`: radius first, then center. -/
def setAttributes (s : Sphere K) (radius : K) (center : Vector3f K) : Sphere K :=
  (s.setRadius radius).setCenter center

/-- Constructor `Sphere::Sphere(radius, center)`; the fields are unset before `setAttributes`
overwrites both. -/
def new (radius : K) (center : Vector3f K) : Sphere K :=
  setAttributes ⟨center, radius⟩ radius center

def getRadius (s : Sphere K) : K := s.radius

def getCenter (s : Sphere K) : Vector3f K := s.center

/-- The coefficient `B = 2·d·(r0−c)` of `Sphere::intersect`. -/
def quadB (s : Sphere K) (ray : Ray K) : K :=
  2 * ray.getDirection.dot (ray.getPoint.sub s.getCenter)

/-- The coefficient `C = |r0−c|² − r²` of `Sphere::intersect`. -/
def quadC (s : Sphere K) (ray : Ray K) : K :=
  (ray.getPoint.sub s.getCenter).getMagnitudeSq - s.getRadius * s.getRadius

/-- The discriminant `disc = B*B − 4*C` of `Sphere::intersect`. -/
def quadDisc (s : Sphere K) (ray : Ray K) : K :=
  s.quadB ray * s.quadB ray - 4 * s.quadC ray

/-- The first half of `Sphere::intersect` (lines 147-195): the pair `(result, t)`.
`t` is left uninitialised by the C++ code when `disc < 0`; it is never read then and is
`0` here. -/
def solve (sqrt : K → K) (s : Sphere K) (ray : Ray K) : Bool × K :=
  let B := s.quadB ray
  let disc := s.quadDisc ray
  if disc = 0 then
    let t := -B / 2
    (decide (t > 0), t)
  else if disc > 0 then
    let rootDisc := sqrt disc
    let t1 := (-B - rootDisc) / 2
    let t2 := (-B + rootDisc) / 2
    let t := min t1 t2
    (decide (t > 0), t)
  else
    (false, 0)

/-- The root `t1 = (−B − √disc)/2` as `Sphere::intersect` computes it. -/
def root1 (sqrt : K → K) (s : Sphere K) (ray : Ray K) : K :=
  (-(s.quadB ray) - sqrt (s.quadDisc ray)) / 2

/-- The root `t2 = (−B + √disc)/2` as `Sphere::intersect` computes it. -/
def root2 (sqrt : K → K) (s : Sphere K) (ray : Ray K) : K :=
  (-(s.quadB ray) + sqrt (s.quadDisc ray)) / 2

/-- Method `Sphere::intersect(ray, intersectInfo)`.  The out-parameter `intersectInfo` may be
null (`none`); the result is the returned flag and the out-parameter after the call. -/
def intersect (sqrt : K → K) (s : Sphere K) (ray : Ray K)
    (intersectInfo : Option (IntersectInfo K)) : Bool × Option (IntersectInfo K) :=
  let (result, t) := s.solve sqrt ray
  match intersectInfo with
  | none => (result, none)
  | some info =>
    let info := { info with intersect := result }
    if info.intersect = true then
      let normal := (ray.getPointAt t).normalize sqrt
      (result, some { info with normal := normal, distance := t })
    else
      (result, some info)

end Sphere

/-! ## Camera (`src/exeng/scenegraph/Camera.cpp`) -/

/-- Modelled from the spec: `Size2f`, the width and height of a rectangle. -/
structure Size2f (K : Type) where
  width : K
  height : K
deriving DecidableEq, Repr

/-- Modelled from the spec: `Rectf`, the "viewport rectangle", kept as its two corners. -/
structure Rectf (K : Type) where
  minEdge : Vector2f K
  maxEdge : Vector2f K
deriving DecidableEq, Repr

namespace Rectf

variable {K : Type} [LinearOrderedField K]

/-- Modelled from the spec: `getSize`, the extent of the rectangle along each axis. -/
def getSize (r : Rectf K) : Size2f K :=
  ⟨r.maxEdge.x - r.minEdge.x, r.maxEdge.y - r.minEdge.y⟩

end Rectf

/-- Modelled from the spec: `CameraProjection`, the "projection descriptor"
(perspective or orthographic). -/
inductive CameraProjection where
  | perspective
  | orthographic
deriving DecidableEq, Repr

/-- State `Camera::Private`, the block behind `Camera::impl`. -/
structure Camera (K : Type) where
  position : Vector3f K
  lookAt : Vector3f K
  up : Vector3f K
  viewport : Rectf K
  proj : CameraProjection
deriving DecidableEq, Repr

namespace Camera

variable {K : Type} [LinearOrderedField K]

/-- The message of the exception of `setOrientation`, `setPosition` and `setLookAt`. -/
def invalidArgument : String :=
  "La posicion no puede ser igual al punto de vision de la camara"

/-- Constructor `Camera::Private::Private()` behind `Camera::Camera()`.  The constructor assigns
`position` and `up` and calls `viewport.set(1.0f)`; `lookAt` and `proj` stay
default-constructed.  The default constructors of `Vector3f` and `CameraProjection` and
`Rectf::set` are in headers absent from the source, so the three values they leave are
parameters. -/
def new (lookAt : Vector3f K) (viewport : Rectf K) (proj : CameraProjection) : Camera K :=
  { position := ⟨0, 0, 1⟩, lookAt := lookAt, up := ⟨0, 1, 0⟩, viewport := viewport,
    proj := proj }

/-- Setter `Camera::setOrientation`; `throw std::invalid_argument` is `Except.error`. -/
def setOrientation (cam : Camera K) (pos lookAt : Vector3f K) : Except String (Camera K) :=
  if pos = lookAt then
    .error invalidArgument
  else
    .ok { cam with position := pos, lookAt := lookAt }

/-- Setter `Camera::setPosition`. -/
def setPosition (cam : Camera K) (pos : Vector3f K) : Except String (Camera K) :=
  if pos = cam.lookAt then
    .error invalidArgument
  else
    .ok { cam with position := pos }

def getPosition (cam : Camera K) : Vector3f K := cam.position

/-- Setter `Camera::setLookAt`. -/
def setLookAt (cam : Camera K) (lookAt : Vector3f K) : Except String (Camera K) :=
  if cam.position = lookAt then
    .error invalidArgument
  else
    .ok { cam with lookAt := lookAt }

def getLookAt (cam : Camera K) : Vector3f K := cam.lookAt

def getUp (cam : Camera K) : Vector3f K := cam.up

/-- Setter `Camera::setUp`.  The zero check is compiled only when `EXENG_DEBUG` is defined; the
build flag is the first argument. -/
def setUp (EXENG_DEBUG : Bool) (sqrt : K → K) (cam : Camera K) (up : Vector3f K) :
    Except String (Camera K) :=
  if EXENG_DEBUG = true ∧ up.isZero = true then
    .error "exeng::scenegraph::Camera::setUp: The length of the up vector can't be zero."
  else
    .ok { cam with up := up.normalize sqrt }

/-- Setter `Camera::setViewport`. -/
def setViewport (cam : Camera K) (viewport : Rectf K) : Except String (Camera K) :=
  if viewport.getSize = ⟨0, 0⟩ then
    .error "El tamanio debe tener todos sus valores positivos"
  else
    .ok { cam with viewport := viewport }

def getViewport (cam : Camera K) : Rectf K := cam.viewport

/-- The camera object after a setter call: a setter that throws does so before it writes
anything, so the object is then the one before the call. -/
def after (cam : Camera K) (r : Except String (Camera K)) : Camera K :=
  match r with
  | .ok cam' => cam'
  | .error _ => cam

end Camera

/-- A call of one of the three setters that write `position` or `lookAt`. -/
inductive CameraCall (K : Type) where
  | setOrientation (pos lookAt : Vector3f K)
  | setPosition (pos : Vector3f K)
  | setLookAt (lookAt : Vector3f K)

namespace CameraCall

variable {K : Type} [LinearOrderedField K]

/-- One call on a camera, whether it succeeds or throws. -/
def apply (cam : Camera K) : CameraCall K → Camera K
  | .setOrientation pos lookAt => cam.after (cam.setOrientation pos lookAt)
  | .setPosition pos => cam.after (cam.setPosition pos)
  | .setLookAt lookAt => cam.after (cam.setLookAt lookAt)

/-- A sequence of calls, first to last. -/
def run (cam : Camera K) (calls : List (CameraCall K)) : Camera K :=
  calls.foldl apply cam

end CameraCall

/-! ## Scene nodes and the tracer's traversal (`src/raytracer/RayTracerApp.cpp`) -/

/-- Modelled from the spec: `TypeInfo`, the run-time type tag that `getTypeInfo()` returns
and `TypeInfo::get<T>()` names. -/
inductive TypeInfo where
  | Geometry
  | Mesh
  | Object
deriving DecidableEq, Repr

/-- Modelled from the spec: the object attached to a scene node (`getDataPtr()`), seen
through the two virtual calls the tracer makes on it: `getTypeInfo()` and
`Geometry::hit(ray, &info)`, the latter with its out-parameter passed in and returned. -/
structure SceneNodeData (K : Type) where
  getTypeInfo : TypeInfo
  hit : Ray K → IntersectInfo K → Bool × IntersectInfo K

/-- Modelled from the spec: `SceneNode`, a named node that "owns zero-or-one
Geometry+Material pair and an ordered sequence of child nodes". -/
inductive SceneNode (K : Type) where
  | mk (name : String) (data : Option (SceneNodeData K)) (childs : List (SceneNode K))

namespace SceneNode

variable {K : Type}

def getName : SceneNode K → String
  | mk name _ _ => name

def getDataPtr : SceneNode K → Option (SceneNodeData K)
  | mk _ data _ => data

def getChilds : SceneNode K → List (SceneNode K)
  | mk _ _ childs => childs

mutual
/-- The nodes of a tree in depth-first pre-order: the node, then the nodes of its
children, child by child in stored order. -/
def preorder : SceneNode K → List (SceneNode K)
  | mk name data childs => mk name data childs :: preorderList childs
/-- The pre-order listings of a sequence of trees, one after the other. -/
def preorderList : List (SceneNode K) → List (SceneNode K)
  | [] => []
  | child :: rest => preorder child ++ preorderList rest
end

end SceneNode

/-- Modelled from the spec: `SphereGeometry`, the sphere primitive of the reference
scene with the material it owns (`SphereGeometry.hpp` is absent from the source). -/
structure SphereGeometry (K : Type) where
  sphere : Sphere K
  material : Material K
deriving DecidableEq, Repr

namespace SphereGeometry

variable {K : Type} [LinearOrderedField K]

/-- Modelled from the spec: `SphereGeometry::hit`, the intersection test of the sphere
"producing hit distance, surface normal, material reference": `Sphere::intersect` on the
out-parameter, and on a hit the reference to the geometry's material. -/
def hit (sqrt : K → K) (g : SphereGeometry K) (ray : Ray K) (info : IntersectInfo K) :
    Bool × IntersectInfo K :=
  match g.sphere.intersect sqrt ray (some info) with
  | (result, some info') =>
    (result, if result = true then { info' with materialPtr := some g.material } else info')
  | (result, none) => (result, info)

/-- Modelled from the spec: a sphere geometry as node data; its type tag is that of
`Geometry`. -/
def toData (sqrt : K → K) (g : SphereGeometry K) : SceneNodeData K :=
  { getTypeInfo := TypeInfo.Geometry, hit := g.hit sqrt }

end SphereGeometry

namespace RayTracerApp

variable {K : Type}

/-- The test of `flattenHierarchy` on one node: it has data and the data's type tag is
that of `Geometry`. -/
def hasGeometry (node : SceneNode K) : Bool :=
  match node.getDataPtr with
  | none => false
  | some data => decide (data.getTypeInfo = TypeInfo.Geometry)

mutual
/-- Method `RayTracerApp::flattenHierarchy(out, node)`: the list `out` after the call.  `node` is
a node, not a null pointer: the loop over `node->getChilds()` dereferences it. -/
def flattenHierarchy (out : List (SceneNode K)) : SceneNode K → List (SceneNode K)
  | .mk name data childs =>
    let out := if hasGeometry (.mk name data childs) = true then
      out ++ [.mk name data childs] else out
    flattenChilds out childs
/-- The loop `for (auto child : node->getChilds())` of `flattenHierarchy`. -/
def flattenChilds (out : List (SceneNode K)) : List (SceneNode K) → List (SceneNode K)
  | [] => out
  | child :: rest => flattenChilds (flattenHierarchy out child) rest
end

variable [LinearOrderedField K]

/-- The loop of `RayTracerApp::intersectRay` over the remaining nodes, with the three
locals `prevInfo`, `currentInfo`, `info`.  A failed `assert` is `Except.error`. -/
def intersectRayLoop (ray : Ray K) :
    List (SceneNode K) → IntersectInfo K → IntersectInfo K → IntersectInfo K →
      Except String (IntersectInfo K)
  | [], _, _, info => .ok info
  | node :: rest, prevInfo, currentInfo, info =>
    match node.getDataPtr with
    | none => .error "assert(geometry != nullptr)"
    | some geometry =>
      let (result, currentInfo) := geometry.hit ray currentInfo
      if result = true then
        if prevInfo.distance = 0 ∨ currentInfo.distance > prevInfo.distance then
          let info := currentInfo
          if info.materialPtr.isNone = true then
            .error "assert(info.materialPtr != nullptr)"
          else if info.normal = Vector3f.splat 0 then
            .error "assert(info.normal != Vector3f(0.0f))"
          else
            intersectRayLoop ray rest currentInfo currentInfo info
        else
          intersectRayLoop ray rest currentInfo currentInfo info
      else
        intersectRayLoop ray rest prevInfo currentInfo info

/-- Method `RayTracerApp::intersectRay(nodes, ray)`. -/
def intersectRay (nodes : List (SceneNode K)) (ray : Ray K) :
    Except String (IntersectInfo K) :=
  intersectRayLoop ray nodes IntersectInfo.new IntersectInfo.new IntersectInfo.new

end RayTracerApp

/-! ## The other constructors of Sphere -/

namespace Sphere

variable {K : Type} [LinearOrderedField K]

/-- Constructor `Sphere::Sphere()`: `setAttributes(1.0f, Vector3f(0.0))`. -/
def newDefault : Sphere K :=
  setAttributes ⟨Vector3f.splat 0, 1⟩ 1 (Vector3f.splat 0)

/-- Constructor `Sphere::Sphere(radius)`: `setAttributes(radius, Vector3f(0.0))`. -/
def newRadius (radius : K) : Sphere K :=
  setAttributes ⟨Vector3f.splat 0, radius⟩ radius (Vector3f.splat 0)

end Sphere

/-! ## Camera setters, statement by statement -/

/-- A setter body of `Camera.cpp`: statements run in order on the state behind `impl`; a
`throw` ends the body with the exception and the state as the statements before it left
it. -/
abbrev SetterM (K : Type) := ExceptT String (StateM (Camera K))

/-- Run a setter body on a camera: the exception, if one was thrown, and the camera after
the call. -/
def SetterM.exec {K : Type} (body : SetterM K Unit) (cam : Camera K) :
    Except String Unit × Camera K :=
  (ExceptT.run body).run cam

/-- A call of one of the five setters of `Camera` that can throw. -/
inductive CameraSetterCall (K : Type) where
  | setOrientation (pos lookAt : Vector3f K)
  | setPosition (pos : Vector3f K)
  | setLookAt (lookAt : Vector3f K)
  | setUp (up : Vector3f K)
  | setViewport (viewport : Rectf K)

namespace CameraSetterCall

variable {K : Type} [LinearOrderedField K]

/-- The body of `Camera::setOrientation` (Camera.cpp:57-64). -/
def setOrientationBody (pos lookAt : Vector3f K) : SetterM K Unit := do
  if pos = lookAt then
    throw Camera.invalidArgument
  modify fun impl => { impl with position := pos }
  modify fun impl => { impl with lookAt := lookAt }

/-- The body of `Camera::setPosition` (Camera.cpp:67-75). -/
def setPositionBody (pos : Vector3f K) : SetterM K Unit := do
  let impl ← get
  if pos = impl.lookAt then
    throw Camera.invalidArgument
  modify fun impl => { impl with position := pos }

/-- The body of `Camera::setLookAt` (Camera.cpp:85-93). -/
def setLookAtBody (lookAt : Vector3f K) : SetterM K Unit := do
  let impl ← get
  if impl.position = lookAt then
    throw Camera.invalidArgument
  modify fun impl => { impl with lookAt := lookAt }

/-- The body of `Camera::setUp` (Camera.cpp:110-121); the check is there only when
`EXENG_DEBUG` is defined. -/
def setUpBody (EXENG_DEBUG : Bool) (sqrt : K → K) (up : Vector3f K) : SetterM K Unit := do
  if EXENG_DEBUG = true then
    if up.isZero = true then
      throw "exeng::scenegraph::Camera::setUp: The length of the up vector can't be zero."
  modify fun impl => { impl with up := up }
  modify fun impl => { impl with up := impl.up.normalize sqrt }

/-- The body of `Camera::setViewport` (Camera.cpp:124-132). -/
def setViewportBody (viewport : Rectf K) : SetterM K Unit := do
  if viewport.getSize = ⟨0, 0⟩ then
    throw "El tamanio debe tener todos sus valores positivos"
  modify fun impl => { impl with viewport := viewport }

/-- The body a call runs. -/
def body (EXENG_DEBUG : Bool) (sqrt : K → K) : CameraSetterCall K → SetterM K Unit
  | .setOrientation pos lookAt => setOrientationBody pos lookAt
  | .setPosition pos => setPositionBody pos
  | .setLookAt lookAt => setLookAtBody lookAt
  | .setUp up => setUpBody EXENG_DEBUG sqrt up
  | .setViewport viewport => setViewportBody viewport

/-- The camera after a sequence of calls, first to last, each run to its end or to its
`throw`. -/
def run (EXENG_DEBUG : Bool) (sqrt : K → K) (cam : Camera K)
    (calls : List (CameraSetterCall K)) : Camera K :=
  calls.foldl (fun cam call => ((call.body EXENG_DEBUG sqrt).exec cam).2) cam

end CameraSetterCall

/-! ## Ray casting and shading (`src/raytracer/RayTracerApp.cpp`) -/

/-- Modelled from the spec: `Vector2i`, a pixel coordinate. -/
structure Vector2i where
  x : Int
  y : Int
deriving DecidableEq, Repr

/-- Modelled from the spec: `Size2i`, the width and height of the frame in pixels. -/
structure Size2i where
  width : Int
  height : Int
deriving DecidableEq, Repr

/-- Modelled from the spec: `Color`, four scalar channels. -/
structure Color (K : Type) where
  red : K
  green : K
  blue : K
  alpha : K
deriving DecidableEq, Repr

namespace Color

variable {K : Type} [LinearOrderedField K]

/-- Modelled from the spec: `Color(vcolor)`, the four components of a vector as the four
channels. -/
def ofVector4f (v : Vector4f K) : Color K := ⟨v.x, v.y, v.z, v.w⟩

/-- Modelled from the spec: `Color * factor`, every channel times the scalar. -/
def mulScalar (c : Color K) (factor : K) : Color K :=
  ⟨c.red * factor, c.green * factor, c.blue * factor, c.alpha * factor⟩

end Color

namespace Material

variable {K : Type}

/-- Modelled from the spec: `getProperty4f(name)`, the property stored under `name`; the
result is undefined (`none`) when the name is absent. -/
def getProperty4f (m : Material K) (name : String) : Option (Vector4f K) :=
  (m.properties.find? (fun p => p.1 == name)).map Prod.snd

end Material

/-- Modelled from the spec: `Scene`, as far as the tracer reads it: the background
colour (the root node is passed to the traversal separately). -/
structure Scene (K : Type) where
  backgroundColor : Color K
deriving DecidableEq, Repr

def Scene.getBackgroundColor {K : Type} (scene : Scene K) : Color K := scene.backgroundColor

/-- Modelled from the spec: the member `cameraView` of `RayTracerApp`: the frame size in
pixels and the size of a pixel (`RayTracerApp.hpp` is absent from the source). -/
structure CameraView (K : Type) where
  size : Size2i
  pixelSize : K
deriving DecidableEq, Repr

/-- The members of `RayTracerApp` that `castRay` and `traceRay` read. -/
structure RayTracerApp (K : Type) where
  cameraView : CameraView K
  eye : Vector3f K
  scene : Scene K
deriving DecidableEq, Repr

/-- Modelled from the spec: the conversion of a pixel coordinate to `Vector2f`. -/
def Vector2i.toVector2f {K : Type} [LinearOrderedField K] (v : Vector2i) : Vector2f K :=
  ⟨(v.x : K), (v.y : K)⟩

/-- The value `clamp01(x)` of the spec: `x` clamped to `[0,1]`. -/
def clamp01 {K : Type} [LinearOrderedField K] (x : K) : K := max 0 (min 1 x)

namespace RayTracerApp

variable {K : Type} [LinearOrderedField K]

/-- Method `RayTracerApp::castRay(pixel)` (the live definition, lines 267-285). -/
def castRay (app : RayTracerApp K) (pixel : Vector2f K) : Ray K :=
  let pixelSize := app.cameraView.pixelSize
  let halfWidth := ((app.cameraView.size.width - 1 : Int) : K) * (1 / 2)
  let halfHeight := ((app.cameraView.size.height - 1 : Int) : K) * (1 / 2)
  let d : K := -150
  let x := pixelSize * (pixel.x - halfWidth + 1 / 2)
  let y := pixelSize * (pixel.y - halfHeight + 1 / 2)
  let z := -d
  { point := app.eye, direction := ⟨x, y, z⟩ }

/-- Method `RayTracerApp::traceRay(sceneNodeList, pixel)`.  A failed `assert` of
`intersectRay`, a null `materialPtr` and an absent "diffuse" property are
`Except.error`. -/
def traceRay (app : RayTracerApp K) (sceneNodeList : List (SceneNode K)) (pixel : Vector2i) :
    Except String (Color K) :=
  let ray := app.castRay pixel.toVector2f
  match intersectRay sceneNodeList ray with
  | .error e => .error e
  | .ok info =>
    if info.intersect = true then
      let factor := info.normal.dot ray.getDirection
      match info.materialPtr with
      | none => .error "info.materialPtr is null"
      | some material =>
        match material.getProperty4f "diffuse" with
        | none => .error "the material has no property diffuse"
        | some vcolor =>
          let color := (Color.ofVector4f vcolor).mulScalar factor
          let color := if color.red < 0 then { color with red := 0 } else color
          let color := if color.green < 0 then { color with green := 0 } else color
          let color := if color.blue < 0 then { color with blue := 0 } else color
          let color := if color.alpha < 0 then { color with alpha := 0 } else color
          .ok color
    else
      .ok app.scene.getBackgroundColor

end RayTracerApp

/-- An exact square root on the rationals that are squares of rationals (integer square
roots of numerator and denominator); it stands in for `std::sqrt` when the definitions are
run on concrete inputs. -/
def sqrtExact (x : ℚ) : ℚ :=
  (Nat.findGreatest (fun k => k * k ≤ x.num.toNat) x.num.toNat : ℚ) /
    (Nat.findGreatest (fun k => k * k ≤ x.den) x.den : ℚ)

/-- The supplied square root is exact at `x`: non-negative and squaring to `x`. -/
def IsSqrtAt {K : Type} [LinearOrderedField K] (sqrt : K → K) (x : K) : Prop :=
  0 ≤ sqrt x ∧ sqrt x * sqrt x = x

/-! ## Concrete inputs -/

/-- The ray from the origin along `+z`, unit direction. -/
def rayZ : Ray ℚ := ⟨⟨0, 0, 0⟩, ⟨0, 0, 1⟩⟩

/-- The ray from the origin along `+z` with a direction of length two. -/
def rayZ2 : Ray ℚ := ⟨⟨0, 0, 0⟩, ⟨0, 0, 2⟩⟩

/-- The unit sphere centred at the origin. -/
def sphereOrigin : Sphere ℚ := Sphere.new 1 ⟨0, 0, 0⟩

/-- The unit sphere centred at `(0,0,4)`. -/
def sphereFour : Sphere ℚ := Sphere.new 1 ⟨0, 0, 4⟩

/-- The unit sphere centred at `(0,0,5)`. -/
def sphereFive : Sphere ℚ := Sphere.new 1 ⟨0, 0, 5⟩

/-- The unit sphere centred at `(0,0,10)`. -/
def sphereTen : Sphere ℚ := Sphere.new 1 ⟨0, 0, 10⟩

/-- The unit sphere centred at `(0,0,-5)`, behind the origin of `rayZ`. -/
def sphereBehind : Sphere ℚ := Sphere.new 1 ⟨0, 0, -5⟩

/-- A viewport with corners `(0,0)` and `(1,1)`. -/
def viewportUnit : Rectf ℚ := ⟨⟨0, 0⟩, ⟨1, 1⟩⟩

/-- A viewport of width `0` and height `5`. -/
def viewportZeroWidth : Rectf ℚ := ⟨⟨0, 0⟩, ⟨0, 5⟩⟩

/-- A viewport of width `-1` and height `5`. -/
def viewportNegativeWidth : Rectf ℚ := ⟨⟨0, 0⟩, ⟨-1, 5⟩⟩

/-- A freshly constructed camera whose default-constructed `lookAt` is the zero vector. -/
def cameraFresh : Camera ℚ := Camera.new ⟨0, 0, 0⟩ viewportUnit CameraProjection.perspective

/-- Four calls, the first and the third of which throw when made on `cameraFresh`. -/
def callsExample : List (CameraCall ℚ) :=
  [ .setLookAt ⟨0, 0, 1⟩, .setLookAt ⟨1, 0, 0⟩, .setOrientation ⟨2, 2, 2⟩ ⟨2, 2, 2⟩,
    .setPosition ⟨2, 0, 0⟩ ]

/-- The material of the first sphere of `loadScene`. -/
def materialA : Material ℚ := ⟨[("diffuse", ⟨1, 1 / 2, 1 / 4, 1⟩)]⟩

/-- The material of the second sphere of `loadScene`. -/
def materialB : Material ℚ := ⟨[("diffuse", ⟨0, 0, 1, 1⟩)]⟩

/-- A leaf node holding the unit sphere at `(0,0,5)` with `materialA`. -/
def nodeNear : SceneNode ℚ :=
  .mk "near" (some (SphereGeometry.toData sqrtExact ⟨sphereFive, materialA⟩)) []

/-- A leaf node holding the unit sphere at `(0,0,10)` with `materialB`. -/
def nodeFar : SceneNode ℚ :=
  .mk "far" (some (SphereGeometry.toData sqrtExact ⟨sphereTen, materialB⟩)) []

/-- The first sphere of `loadScene`: radius `25`, centre `(-50,0,0)`. -/
def sphereA : Sphere ℚ := Sphere.new 25 ⟨-50, 0, 0⟩

/-- The second sphere of `loadScene`: radius `40`, centre `(40,0,0)`. -/
def sphereB : Sphere ℚ := Sphere.new 40 ⟨40, 0, 0⟩

/-- The node `sphereGeometry` of `loadScene`. -/
def nodeA : SceneNode ℚ :=
  .mk "sphereGeometry" (some (SphereGeometry.toData sqrtExact ⟨sphereA, materialA⟩)) []

/-- The node `sphereGeometry2` of `loadScene`. -/
def nodeB : SceneNode ℚ :=
  .mk "sphereGeometry2" (some (SphereGeometry.toData sqrtExact ⟨sphereB, materialB⟩)) []

/-- The ray from `(0,0,-75)` along `+z`. -/
def rayScene : Ray ℚ := ⟨⟨0, 0, -75⟩, ⟨0, 0, 1⟩⟩

/-- A third material. -/
def materialC : Material ℚ := ⟨[("diffuse", ⟨0, 1, 0, 1⟩)]⟩

/-- The unit sphere centred at `(0,0,6)`; `rayZ` hits it at `t = 5`. -/
def sphereSix : Sphere ℚ := Sphere.new 1 ⟨0, 0, 6⟩

/-- The sphere of radius `2` centred at `(0,0,7)`; `rayZ` hits it at `t = 5`. -/
def sphereSeven : Sphere ℚ := Sphere.new 2 ⟨0, 0, 7⟩

/-- A leaf node holding `sphereSix` with `materialA`. -/
def nodeSix : SceneNode ℚ :=
  .mk "six" (some (SphereGeometry.toData sqrtExact ⟨sphereSix, materialA⟩)) []

/-- A leaf node holding `sphereFour` with `materialB`. -/
def nodeFour : SceneNode ℚ :=
  .mk "four" (some (SphereGeometry.toData sqrtExact ⟨sphereFour, materialB⟩)) []

/-- A leaf node holding `sphereSeven` with `materialC`. -/
def nodeSeven : SceneNode ℚ :=
  .mk "seven" (some (SphereGeometry.toData sqrtExact ⟨sphereSeven, materialC⟩)) []

/-- The unit sphere centred at `(1,0,5)`, tangent to `rayZ`. -/
def sphereTangent : Sphere ℚ := Sphere.new 1 ⟨1, 0, 5⟩

/-- The unit sphere centred at `(5,0,0)`, beside `rayZ`. -/
def sphereBeside : Sphere ℚ := Sphere.new 1 ⟨5, 0, 0⟩

/-- An application with a frame of `2 × 2` pixels of size `1`, the eye at `(0,0,-75)` (its
initial place) and an opaque black background. -/
def appExample : RayTracerApp ℚ :=
  { cameraView := ⟨⟨2, 2⟩, 1⟩, eye := ⟨0, 0, -75⟩, scene := ⟨⟨0, 0, 0, 1⟩⟩ }

/-- The same application with the eye moved back to `(0,0,-300)`. -/
def appFar : RayTracerApp ℚ :=
  { cameraView := ⟨⟨2, 2⟩, 1⟩, eye := ⟨0, 0, -300⟩, scene := ⟨⟨0, 0, 0, 1⟩⟩ }

/-- The unit sphere centred at `(0,0,225)`. -/
def sphereAhead : Sphere ℚ := Sphere.new 1 ⟨0, 0, 225⟩

/-- A leaf node holding `sphereAhead` with `materialA`. -/
def nodeAhead : SceneNode ℚ :=
  .mk "ahead" (some (SphereGeometry.toData sqrtExact ⟨sphereAhead, materialA⟩)) []

/-- A leaf node holding the unit sphere at the origin with `materialA`. -/
def nodeOrigin : SceneNode ℚ :=
  .mk "origin" (some (SphereGeometry.toData sqrtExact ⟨sphereOrigin, materialA⟩)) []

/-- The unit sphere centred at `(5,0,-75)`, beside the eye of `appExample`. -/
def sphereBesideEye : Sphere ℚ := Sphere.new 1 ⟨5, 0, -75⟩

/-- A leaf node holding `sphereBesideEye` with `materialA`. -/
def nodeBesideEye : SceneNode ℚ :=
  .mk "beside" (some (SphereGeometry.toData sqrtExact ⟨sphereBesideEye, materialA⟩)) []

/-- Calls of the setters on a fresh camera: a non-zero up vector, the zero vector, a new
position, a viewport. -/
def callsSetters : List (CameraSetterCall ℚ) :=
  [.setUp ⟨0, 3, 4⟩, .setUp ⟨0, 0, 0⟩, .setPosition ⟨5, 5, 5⟩, .setViewport viewportUnit]

/-! ## The frame buffer (`src/raytracer/RayTracerApp.cpp`) -/

/-- The value of an arithmetic expression of type `int` (32 bits): the mathematical result
wrapped to two's complement. -/
def wrapInt32 (n : Int) : Int := (n + 2147483648) % 4294967296 - 2147483648

/-- The conversion `static_cast<uint32_t>` of an `int`. -/
def toUInt32 (n : Int) : Nat := (n % 4294967296).toNat

namespace RayTracerApp

variable {K : Type}

/-- Method `RayTracerApp::pointToOffset(point)` (lines 207-223).  The three checks are compiled
only when `EXENG_DEBUG` is defined; the build flag is the first argument.  The message of
the exception is the empty string. -/
def pointToOffset (EXENG_DEBUG : Bool) (app : RayTracerApp K) (point : Vector2i) :
    Except String Nat :=
  if EXENG_DEBUG = true ∧ (point.x < 0 ∨ point.y < 0) then
    .error ""
  else if EXENG_DEBUG = true ∧ point.x ≥ app.cameraView.size.width then
    .error ""
  else if EXENG_DEBUG = true ∧ point.y ≥ app.cameraView.size.height then
    .error ""
  else
    let offset := wrapInt32 (wrapInt32 (point.y * app.cameraView.size.width) + point.x)
    .ok (toUInt32 offset)

/-- Method `RayTracerApp::putPixel(point, color)` (lines 226-233): the memory behind
`backbuffer`, a map from the offset in `uint32_t` cells to the cell, after the call. -/
def putPixel (EXENG_DEBUG : Bool) (app : RayTracerApp K) (backbuffer : Nat → Nat)
    (point : Vector2i) (color : Nat) : Except String (Nat → Nat) :=
  match app.pointToOffset EXENG_DEBUG point with
  | .error e => .error e
  | .ok offset => .ok (Function.update backbuffer offset color)

/-- Method `RayTracerApp::getPixel(point)` (lines 236-243). -/
def getPixel (EXENG_DEBUG : Bool) (app : RayTracerApp K) (backbuffer : Nat → Nat)
    (point : Vector2i) : Except String Nat :=
  match app.pointToOffset EXENG_DEBUG point with
  | .error e => .error e
  | .ok offset => .ok (backbuffer offset)

end RayTracerApp

/-- An application with a frame of `1048576 × 8192` pixels. -/
def appHuge : RayTracerApp ℚ :=
  { cameraView := ⟨⟨1048576, 8192⟩, 1⟩, eye := ⟨0, 0, -75⟩, scene := ⟨⟨0, 0, 0, 1⟩⟩ }

/-- A back buffer whose cells are all `0`. -/
def backbufferZero : Nat → Nat := fun _ => 0

/-! ## The hit candidates of a scan -/

namespace RayTracerApp

variable {K : Type} [LinearOrderedField K]

/-- The hit a node reports for the ray when the test of its geometry succeeds: a hit
candidate of the scan of `intersectRay`. -/
def candidate (ray : Ray K) (node : SceneNode K) : Option (IntersectInfo K) :=
  match node.getDataPtr with
  | none => none
  | some geometry =>
    if (geometry.hit ray IntersectInfo.new).1 = true then
      some (geometry.hit ray IntersectInfo.new).2
    else none

/-- The hit candidates of a node list, in list order. -/
def candidates (ray : Ray K) (nodes : List (SceneNode K)) : List (IntersectInfo K) :=
  nodes.filterMap (candidate ray)

/-- The locals `prevInfo` and `info` of `intersectRay` carried over the hit candidates
alone: the value of `info` at the end. -/
def scanHits : IntersectInfo K → IntersectInfo K → List (IntersectInfo K) → IntersectInfo K
  | _, info, [] => info
  | prevInfo, info, hit :: rest =>
    scanHits hit (if prevInfo.distance = 0 ∨ hit.distance > prevInfo.distance then hit
      else info) rest

end RayTracerApp

/-! ## The camera update (`src/exeng.raytracer/RayTracerApp.cpp`) -/

namespace raytracer

/-- Modelled from the spec: the entries of the member `buttonStatus` that `update` reads
(`RayTracerApp.hpp` and `ButtonCode` are absent from the source). -/
structure ButtonStatus where
  KeyEsc : Bool
  KeyUp : Bool
  KeyDown : Bool
  KeyLeft : Bool
  KeyRight : Bool
deriving DecidableEq, Repr

/-- Modelled from the spec: `ApplicationStatus::Enum`, as far as `update` writes it. -/
inductive ApplicationStatus where
  | Running
  | Terminated
deriving DecidableEq, Repr

namespace RayTracerApp

variable {K : Type} [LinearOrderedField K]

/-- Method `RayTracerApp::update(seconds)` of `exeng.raytracer` (lines 161-199): the members
`applicationStatus` and `camera` after the call, or the exception of `setOrientation`.
`rotation axis angle v` is the product of the matrix that `Matrix4f::rotation(axis, angle)`
leaves with `v` (`Matrix4f` is absent from the source).  The frame counter and the print of
the frame rate do not touch the camera and are left out. -/
def update (sqrt : K → K) (rotation : Vector3f K → K → Vector3f K → Vector3f K)
    (buttonStatus : ButtonStatus) (applicationStatus : ApplicationStatus) (camera : Camera K)
    (seconds : K) : Except String (ApplicationStatus × Camera K) :=
  let moveSpeed : K := 3 / 2
  let rotationSpeed : K := 60
  let direction := (camera.getLookAt.sub camera.getPosition).normalize sqrt
  let displace : K := 0
  let rotate : K := 0
  let applicationStatus :=
    if buttonStatus.KeyEsc = true then ApplicationStatus.Terminated else applicationStatus
  let displace := if buttonStatus.KeyUp = true then moveSpeed * seconds else displace
  let displace := if buttonStatus.KeyDown = true then -moveSpeed * seconds else displace
  let rotate := if buttonStatus.KeyLeft = true then -rotationSpeed * seconds else rotate
  let rotate := if buttonStatus.KeyRight = true then rotationSpeed * seconds else rotate
  let direction := rotation camera.getUp rotate direction
  let position := camera.getPosition.add (Vector3f.scale displace direction)
  let lookAt := camera.getPosition.add (Vector3f.scale 10 direction)
  match camera.setOrientation position lookAt with
  | .error e => .error e
  | .ok camera => .ok (applicationStatus, camera)

end RayTracerApp

end raytracer

/-- The camera as `initialize` of `exeng.raytracer` leaves it: lookAt `(0,0,0)`, position
`(0,0,-2)`, up `(0,1,0)`. -/
def cameraInitial : Camera ℚ :=
  { position := ⟨0, 0, -2⟩, lookAt := ⟨0, 0, 0⟩, up := ⟨0, 1, 0⟩, viewport := viewportUnit,
    proj := CameraProjection.perspective }

/-- Only the key `Up` is held. -/
def keysUp : raytracer.ButtonStatus :=
  { KeyEsc := false, KeyUp := true, KeyDown := false, KeyLeft := false, KeyRight := false }

/-- The rotation by the angle `0` about any axis: every vector is left as it is.  It
stands in for `Matrix4f::rotation` where no turn key is held and `rotate` is `0`. -/
def rotationNone : Vector3f ℚ → ℚ → Vector3f ℚ → Vector3f ℚ := fun _ _ v => v

/-! ## Material formats (`src/xe/gfx/Material2.hpp`) -/

/-- Modelled from the spec: `xe::DataType::Enum` (`xe/DataType.hpp` is absent from the
source).  Only `Unknown` is named in `Material2.hpp`; the other tags stand for the sized
types. -/
inductive DataType where
  | Unknown
  | UInt8
  | UInt16
  | UInt32
  | Int8
  | Int16
  | Int32
  | Float16
  | Float32
deriving DecidableEq, Repr

/-- The record `MaterialAttribDesc2` with its default member initialisers. -/
structure MaterialAttribDesc2 where
  type : DataType := DataType.Unknown
  count : Int := 0
  align : Int := 1
  offset : Int := 0
  name : String := ""
deriving DecidableEq, Repr

/-- Method `MaterialAttribDesc2::getSize()` (lines 23-28).  `typeSize` is
`xe::DataType::getSize`, absent from the source.  The operator `%` of C++ truncates towards
zero; with `align = 0` it is a division by zero. -/
def MaterialAttribDesc2.getSize (typeSize : DataType → Int) (a : MaterialAttribDesc2) : Int :=
  let temp_size := wrapInt32 (a.count * typeSize a.type)
  let size := wrapInt32 (temp_size + temp_size.tmod a.align)
  size

/-- The class `MaterialFormat2`: the array of `AttribCount = 8` descriptors and the size. -/
structure MaterialFormat2 where
  attribs : List MaterialAttribDesc2 := List.replicate 8 {}
  size : Int := 0
deriving DecidableEq, Repr

namespace MaterialFormat2

/-- The constant `AttribCount`. -/
def AttribCount : Nat := 8

def getSize (format : MaterialFormat2) : Int := format.size

def getAttribCount (_format : MaterialFormat2) : Int := AttribCount

/-- Method `MaterialFormat2::getAttrib(index)`; a failed `assert` is `Except.error`. -/
def getAttrib (format : MaterialFormat2) (index : Int) : Except String MaterialAttribDesc2 :=
  if ¬ (index ≥ 0) then
    .error "assert(index >= 0)"
  else if ¬ (index < format.getAttribCount) then
    .error "assert(index < this->getAttribCount())"
  else
    .ok (format.attribs.getD index.toNat {})

/-- The loop of `MaterialFormat2::construct` (lines 55-69) over the remaining input, with the
locals `i` and `offset` and the member `attribs`: the member and `offset` at the end. -/
def constructLoop (typeSize : DataType → Int) :
    List MaterialAttribDesc2 → Nat → Int → List MaterialAttribDesc2 →
      List MaterialAttribDesc2 × Int
  | [], _, offset, attribs => (attribs, offset)
  | attrib :: rest, i, offset, attribs =>
    if attrib.type = DataType.Unknown then
      (attribs, offset)
    else
      let attribs := attribs.set i attrib
      let attribs := attribs.set i { attribs.getD i {} with offset := offset }
      let offset := wrapInt32 (offset + (attribs.getD i {}).getSize typeSize)
      let i := i + 1
      if i = AttribCount then
        (attribs, offset)
      else
        constructLoop typeSize rest i offset attribs

/-- Method `MaterialFormat2::construct(attribs)` (lines 48-72). -/
def construct (typeSize : DataType → Int) (format : MaterialFormat2)
    (attribs : List MaterialAttribDesc2) : MaterialFormat2 :=
  let (stored, offset) := constructLoop typeSize attribs 0 0 format.attribs
  { attribs := stored, size := offset }

/-- The attributes that the claim calls stored: the longest prefix of the input without an
attribute of type `Unknown`, cut to at most `AttribCount` entries. -/
def storedPrefix (attribs : List MaterialAttribDesc2) : List MaterialAttribDesc2 :=
  (attribs.takeWhile (fun a => decide (a.type ≠ DataType.Unknown))).take AttribCount

/-- The descriptors of a list, each with its offset set to `offset` plus the sum of the
sizes of the descriptors before it. -/
def assignOffsets (typeSize : DataType → Int) :
    Int → List MaterialAttribDesc2 → List MaterialAttribDesc2
  | _, [] => []
  | offset, a :: rest =>
    { a with offset := offset } :: assignOffsets typeSize (offset + a.getSize typeSize) rest

end MaterialFormat2

/-- Sizes in bytes of the data types, for the examples. -/
def dataTypeBytes : DataType → Int
  | .Unknown => 0
  | .UInt8 => 1
  | .UInt16 => 2
  | .UInt32 => 4
  | .Int8 => 1
  | .Int16 => 2
  | .Int32 => 4
  | .Float16 => 2
  | .Float32 => 4

/-- Five bytes, to be aligned to four. -/
def attribFiveBytes : MaterialAttribDesc2 :=
  { type := DataType.UInt8, count := 5, align := 4, name := "five" }

/-- Three attributes of one-byte elements with the counts `8`, `-4` and `8`. -/
def attribsNegativeCount : List MaterialAttribDesc2 :=
  [{ type := DataType.UInt8, count := 8, align := 1, name := "a" },
   { type := DataType.UInt8, count := -4, align := 1, name := "b" },
   { type := DataType.UInt8, count := 8, align := 1, name := "c" }]

/-- A position of three floats, a colour of four bytes, then an attribute of type
`Unknown` and one more attribute after it. -/
def attribsExample : List MaterialAttribDesc2 :=
  [{ type := DataType.Float32, count := 3, align := 1, name := "position" },
   { type := DataType.UInt8, count := 4, align := 4, name := "color" },
   { type := DataType.Unknown, count := 1, align := 1, name := "end" },
   { type := DataType.Float32, count := 2, align := 1, name := "texcoord" }]

/-! ## The plugin manager (`src/xe/sys/PluginManager.cpp`) -/

/-- The characters that separate the components of a path for `boost::filesystem`: `/`, and
on Windows also the backslash. -/
def isPathSeparator (EXENG_WINDOWS : Bool) (c : Char) : Bool :=
  c == '/' || (EXENG_WINDOWS && c == Char.ofNat 92)

/-- The member `fs::path::filename()` of Boost: what follows the last separator. -/
def pathFilename (EXENG_WINDOWS : Bool) (file : String) : String :=
  ⟨(file.data.reverse.takeWhile (fun c => !isPathSeparator EXENG_WINDOWS c)).reverse⟩

/-- The member `fs::path::stem()` of Boost on a file name: the name up to its last dot, the
whole name if it has no dot or is `.` or `..`. -/
def pathStem (name : String) : String :=
  if name = "." ∨ name = ".." then name
  else if '.' ∈ name.data then ⟨((name.data.reverse.dropWhile (fun c => c != '.')).drop 1).reverse⟩
  else name

/-- The operator `/` of `fs::path`: the directory, a separator, the name. -/
def pathAppend (directory name : String) : String :=
  directory ++ "/" ++ name

/-- Function `plugin_filename(pluginName)` (lines 78-86); the platform is the first
argument: `EXENG_WINDOWS` or, when it is `false`, `EXENG_UNIX`. -/
def plugin_filename (EXENG_WINDOWS : Bool) (pluginName : String) : String :=
  if EXENG_WINDOWS = true then
    pluginName ++ ".dll"
  else
    "lib" ++ pluginName ++ ".so"

/-- What the code absent from the source does in one call that loads a library: whether
a constructor (`Library`, `PluginLibrary`) throws, and whether `Plugin::initialize`
throws. -/
structure LoadEvents where
  constructorThrows : Bool
  initializeThrows : Bool
deriving DecidableEq, Repr

/-- The record `PluginManager::Private`.  A plugin object is named by its address, a number;
`next` is the address that the next `std::make_unique` returns, distinct from the addresses
of all objects alive.  The map `plugins` is the list of its entries. -/
structure PluginManager where
  plugins : List (String × Nat)
  pluginArray : List Nat
  pluginPath : String
  next : Nat
deriving DecidableEq, Repr

namespace PluginManager

/-- Constructor `PluginManager::PluginManager(core)`; the current directory is the argument. -/
def new (currentPath : String) : PluginManager :=
  { plugins := [], pluginArray := [], pluginPath := currentPath, next := 0 }

/-- The key that `loadPluginFile(file)` derives from the file (lines 51-55). -/
def keyOfFile (EXENG_WINDOWS : Bool) (file : String) : String :=
  let key := pathStem (pathFilename EXENG_WINDOWS file)
  if key.data.take 3 = "lib".data then
    ⟨key.data.drop 3⟩
  else
    key

/-- Method `Private::loadPluginFile(file, key)` (lines 60-73): the exception, if one is
thrown, and the record after the call. -/
def loadPluginFileKey (pm : PluginManager) (file key : String) (events : LoadEvents) :
    Except String Unit × PluginManager :=
  if (pm.plugins.lookup key).isNone = true then
    if events.constructorThrows = true then
      (.error ("Library: " ++ file), pm)
    else
      let pluginLibrary := pm.next
      let pm := { pm with next := pm.next + 1 }
      let pm := { pm with pluginArray := pm.pluginArray ++ [pluginLibrary] }
      let pm := { pm with plugins := pm.plugins ++ [(key, pluginLibrary)] }
      if events.initializeThrows = true then
        (.error "initialize", pm)
      else
        (.ok (), pm)
  else
    (.ok (), pm)

/-- Method `Private::loadPluginFile(file)` (lines 50-58). -/
def loadPluginFile (EXENG_WINDOWS : Bool) (pm : PluginManager) (file : String)
    (events : LoadEvents) : Except String Unit × PluginManager :=
  pm.loadPluginFileKey file (keyOfFile EXENG_WINDOWS file) events

/-- Method `PluginManager::loadPlugin(name)` (lines 147-154). -/
def loadPlugin (EXENG_WINDOWS : Bool) (pm : PluginManager) (name : String)
    (events : LoadEvents) : Except String Unit × PluginManager :=
  let file := pathAppend pm.pluginPath (plugin_filename EXENG_WINDOWS name)
  let key := name
  pm.loadPluginFileKey file key events

/-- Method `PluginManager::unloadPlugin(name)` (lines 156-171); `terminateThrows` says whether
`Plugin::terminate` throws.  `std::find` followed by `erase` removes the first entry of
the array equal to the plugin. -/
def unloadPlugin (pm : PluginManager) (name : String) (terminateThrows : Bool) :
    Except String Unit × PluginManager :=
  match pm.plugins.lookup name with
  | some plugin =>
    if terminateThrows = true then
      (.error "terminate", pm)
    else
      let pm := { pm with pluginArray := pm.pluginArray.erase plugin }
      let pm := { pm with plugins := pm.plugins.filter (fun entry => entry.1 != name) }
      (.ok (), pm)
  | none => (.ok (), pm)

/-- Method `PluginManager::getPluginCount()`. -/
def getPluginCount (pm : PluginManager) : Int := pm.pluginArray.length

/-- Method `PluginManager::getPlugin(index)`; a failed `assert` is `Except.error`. -/
def getPlugin (pm : PluginManager) (index : Int) : Except String Nat :=
  if ¬ (index ≥ 0) then
    .error "assert(index >= 0)"
  else if ¬ (index < pm.getPluginCount) then
    .error "assert(index < this->getPluginCount())"
  else
    .ok (pm.pluginArray.getD index.toNat 0)

end PluginManager

/-- A call of one of the three methods that change the registry, with what the absent code
does during it. -/
inductive PluginCall where
  | loadPlugin (name : String) (events : LoadEvents)
  | loadPluginFile (file : String) (events : LoadEvents)
  | unloadPlugin (name : String) (terminateThrows : Bool)
deriving DecidableEq, Repr

namespace PluginCall

/-- The record after one call, whether it returns or throws. -/
def apply (EXENG_WINDOWS : Bool) (pm : PluginManager) : PluginCall → PluginManager
  | .loadPlugin name events => (pm.loadPlugin EXENG_WINDOWS name events).2
  | .loadPluginFile file events => (pm.loadPluginFile EXENG_WINDOWS file events).2
  | .unloadPlugin name terminateThrows => (pm.unloadPlugin name terminateThrows).2

/-- The record after a sequence of calls, first to last. -/
def run (EXENG_WINDOWS : Bool) (pm : PluginManager) (calls : List PluginCall) :
    PluginManager :=
  calls.foldl (apply EXENG_WINDOWS) pm

end PluginCall

namespace PluginManager

/-- The registry invariant: the array holds the values of the map, each once; the keys of the
map are distinct; every plugin alive has an address below `next`. -/
def Invariant (pm : PluginManager) : Prop :=
  pm.pluginArray.Perm (pm.plugins.map Prod.snd) ∧ pm.pluginArray.Nodup ∧
  (pm.plugins.map Prod.fst).Nodup ∧ ∀ plugin ∈ pm.pluginArray, plugin < pm.next

end PluginManager

/-- Every load succeeds. -/
def loadOk : LoadEvents := { constructorThrows := false, initializeThrows := false }

/-- A plugin loaded by name, another from a file, the first loaded once more, then
unloaded. -/
def callsPlugins : List PluginCall :=
  [.loadPlugin "xe.gfx.gl3" loadOk, .loadPluginFile "/usr/local/lib/libxe.sfx.so" loadOk,
   .loadPlugin "xe.gfx.gl3" loadOk, .unloadPlugin "xe.gfx.gl3" false]

/-! ## The scan in a build without the asserts -/

namespace RayTracerApp

variable {K : Type} [LinearOrderedField K]

/-- The loop of `RayTracerApp::intersectRay` in a build with `NDEBUG` defined, where the
three `assert`s expand to nothing.  Without the first of them the call `geometry->hit` on
a null pointer is undefined: it is `Except.error`. -/
def intersectRayLoopNDEBUG (ray : Ray K) :
    List (SceneNode K) → IntersectInfo K → IntersectInfo K → IntersectInfo K →
      Except String (IntersectInfo K)
  | [], _, _, info => .ok info
  | node :: rest, prevInfo, currentInfo, info =>
    match node.getDataPtr with
    | none => .error "geometry->hit: null pointer"
    | some geometry =>
      let (result, currentInfo) := geometry.hit ray currentInfo
      if result = true then
        if prevInfo.distance = 0 ∨ currentInfo.distance > prevInfo.distance then
          let info := currentInfo
          intersectRayLoopNDEBUG ray rest currentInfo currentInfo info
        else
          intersectRayLoopNDEBUG ray rest currentInfo currentInfo info
      else
        intersectRayLoopNDEBUG ray rest prevInfo currentInfo info

/-- Method `RayTracerApp::intersectRay(nodes, ray)` in a build with `NDEBUG` defined. -/
def intersectRayNDEBUG (nodes : List (SceneNode K)) (ray : Ray K) :
    Except String (IntersectInfo K) :=
  intersectRayLoopNDEBUG ray nodes IntersectInfo.new IntersectInfo.new IntersectInfo.new

end RayTracerApp

/-- The fields of a hit record other than the normal: flag, distance, material. -/
def IntersectInfo.withoutNormal {K : Type} (info : IntersectInfo K) :
    Bool × K × Option (Material K) :=
  (info.intersect, info.distance, info.materialPtr)

end exeng

namespace exeng

/-! ## Evaluation lemmas -/

theorem sqrtExact_four : sqrtExact 4 = 2 := by
  simp [sqrtExact]

theorem sqrtExact_sixteen : sqrtExact 16 = 4 := by
  simp [sqrtExact]

theorem sqrtExact_196 : sqrtExact 196 = 14 := by
  simp [sqrtExact]

theorem sqrtExact_one : sqrtExact 1 = 1 := by
  simp [sqrtExact]

theorem sqrtExact_25 : sqrtExact 25 = 5 := by
  simp [sqrtExact]

theorem sqrtExact_81 : sqrtExact 81 = 9 := by
  simp [sqrtExact]

/-! ## Sphere::intersect -/

section SphereLemmas

variable {K : Type} [LinearOrderedField K]

theorem Sphere.root1_le_root2 (sqrt : K → K) (s : Sphere K) (ray : Ray K)
    (hsqrt : 0 ≤ sqrt (s.quadDisc ray)) : s.root1 sqrt ray ≤ s.root2 sqrt ray := by
  unfold Sphere.root1 Sphere.root2
  linarith

/-- With a positive discriminant the first half of `intersect` yields the root `t1` and
tests `t1 > 0`. -/
theorem Sphere.solve_of_disc_pos (sqrt : K → K) (s : Sphere K) (ray : Ray K)
    (hdisc : 0 < s.quadDisc ray) (hsqrt : 0 ≤ sqrt (s.quadDisc ray)) :
    s.solve sqrt ray = (decide (0 < s.root1 sqrt ray), s.root1 sqrt ray) := by
  have hle := Sphere.root1_le_root2 sqrt s ray hsqrt
  unfold Sphere.root1 Sphere.root2 at hle
  unfold Sphere.solve Sphere.root1
  simp only [hdisc.ne', if_false, gt_iff_lt, hdisc, if_true, min_eq_left hle]

/-- With a zero discriminant the first half of `intersect` yields `−B/2` and tests it. -/
theorem Sphere.solve_of_disc_zero (sqrt : K → K) (s : Sphere K) (ray : Ray K)
    (hdisc : s.quadDisc ray = 0) :
    s.solve sqrt ray = (decide (0 < -(s.quadB ray) / 2), -(s.quadB ray) / 2) := by
  unfold Sphere.solve
  simp only [hdisc, if_true, gt_iff_lt]

theorem Sphere.solve_of_disc_neg (sqrt : K → K) (s : Sphere K) (ray : Ray K)
    (hdisc : s.quadDisc ray < 0) : s.solve sqrt ray = (false, 0) := by
  unfold Sphere.solve
  simp only [hdisc.ne, if_false, gt_iff_lt, not_lt_of_lt hdisc]

/-- The returned flag of `intersect` is the flag of its first half, whatever the
out-parameter. -/
theorem Sphere.intersect_fst (sqrt : K → K) (s : Sphere K) (ray : Ray K)
    (intersectInfo : Option (IntersectInfo K)) :
    (s.intersect sqrt ray intersectInfo).1 = (s.solve sqrt ray).1 := by
  unfold Sphere.intersect
  cases intersectInfo with
  | none => rfl
  | some info =>
    dsimp only
    split <;> rfl

/-- The out-parameter after `intersect`, when it is not null. -/
theorem Sphere.intersect_snd_some (sqrt : K → K) (s : Sphere K) (ray : Ray K)
    (info : IntersectInfo K) :
    (s.intersect sqrt ray (some info)).2 =
      some (if (s.solve sqrt ray).1 = true then
        { info with
          intersect := true
          normal := (ray.getPointAt (s.solve sqrt ray).2).normalize sqrt
          distance := (s.solve sqrt ray).2 }
        else { info with intersect := false }) := by
  unfold Sphere.intersect
  dsimp only
  cases h : (s.solve sqrt ray).1 <;> simp [h]

/-- C2 (counterexample): the unit sphere at the origin and the ray that starts at its
centre.  The discriminant is `4 > 0` and the root `t2 = 1` is strictly positive, yet
`intersect` reports no hit. -/
theorem Sphere.intersect_from_inside_no_hit :
    0 < sphereOrigin.quadDisc rayZ ∧
    sphereOrigin.root1 sqrtExact rayZ = -1 ∧
    sphereOrigin.root2 sqrtExact rayZ = 1 ∧
    sphereOrigin.intersect sqrtExact rayZ (some IntersectInfo.new) =
      (false, some IntersectInfo.new) ∧
    ¬ ((sphereOrigin.intersect sqrtExact rayZ (some IntersectInfo.new)).1 = true ↔
        (0 < sphereOrigin.root1 sqrtExact rayZ ∨ 0 < sphereOrigin.root2 sqrtExact rayZ)) := by
  have hd : sphereOrigin.quadDisc rayZ = 4 := by
    norm_num [sphereOrigin, rayZ, Sphere.new, Sphere.setAttributes, Sphere.setRadius,
      Sphere.setCenter, Sphere.quadB, Sphere.quadC, Sphere.quadDisc, Sphere.getRadius,
      Sphere.getCenter, Ray.getPoint, Ray.getDirection, Vector3f.sub, Vector3f.dot,
      Vector3f.getMagnitudeSq]
  have hb : sphereOrigin.quadB rayZ = 0 := by
    norm_num [sphereOrigin, rayZ, Sphere.new, Sphere.setAttributes, Sphere.setRadius,
      Sphere.setCenter, Sphere.quadB, Sphere.getCenter, Ray.getPoint, Ray.getDirection,
      Vector3f.sub, Vector3f.dot]
  have h1 : sphereOrigin.root1 sqrtExact rayZ = -1 := by
    norm_num [Sphere.root1, hd, hb, sqrtExact_four]
  have h2 : sphereOrigin.root2 sqrtExact rayZ = 1 := by
    norm_num [Sphere.root2, hd, hb, sqrtExact_four]
  have hs : sphereOrigin.solve sqrtExact rayZ = (false, -1) := by
    rw [Sphere.solve_of_disc_pos sqrtExact _ _ (by rw [hd]; norm_num)
      (by rw [hd, sqrtExact_four]; norm_num), h1]
    norm_num
  have hi : sphereOrigin.intersect sqrtExact rayZ (some IntersectInfo.new) =
      (false, some IntersectInfo.new) := by
    refine Prod.ext ?_ ?_
    · rw [Sphere.intersect_fst, hs]
    · rw [Sphere.intersect_snd_some, hs]
      simp [IntersectInfo.new]
  refine ⟨by rw [hd]; norm_num, h1, h2, hi, ?_⟩
  rw [hi, h1, h2]
  norm_num

/-- C2 (amended): for a positive discriminant (and a non-negative `√disc`), `intersect`
reports a hit exactly when the smaller root `t1 = (−B − √disc)/2` is strictly positive,
that is when both roots are; the distance it stores is then that smaller root
`min(t1, t2)`; and when `t1 ≤ 0` (among others for a ray that starts inside the sphere) it
reports no hit, also if `t2 > 0`. -/
theorem Sphere.intersect_two_roots (sqrt : K → K) (s : Sphere K) (ray : Ray K)
    (info : IntersectInfo K)
    (hdisc : 0 < s.quadDisc ray) (hsqrt : 0 ≤ sqrt (s.quadDisc ray)) :
    ((s.intersect sqrt ray (some info)).1 = true ↔
        (0 < s.root1 sqrt ray ∧ 0 < s.root2 sqrt ray)) ∧
    ((s.intersect sqrt ray (some info)).1 = true →
        (s.intersect sqrt ray (some info)).2 =
          some { info with
            intersect := true
            normal := (ray.getPointAt (s.root1 sqrt ray)).normalize sqrt
            distance := min (s.root1 sqrt ray) (s.root2 sqrt ray) }) ∧
    (s.root1 sqrt ray ≤ 0 →
        s.intersect sqrt ray (some info) = (false, some { info with intersect := false })) := by
  have hle := Sphere.root1_le_root2 sqrt s ray hsqrt
  have hsolve := Sphere.solve_of_disc_pos sqrt s ray hdisc hsqrt
  have hfst := Sphere.intersect_fst sqrt s ray (some info)
  have hsnd := Sphere.intersect_snd_some sqrt s ray info
  rw [hsolve] at hfst hsnd
  refine ⟨?_, ?_, ?_⟩
  · rw [hfst]
    simp only [decide_eq_true_eq]
    exact ⟨fun h => ⟨h, lt_of_lt_of_le h hle⟩, fun h => h.1⟩
  · intro h
    rw [hfst] at h
    have h' : decide (0 < s.root1 sqrt ray) = true := h
    rw [hsnd, min_eq_left hle]
    simp only [h', if_true]
  · intro h
    have hnot : ¬ 0 < s.root1 sqrt ray := not_lt.mpr h
    refine Prod.ext ?_ ?_
    · rw [hfst]
      simp [hnot]
    · rw [hsnd]
      simp [hnot]

/-- C2 (amended), at the unit sphere five units ahead of the ray `rayZ`. -/
theorem Sphere.intersect_two_roots_witness :
    (0 < sphereFive.quadDisc rayZ ∧ 0 ≤ sqrtExact (sphereFive.quadDisc rayZ)) ∧
    (((sphereFive.intersect sqrtExact rayZ (some IntersectInfo.new)).1 = true ↔
        (0 < sphereFive.root1 sqrtExact rayZ ∧ 0 < sphereFive.root2 sqrtExact rayZ)) ∧
    ((sphereFive.intersect sqrtExact rayZ (some IntersectInfo.new)).1 = true →
        (sphereFive.intersect sqrtExact rayZ (some IntersectInfo.new)).2 =
          some { (IntersectInfo.new : IntersectInfo ℚ) with
            intersect := true
            normal := (rayZ.getPointAt (sphereFive.root1 sqrtExact rayZ)).normalize sqrtExact
            distance := min (sphereFive.root1 sqrtExact rayZ)
              (sphereFive.root2 sqrtExact rayZ) }) ∧
    (sphereFive.root1 sqrtExact rayZ ≤ 0 →
        sphereFive.intersect sqrtExact rayZ (some IntersectInfo.new) =
          (false, some { (IntersectInfo.new : IntersectInfo ℚ) with intersect := false }))) := by
  have hd : sphereFive.quadDisc rayZ = 4 := by
    norm_num [sphereFive, rayZ, Sphere.new, Sphere.setAttributes, Sphere.setRadius,
      Sphere.setCenter, Sphere.quadB, Sphere.quadC, Sphere.quadDisc, Sphere.getRadius,
      Sphere.getCenter, Ray.getPoint, Ray.getDirection, Vector3f.sub, Vector3f.dot,
      Vector3f.getMagnitudeSq]
  have h1 : 0 < sphereFive.quadDisc rayZ := by rw [hd]; norm_num
  have h2 : 0 ≤ sqrtExact (sphereFive.quadDisc rayZ) := by rw [hd, sqrtExact_four]; norm_num
  exact ⟨⟨h1, h2⟩, Sphere.intersect_two_roots sqrtExact sphereFive rayZ IntersectInfo.new h1 h2⟩

/-- C3 (failing input): the unit sphere centred at `(0,0,5)` and the ray from the origin
along `+z`.  `intersect` reports the hit at `t = 4` and stores the normal
`normalize(ray.getPointAt(4)) = (0,0,1)`, whereas
`normalize(ray.getPointAt(4) − center) = (0,0,−1)`. -/
theorem Sphere.intersect_normal_ignores_center :
    sphereFive.intersect sqrtExact rayZ (some IntersectInfo.new) =
      (true, some { intersect := true, distance := 4, normal := ⟨0, 0, 1⟩,
                    materialPtr := none }) ∧
    ((rayZ.getPointAt 4).sub sphereFive.getCenter).normalize sqrtExact = ⟨0, 0, -1⟩ ∧
    (rayZ.getPointAt 4).normalize sqrtExact = ⟨0, 0, 1⟩ := by
  refine ⟨?_, ?_, ?_⟩
  · norm_num [sphereFive, rayZ, Sphere.intersect, Sphere.solve, Sphere.new,
      Sphere.setAttributes, Sphere.setRadius, Sphere.setCenter, Sphere.quadB, Sphere.quadC,
      Sphere.quadDisc, Sphere.getRadius, Sphere.getCenter, Ray.getPoint, Ray.getDirection,
      Ray.getPointAt, Vector3f.add, Vector3f.sub, Vector3f.scale, Vector3f.dot,
      Vector3f.getMagnitudeSq, Vector3f.getMagnitude, Vector3f.normalize, IntersectInfo.new,
      Vector3f.splat, sqrtExact_four, sqrtExact_sixteen, min_def]
  · norm_num [sphereFive, rayZ, Sphere.new, Sphere.setAttributes, Sphere.setRadius,
      Sphere.setCenter, Sphere.getCenter, Ray.getPointAt, Vector3f.add, Vector3f.sub,
      Vector3f.scale, Vector3f.getMagnitudeSq, Vector3f.getMagnitude, Vector3f.normalize,
      sqrtExact_one]
  · norm_num [rayZ, Ray.getPointAt, Vector3f.add, Vector3f.scale, Vector3f.getMagnitudeSq,
      Vector3f.getMagnitude, Vector3f.normalize, sqrtExact_sixteen]

/-- C4: when the origin of the ray lies strictly outside the sphere (`|r0 − c|² > r²`) and
the ray points strictly away from the centre (`d·(r0 − c) > 0`), `intersect` returns
`false`, and a non-null out-parameter gets the flag `false` and is otherwise untouched.
Of `std::sqrt` only `0 ≤ √disc` is used. -/
theorem Sphere.intersect_pointing_away (sqrt : K → K) (s : Sphere K) (ray : Ray K)
    (info : IntersectInfo K)
    (hsqrt : 0 ≤ sqrt (s.quadDisc ray))
    (houtside : s.getRadius * s.getRadius < (ray.getPoint.sub s.getCenter).getMagnitudeSq)
    (haway : 0 < ray.getDirection.dot (ray.getPoint.sub s.getCenter)) :
    (s.intersect sqrt ray none).1 = false ∧
    s.intersect sqrt ray (some info) = (false, some { info with intersect := false }) := by
  have hB : 0 < s.quadB ray := by
    unfold Sphere.quadB
    linarith
  have hC : 0 < s.quadC ray := by
    unfold Sphere.quadC
    linarith
  have hsolve : (s.solve sqrt ray).1 = false := by
    rcases lt_trichotomy (s.quadDisc ray) 0 with h | h | h
    · rw [Sphere.solve_of_disc_neg sqrt s ray h]
    · rw [Sphere.solve_of_disc_zero sqrt s ray h]
      have : ¬ 0 < -(s.quadB ray) / 2 := by
        apply not_lt.mpr
        linarith
      simp [this]
    · rw [Sphere.solve_of_disc_pos sqrt s ray h hsqrt]
      have : ¬ 0 < s.root1 sqrt ray := by
        apply not_lt.mpr
        unfold Sphere.root1
        linarith
      simp [this]
  refine ⟨?_, Prod.ext ?_ ?_⟩
  · rw [Sphere.intersect_fst, hsolve]
  · rw [Sphere.intersect_fst, hsolve]
  · rw [Sphere.intersect_snd_some, hsolve]
    simp

/-- C4, at the unit sphere centred at `(0,0,−5)` and the ray from the origin along `+z`. -/
theorem Sphere.intersect_pointing_away_witness :
    (0 ≤ sqrtExact (sphereBehind.quadDisc rayZ) ∧
      sphereBehind.getRadius * sphereBehind.getRadius <
        (rayZ.getPoint.sub sphereBehind.getCenter).getMagnitudeSq ∧
      0 < rayZ.getDirection.dot (rayZ.getPoint.sub sphereBehind.getCenter)) ∧
    ((sphereBehind.intersect sqrtExact rayZ none).1 = false ∧
      sphereBehind.intersect sqrtExact rayZ (some IntersectInfo.new) =
        (false, some { (IntersectInfo.new : IntersectInfo ℚ) with intersect := false })) := by
  have h1 : 0 ≤ sqrtExact (sphereBehind.quadDisc rayZ) := by
    have hd : sphereBehind.quadDisc rayZ = 4 := by
      norm_num [sphereBehind, rayZ, Sphere.new, Sphere.setAttributes, Sphere.setRadius,
        Sphere.setCenter, Sphere.quadB, Sphere.quadC, Sphere.quadDisc, Sphere.getRadius,
        Sphere.getCenter, Ray.getPoint, Ray.getDirection, Vector3f.sub, Vector3f.dot,
        Vector3f.getMagnitudeSq]
    rw [hd, sqrtExact_four]
    norm_num
  have h2 : sphereBehind.getRadius * sphereBehind.getRadius <
      (rayZ.getPoint.sub sphereBehind.getCenter).getMagnitudeSq := by
    norm_num [sphereBehind, rayZ, Sphere.new, Sphere.setAttributes, Sphere.setRadius,
      Sphere.setCenter, Sphere.getRadius, Sphere.getCenter, Ray.getPoint, Vector3f.sub,
      Vector3f.getMagnitudeSq]
  have h3 : 0 < rayZ.getDirection.dot (rayZ.getPoint.sub sphereBehind.getCenter) := by
    norm_num [sphereBehind, rayZ, Sphere.new, Sphere.setAttributes, Sphere.setRadius,
      Sphere.setCenter, Sphere.getCenter, Ray.getPoint, Ray.getDirection, Vector3f.sub,
      Vector3f.dot]
  exact ⟨⟨h1, h2, h3⟩,
    Sphere.intersect_pointing_away sqrtExact sphereBehind rayZ IntersectInfo.new h1 h2 h3⟩

/-- C5 (counterexample): the unit sphere centred at `(0,0,4)` and the ray from the origin
with direction `(0,0,2)`.  The origin is outside the sphere and the direction points from
the origin through the centre, `|origin − center| − radius = 3`, and `intersect` reports
the hit at distance `1`. -/
theorem Sphere.intersect_through_center_not_unit :
    sphereFour.getRadius * sphereFour.getRadius <
      (rayZ2.getPoint.sub sphereFour.getCenter).getMagnitudeSq ∧
    rayZ2.getDirection = (sphereFour.getCenter.sub rayZ2.getPoint).scale (1 / 2) ∧
    (rayZ2.getPoint.sub sphereFour.getCenter).getMagnitude sqrtExact - sphereFour.getRadius
      = 3 ∧
    sphereFour.intersect sqrtExact rayZ2 (some IntersectInfo.new) =
      (true, some { intersect := true, distance := 1, normal := ⟨0, 0, 1⟩,
                    materialPtr := none }) := by
  refine ⟨?_, ?_, ?_, ?_⟩
  · norm_num [sphereFour, rayZ2, Sphere.new, Sphere.setAttributes, Sphere.setRadius,
      Sphere.setCenter, Sphere.getRadius, Sphere.getCenter, Ray.getPoint, Vector3f.sub,
      Vector3f.getMagnitudeSq]
  · norm_num [sphereFour, rayZ2, Sphere.new, Sphere.setAttributes, Sphere.setRadius,
      Sphere.setCenter, Sphere.getCenter, Ray.getPoint, Ray.getDirection, Vector3f.sub,
      Vector3f.scale]
  · norm_num [sphereFour, rayZ2, Sphere.new, Sphere.setAttributes, Sphere.setRadius,
      Sphere.setCenter, Sphere.getRadius, Sphere.getCenter, Ray.getPoint, Vector3f.sub,
      Vector3f.getMagnitudeSq, Vector3f.getMagnitude, sqrtExact_sixteen]
  · norm_num [sphereFour, rayZ2, Sphere.intersect, Sphere.solve, Sphere.new,
      Sphere.setAttributes, Sphere.setRadius, Sphere.setCenter, Sphere.quadB, Sphere.quadC,
      Sphere.quadDisc, Sphere.getRadius, Sphere.getCenter, Ray.getPoint, Ray.getDirection,
      Ray.getPointAt, Vector3f.add, Vector3f.sub, Vector3f.scale, Vector3f.dot,
      Vector3f.getMagnitudeSq, Vector3f.getMagnitude, Vector3f.normalize, IntersectInfo.new,
      Vector3f.splat, sqrtExact_four, sqrtExact_196, min_def]

/-- Every constructed sphere has a non-negative radius. -/
theorem Sphere.new_getRadius_nonneg (radius : K) (center : Vector3f K) :
    0 ≤ (Sphere.new radius center).getRadius := by
  unfold Sphere.new Sphere.setAttributes Sphere.setCenter Sphere.setRadius Sphere.getRadius
  dsimp only
  split
  · exact le_refl 0
  · rename_i h
    exact not_lt.mp h

/-- The hit distance for a unit direction through the centre, for a sphere of
non-negative radius. -/
theorem Sphere.solve_through_center (sqrt : K → K) (s : Sphere K) (ray : Ray K)
    (hr : 0 ≤ s.getRadius)
    (hmag : IsSqrtAt sqrt (ray.getPoint.sub s.getCenter).getMagnitudeSq)
    (houtside : s.getRadius < (ray.getPoint.sub s.getCenter).getMagnitude sqrt)
    (hdir : ray.getDirection = (s.getCenter.sub ray.getPoint).scale
      (1 / (ray.getPoint.sub s.getCenter).getMagnitude sqrt))
    (hdisc : IsSqrtAt sqrt (s.quadDisc ray)) :
    s.solve sqrt ray =
      (true, (ray.getPoint.sub s.getCenter).getMagnitude sqrt - s.getRadius) := by
  obtain ⟨hL0, hL2⟩ := hmag
  obtain ⟨hs0, hs2⟩ := hdisc
  have hLdef : (ray.getPoint.sub s.getCenter).getMagnitude sqrt =
      sqrt (ray.getPoint.sub s.getCenter).getMagnitudeSq := rfl
  rw [hLdef] at houtside hdir ⊢
  generalize hL : sqrt (ray.getPoint.sub s.getCenter).getMagnitudeSq = L at *
  have hLpos : 0 < L := lt_of_le_of_lt hr houtside
  have hLne : L ≠ 0 := ne_of_gt hLpos
  have hB : s.quadB ray = -(2 * L) := by
    unfold Sphere.quadB
    rw [hdir]
    have hdot : ((s.getCenter.sub ray.getPoint).scale (1 / L)).dot
        (ray.getPoint.sub s.getCenter) =
        -((1 / L) * (ray.getPoint.sub s.getCenter).getMagnitudeSq) := by
      simp only [Vector3f.dot, Vector3f.scale, Vector3f.sub, Vector3f.getMagnitudeSq]
      ring
    rw [hdot, ← hL2]
    field_simp
  have hC : s.quadC ray = L * L - s.getRadius * s.getRadius := by
    unfold Sphere.quadC
    rw [← hL2]
  have hD : s.quadDisc ray = 4 * (s.getRadius * s.getRadius) := by
    unfold Sphere.quadDisc
    rw [hB, hC]
    ring
  rcases eq_or_lt_of_le hr with h0 | hpos
  · have hD0 : s.quadDisc ray = 0 := by
      rw [hD, ← h0]
      ring
    rw [Sphere.solve_of_disc_zero sqrt s ray hD0, hB, ← h0]
    have e : -(-(2 * L)) / 2 = L := by ring
    rw [e, sub_zero]
    simp [hLpos]
  · have hDpos : 0 < s.quadDisc ray := by
      rw [hD]
      positivity
    have hroot : sqrt (s.quadDisc ray) = 2 * s.getRadius := by
      have hsq : sqrt (s.quadDisc ray) * sqrt (s.quadDisc ray) =
          (2 * s.getRadius) * (2 * s.getRadius) := by
        rw [hs2, hD]
        ring
      have h2r : 0 ≤ 2 * s.getRadius := by linarith
      exact (mul_self_inj hs0 h2r).mp hsq
    rw [Sphere.solve_of_disc_pos sqrt s ray hDpos hs0]
    have h1 : s.root1 sqrt ray = L - s.getRadius := by
      unfold Sphere.root1
      rw [hroot, hB]
      ring
    rw [h1]
    have : 0 < L - s.getRadius := by linarith
    simp [this]

/-- C5 (amended): for every constructed sphere and every ray whose origin lies outside it
and whose direction is the unit vector from the origin towards the centre,
`(center − origin) / |origin − center|`, `intersect` reports a hit and the distance it
stores is `|origin − center| − radius`.  `std::sqrt` is taken exact at `|origin − center|²`
and at the discriminant. -/
theorem Sphere.intersect_through_center (sqrt : K → K) (radius : K) (center : Vector3f K)
    (ray : Ray K) (info : IntersectInfo K)
    (hmag : IsSqrtAt sqrt (ray.getPoint.sub (Sphere.new radius center).getCenter).getMagnitudeSq)
    (houtside : (Sphere.new radius center).getRadius <
      (ray.getPoint.sub (Sphere.new radius center).getCenter).getMagnitude sqrt)
    (hdir : ray.getDirection = ((Sphere.new radius center).getCenter.sub ray.getPoint).scale
      (1 / (ray.getPoint.sub (Sphere.new radius center).getCenter).getMagnitude sqrt))
    (hdisc : IsSqrtAt sqrt ((Sphere.new radius center).quadDisc ray)) :
    ((Sphere.new radius center).intersect sqrt ray (some info)).1 = true ∧
    ((Sphere.new radius center).intersect sqrt ray (some info)).2.map IntersectInfo.distance =
      some ((ray.getPoint.sub (Sphere.new radius center).getCenter).getMagnitude sqrt -
        (Sphere.new radius center).getRadius) := by
  have hsolve := Sphere.solve_through_center sqrt (Sphere.new radius center) ray
    (Sphere.new_getRadius_nonneg radius center) hmag houtside hdir hdisc
  refine ⟨?_, ?_⟩
  · rw [Sphere.intersect_fst, hsolve]
  · rw [Sphere.intersect_snd_some, hsolve]
    simp

/-- C5 (amended), at the unit sphere centred at `(0,0,5)` and the ray from the origin with
direction `(0,0,1)`: the hit distance is `5 − 1`. -/
theorem Sphere.intersect_through_center_witness :
    (IsSqrtAt sqrtExact (rayZ.getPoint.sub (Sphere.new 1 ⟨0, 0, 5⟩).getCenter).getMagnitudeSq ∧
      (Sphere.new (1 : ℚ) ⟨0, 0, 5⟩).getRadius <
        (rayZ.getPoint.sub (Sphere.new 1 ⟨0, 0, 5⟩).getCenter).getMagnitude sqrtExact ∧
      rayZ.getDirection = ((Sphere.new 1 ⟨0, 0, 5⟩).getCenter.sub rayZ.getPoint).scale
        (1 / (rayZ.getPoint.sub (Sphere.new 1 ⟨0, 0, 5⟩).getCenter).getMagnitude sqrtExact) ∧
      IsSqrtAt sqrtExact ((Sphere.new 1 ⟨0, 0, 5⟩).quadDisc rayZ)) ∧
    (((Sphere.new 1 ⟨0, 0, 5⟩).intersect sqrtExact rayZ (some IntersectInfo.new)).1 = true ∧
      ((Sphere.new 1 ⟨0, 0, 5⟩).intersect sqrtExact rayZ (some IntersectInfo.new)).2.map
          IntersectInfo.distance =
        some ((rayZ.getPoint.sub (Sphere.new 1 ⟨0, 0, 5⟩).getCenter).getMagnitude sqrtExact -
          (Sphere.new (1 : ℚ) ⟨0, 0, 5⟩).getRadius)) := by
  have hm : (rayZ.getPoint.sub (Sphere.new 1 ⟨0, 0, 5⟩).getCenter).getMagnitudeSq = 25 := by
    norm_num [rayZ, Sphere.new, Sphere.setAttributes, Sphere.setRadius, Sphere.setCenter,
      Sphere.getCenter, Ray.getPoint, Vector3f.sub, Vector3f.getMagnitudeSq]
  have hd : (Sphere.new (1 : ℚ) ⟨0, 0, 5⟩).quadDisc rayZ = 4 := by
    norm_num [rayZ, Sphere.new, Sphere.setAttributes, Sphere.setRadius,
      Sphere.setCenter, Sphere.quadB, Sphere.quadC, Sphere.quadDisc, Sphere.getRadius,
      Sphere.getCenter, Ray.getPoint, Ray.getDirection, Vector3f.sub, Vector3f.dot,
      Vector3f.getMagnitudeSq]
  have h1 : IsSqrtAt sqrtExact
      (rayZ.getPoint.sub (Sphere.new 1 ⟨0, 0, 5⟩).getCenter).getMagnitudeSq := by
    rw [hm, IsSqrtAt, sqrtExact_25]
    norm_num
  have h2 : (Sphere.new (1 : ℚ) ⟨0, 0, 5⟩).getRadius <
      (rayZ.getPoint.sub (Sphere.new 1 ⟨0, 0, 5⟩).getCenter).getMagnitude sqrtExact := by
    rw [Vector3f.getMagnitude, hm, sqrtExact_25]
    norm_num [Sphere.new, Sphere.setAttributes, Sphere.setRadius, Sphere.setCenter,
      Sphere.getRadius]
  have h3 : rayZ.getDirection = ((Sphere.new 1 ⟨0, 0, 5⟩).getCenter.sub rayZ.getPoint).scale
      (1 / (rayZ.getPoint.sub (Sphere.new 1 ⟨0, 0, 5⟩).getCenter).getMagnitude sqrtExact) := by
    rw [Vector3f.getMagnitude, hm, sqrtExact_25]
    norm_num [rayZ, Sphere.new, Sphere.setAttributes, Sphere.setRadius, Sphere.setCenter,
      Sphere.getCenter, Ray.getPoint, Ray.getDirection, Vector3f.sub, Vector3f.scale]
  have h4 : IsSqrtAt sqrtExact ((Sphere.new 1 ⟨0, 0, 5⟩).quadDisc rayZ) := by
    rw [hd, IsSqrtAt, sqrtExact_four]
    norm_num
  exact ⟨⟨h1, h2, h3, h4⟩,
    Sphere.intersect_through_center sqrtExact 1 ⟨0, 0, 5⟩ rayZ IntersectInfo.new h1 h2 h3 h4⟩

end SphereLemmas

/-! ## Camera -/

section CameraLemmas

variable {K : Type} [LinearOrderedField K]

/-- C6: `setOrientation(p, p)` throws `std::invalid_argument` for every camera and every
point `p`; `setOrientation(pos, lookAt)` throws exactly when `pos == lookAt`, and
otherwise stores `pos` and `lookAt` and nothing else. -/
theorem Camera.setOrientation_throws_iff (cam : Camera K) (p pos lookAt : Vector3f K) :
    cam.setOrientation p p = .error Camera.invalidArgument ∧
    ((∃ msg, cam.setOrientation pos lookAt = .error msg) ↔ pos = lookAt) ∧
    (pos ≠ lookAt →
      cam.setOrientation pos lookAt = .ok { cam with position := pos, lookAt := lookAt }) := by
  refine ⟨?_, ?_, ?_⟩
  · simp [Camera.setOrientation]
  · by_cases h : pos = lookAt
    · simp [Camera.setOrientation, h]
    · simp [Camera.setOrientation, h]
  · intro h
    simp [Camera.setOrientation, h]

/-- C6, on a fresh camera with `pos = (2,0,0)` and `lookAt = (0,0,0)`. -/
theorem Camera.setOrientation_throws_iff_witness :
    (⟨2, 0, 0⟩ : Vector3f ℚ) ≠ ⟨0, 0, 0⟩ ∧
    cameraFresh.setOrientation ⟨2, 0, 0⟩ ⟨0, 0, 0⟩ =
      .ok { cameraFresh with position := ⟨2, 0, 0⟩, lookAt := ⟨0, 0, 0⟩ } := by
  have h : (⟨2, 0, 0⟩ : Vector3f ℚ) ≠ ⟨0, 0, 0⟩ := by simp
  exact ⟨h, (Camera.setOrientation_throws_iff cameraFresh ⟨1, 1, 1⟩ ⟨2, 0, 0⟩ ⟨0, 0, 0⟩).2.2 h⟩

/-- C7 (failing input): a viewport of width `0` and height `5` (area zero) and one of
width `−1` and height `5` (negative area) are both stored by `setViewport`, which throws
only for the size `(0,0)`. -/
theorem Camera.setViewport_stores_degenerate :
    viewportZeroWidth.getSize = ⟨0, 5⟩ ∧
    cameraFresh.setViewport viewportZeroWidth =
      .ok { cameraFresh with viewport := viewportZeroWidth } ∧
    viewportNegativeWidth.getSize = ⟨-1, 5⟩ ∧
    cameraFresh.setViewport viewportNegativeWidth =
      .ok { cameraFresh with viewport := viewportNegativeWidth } := by
  refine ⟨?_, ?_, ?_, ?_⟩
  · norm_num [viewportZeroWidth, Rectf.getSize]
  · norm_num [Camera.setViewport, viewportZeroWidth, Rectf.getSize]
  · norm_num [viewportNegativeWidth, Rectf.getSize]
  · norm_num [Camera.setViewport, viewportNegativeWidth, Rectf.getSize]

/-- C8 (counterexample): in a build without `EXENG_DEBUG`, `setUp` with the zero vector
does not throw; it overwrites the stored up vector with the normalized argument. -/
theorem Camera.setUp_zero_release_build :
    Camera.setUp false sqrtExact cameraFresh (Vector3f.splat 0) =
      .ok { cameraFresh with up := (Vector3f.splat 0).normalize sqrtExact } ∧
    (cameraFresh.after (Camera.setUp false sqrtExact cameraFresh (Vector3f.splat 0))).up ≠
      cameraFresh.up := by
  have h : Camera.setUp false sqrtExact cameraFresh (Vector3f.splat 0) =
      .ok { cameraFresh with up := (Vector3f.splat 0).normalize sqrtExact } := by
    simp [Camera.setUp]
  refine ⟨h, ?_⟩
  rw [h]
  simp [Camera.after, cameraFresh, Camera.new, Vector3f.normalize, Vector3f.scale,
    Vector3f.splat]

/-- C8 (amended): in a build with `EXENG_DEBUG` defined, `setUp(v)` with a zero-length `v`
throws `std::invalid_argument` and leaves the stored up vector unchanged; in a build
without it `setUp` never throws and stores the normalized argument. -/
theorem Camera.setUp_zero_debug_build (sqrt : K → K) (cam : Camera K) (v up : Vector3f K)
    (hv : v.isZero = true) :
    Camera.setUp true sqrt cam v =
      .error "exeng::scenegraph::Camera::setUp: The length of the up vector can't be zero." ∧
    (cam.after (Camera.setUp true sqrt cam v)).up = cam.up ∧
    Camera.setUp false sqrt cam up = .ok { cam with up := up.normalize sqrt } := by
  refine ⟨?_, ?_, ?_⟩
  · simp [Camera.setUp, hv]
  · simp [Camera.setUp, hv, Camera.after]
  · simp [Camera.setUp]

/-- C8 (amended), on a fresh camera with the zero vector. -/
theorem Camera.setUp_zero_debug_build_witness :
    (Vector3f.splat 0 : Vector3f ℚ).isZero = true ∧
    (Camera.setUp true sqrtExact cameraFresh (Vector3f.splat 0) =
      .error "exeng::scenegraph::Camera::setUp: The length of the up vector can't be zero." ∧
    (cameraFresh.after (Camera.setUp true sqrtExact cameraFresh (Vector3f.splat 0))).up =
      cameraFresh.up ∧
    Camera.setUp false sqrtExact cameraFresh ⟨0, 2, 0⟩ =
      .ok { cameraFresh with up := (⟨0, 2, 0⟩ : Vector3f ℚ).normalize sqrtExact }) := by
  have h : (Vector3f.splat 0 : Vector3f ℚ).isZero = true := by simp [Vector3f.isZero]
  exact ⟨h, Camera.setUp_zero_debug_build sqrtExact cameraFresh (Vector3f.splat 0) ⟨0, 2, 0⟩ h⟩

/-- A call of `setOrientation`, `setPosition` or `setLookAt`, throwing or not, keeps
`lookAt ≠ position`. -/
theorem CameraCall.apply_preserves (cam : Camera K) (call : CameraCall K)
    (h : cam.lookAt ≠ cam.position) :
    (CameraCall.apply cam call).lookAt ≠ (CameraCall.apply cam call).position := by
  cases call with
  | setOrientation pos lookAt =>
    by_cases hp : pos = lookAt
    · simpa [CameraCall.apply, Camera.setOrientation, Camera.after, hp] using h
    · simpa [CameraCall.apply, Camera.setOrientation, Camera.after, hp] using Ne.symm hp
  | setPosition pos =>
    by_cases hp : pos = cam.lookAt
    · simpa [CameraCall.apply, Camera.setPosition, Camera.after, hp] using h
    · simpa [CameraCall.apply, Camera.setPosition, Camera.after, hp] using Ne.symm hp
  | setLookAt lookAt =>
    by_cases hp : cam.position = lookAt
    · simpa [CameraCall.apply, Camera.setLookAt, Camera.after, hp] using h
    · simpa [CameraCall.apply, Camera.setLookAt, Camera.after, hp] using Ne.symm hp

theorem CameraCall.run_preserves (calls : List (CameraCall K)) :
    ∀ cam : Camera K, cam.lookAt ≠ cam.position →
      (CameraCall.run cam calls).lookAt ≠ (CameraCall.run cam calls).position := by
  induction calls with
  | nil => intro cam h; exact h
  | cons call rest ih =>
    intro cam h
    exact ih (CameraCall.apply cam call) (CameraCall.apply_preserves cam call h)

/-- C9: in every camera state reached from the constructor by any sequence of
`setOrientation`, `setPosition` and `setLookAt` calls, throwing or not, the stored look-at
target differs from the stored position.  The constructor sets `position = (0,0,1)` and
leaves `lookAt` default-constructed; the default-constructed vector is the parameter
`lookAt0`, and it is taken to differ from `(0,0,1)` (as the zero vector does). -/
theorem Camera.lookAt_ne_position (lookAt0 : Vector3f K) (viewport0 : Rectf K)
    (proj0 : CameraProjection) (calls : List (CameraCall K))
    (h0 : lookAt0 ≠ ⟨0, 0, 1⟩) :
    (CameraCall.run (Camera.new lookAt0 viewport0 proj0) calls).lookAt ≠
      (CameraCall.run (Camera.new lookAt0 viewport0 proj0) calls).position :=
  CameraCall.run_preserves calls (Camera.new lookAt0 viewport0 proj0) h0

/-- C9, on the fresh camera with a zero `lookAt` and four calls, two of which throw. -/
theorem Camera.lookAt_ne_position_witness :
    (⟨0, 0, 0⟩ : Vector3f ℚ) ≠ ⟨0, 0, 1⟩ ∧
    (CameraCall.run (Camera.new ⟨0, 0, 0⟩ viewportUnit CameraProjection.perspective)
        callsExample).lookAt ≠
      (CameraCall.run (Camera.new ⟨0, 0, 0⟩ viewportUnit CameraProjection.perspective)
        callsExample).position := by
  have h : (⟨0, 0, 0⟩ : Vector3f ℚ) ≠ ⟨0, 0, 1⟩ := by simp
  exact ⟨h, Camera.lookAt_ne_position ⟨0, 0, 0⟩ viewportUnit CameraProjection.perspective
    callsExample h⟩

end CameraLemmas

/-! ## Scene traversal -/

section TraversalLemmas

/-- C1 (failing input): the node list `[nodeNear, nodeFar]` and the ray from the origin
along `+z`.  Both spheres are hit, the near one at distance `4` and the far one at
distance `9`; `intersectRay` returns the hit on the far sphere, in either order of the
two nodes. -/
theorem RayTracerApp.intersectRay_returns_farther :
    SphereGeometry.hit sqrtExact ⟨sphereFive, materialA⟩ rayZ IntersectInfo.new =
      (true, { intersect := true, distance := 4, normal := ⟨0, 0, 1⟩,
               materialPtr := some materialA }) ∧
    SphereGeometry.hit sqrtExact ⟨sphereTen, materialB⟩ rayZ IntersectInfo.new =
      (true, { intersect := true, distance := 9, normal := ⟨0, 0, 1⟩,
               materialPtr := some materialB }) ∧
    RayTracerApp.intersectRay [nodeNear, nodeFar] rayZ =
      .ok { intersect := true, distance := 9, normal := ⟨0, 0, 1⟩,
            materialPtr := some materialB } ∧
    RayTracerApp.intersectRay [nodeFar, nodeNear] rayZ =
      .ok { intersect := true, distance := 9, normal := ⟨0, 0, 1⟩,
            materialPtr := some materialB } := by
  refine ⟨?_, ?_, ?_, ?_⟩
  · norm_num [SphereGeometry.hit, sphereFive, rayZ, Sphere.intersect, Sphere.solve, Sphere.new,
      Sphere.setAttributes, Sphere.setRadius, Sphere.setCenter, Sphere.quadB, Sphere.quadC,
      Sphere.quadDisc, Sphere.getRadius, Sphere.getCenter, Ray.getPoint, Ray.getDirection,
      Ray.getPointAt, Vector3f.add, Vector3f.sub, Vector3f.scale, Vector3f.dot,
      Vector3f.getMagnitudeSq, Vector3f.getMagnitude, Vector3f.normalize, IntersectInfo.new,
      Vector3f.splat, sqrtExact_four, sqrtExact_sixteen, min_def]
  · norm_num [SphereGeometry.hit, sphereTen, rayZ, Sphere.intersect, Sphere.solve, Sphere.new,
      Sphere.setAttributes, Sphere.setRadius, Sphere.setCenter, Sphere.quadB, Sphere.quadC,
      Sphere.quadDisc, Sphere.getRadius, Sphere.getCenter, Ray.getPoint, Ray.getDirection,
      Ray.getPointAt, Vector3f.add, Vector3f.sub, Vector3f.scale, Vector3f.dot,
      Vector3f.getMagnitudeSq, Vector3f.getMagnitude, Vector3f.normalize, IntersectInfo.new,
      Vector3f.splat, sqrtExact_four, sqrtExact_81, min_def]
  · norm_num [RayTracerApp.intersectRay, RayTracerApp.intersectRayLoop, nodeNear, nodeFar,
      SceneNode.getDataPtr, SphereGeometry.toData,
      SphereGeometry.hit, sphereFive, sphereTen, rayZ, Sphere.intersect, Sphere.solve,
      Sphere.new,
      Sphere.setAttributes, Sphere.setRadius, Sphere.setCenter, Sphere.quadB, Sphere.quadC,
      Sphere.quadDisc, Sphere.getRadius, Sphere.getCenter, Ray.getPoint, Ray.getDirection,
      Ray.getPointAt, Vector3f.add, Vector3f.sub, Vector3f.scale, Vector3f.dot,
      Vector3f.getMagnitudeSq, Vector3f.getMagnitude, Vector3f.normalize, IntersectInfo.new,
      Vector3f.splat, sqrtExact_four, sqrtExact_sixteen, sqrtExact_81, min_def]
  · norm_num [RayTracerApp.intersectRay, RayTracerApp.intersectRayLoop, nodeNear, nodeFar,
      SceneNode.getDataPtr, SphereGeometry.toData,
      SphereGeometry.hit, sphereFive, sphereTen, rayZ, Sphere.intersect, Sphere.solve,
      Sphere.new,
      Sphere.setAttributes, Sphere.setRadius, Sphere.setCenter, Sphere.quadB, Sphere.quadC,
      Sphere.quadDisc, Sphere.getRadius, Sphere.getCenter, Ray.getPoint, Ray.getDirection,
      Ray.getPointAt, Vector3f.add, Vector3f.sub, Vector3f.scale, Vector3f.dot,
      Vector3f.getMagnitudeSq, Vector3f.getMagnitude, Vector3f.normalize, IntersectInfo.new,
      Vector3f.splat, sqrtExact_four, sqrtExact_sixteen, sqrtExact_81, min_def]

variable {K : Type}

mutual
/-- What `flattenHierarchy` appends: the geometry-bearing nodes of the tree in pre-order. -/
theorem RayTracerApp.flattenHierarchy_eq :
    ∀ (out : List (SceneNode K)) (node : SceneNode K),
      RayTracerApp.flattenHierarchy out node =
        out ++ node.preorder.filter RayTracerApp.hasGeometry
  | out, .mk name data childs => by
    rw [RayTracerApp.flattenHierarchy, SceneNode.preorder, List.filter_cons]
    cases h : RayTracerApp.hasGeometry (SceneNode.mk name data childs)
    · have e := RayTracerApp.flattenChilds_eq out childs
      simpa using e
    · have e := RayTracerApp.flattenChilds_eq (out ++ [SceneNode.mk name data childs]) childs
      simpa using e
/-- What the loop over the children appends. -/
theorem RayTracerApp.flattenChilds_eq :
    ∀ (out : List (SceneNode K)) (childs : List (SceneNode K)),
      RayTracerApp.flattenChilds out childs =
        out ++ (SceneNode.preorderList childs).filter RayTracerApp.hasGeometry
  | out, [] => by
    rw [RayTracerApp.flattenChilds, SceneNode.preorderList]
    simp
  | out, child :: rest => by
    rw [RayTracerApp.flattenChilds, SceneNode.preorderList,
      RayTracerApp.flattenHierarchy_eq out child,
      RayTracerApp.flattenChilds_eq (out ++ child.preorder.filter RayTracerApp.hasGeometry) rest]
    simp
end

end TraversalLemmas

/-! ## More on Sphere -/

section SphereMore

variable {K : Type} [LinearOrderedField K]

/-- The exact square root of the square of a natural number. -/
theorem sqrtExact_natCast_sq (n : ℕ) : sqrtExact ((n * n : ℕ) : ℚ) = n := by
  unfold sqrtExact
  have hnum : (((n * n : ℕ) : ℚ)).num = ((n * n : ℕ) : ℤ) := Rat.num_natCast _
  have hden : (((n * n : ℕ) : ℚ)).den = 1 := Rat.den_natCast _
  rw [hnum, hden, Int.toNat_natCast]
  have h1 : Nat.findGreatest (fun k => k * k ≤ n * n) (n * n) = n := by
    rw [Nat.findGreatest_eq_iff]
    refine ⟨Nat.le_mul_self n, fun _ => le_refl _, ?_⟩
    intro m hm _ hle
    have := Nat.mul_self_lt_mul_self hm
    omega
  have h2 : Nat.findGreatest (fun k => k * k ≤ 1) 1 = 1 := by decide
  rw [h1, h2]
  simp

theorem sqrtExact_zero : sqrtExact 0 = 0 := by
  simp [sqrtExact]

theorem sqrtExact_nine : sqrtExact 9 = 3 := by
  simp [sqrtExact]

theorem sqrtExact_nonneg (x : ℚ) : 0 ≤ sqrtExact x := by
  unfold sqrtExact
  exact div_nonneg (Nat.cast_nonneg _) (Nat.cast_nonneg _)

/-- The flag that `SphereGeometry::hit` returns is the flag of the sphere's test. -/
theorem SphereGeometry.hit_fst (sqrt : K → K) (g : SphereGeometry K) (ray : Ray K)
    (info : IntersectInfo K) :
    (g.hit sqrt ray info).1 = (g.sphere.solve sqrt ray).1 := by
  have h1 := Sphere.intersect_fst sqrt g.sphere ray (some info)
  have h2 := Sphere.intersect_snd_some sqrt g.sphere ray info
  unfold SphereGeometry.hit
  generalize g.sphere.intersect sqrt ray (some info) = r at h1 h2
  obtain ⟨res, out⟩ := r
  simp only at h1 h2
  subst h2
  simp only
  exact h1

/-- C14: after `setRadius(r)`, after `setAttributes(r, c)` and after each constructor
called with radius `r` (`Sphere()` has `r = 1`), `getRadius()` is `max(r, 0)`: a negative
radius is stored as zero, a non-negative one unchanged, and the stored radius is never
negative. -/
theorem Sphere.getRadius_eq_max (s : Sphere K) (r : K) (c : Vector3f K) :
    (s.setRadius r).getRadius = max r 0 ∧
    (s.setAttributes r c).getRadius = max r 0 ∧
    (Sphere.new r c).getRadius = max r 0 ∧
    (Sphere.newRadius r).getRadius = max r 0 ∧
    (Sphere.newDefault : Sphere K).getRadius = max 1 0 ∧
    0 ≤ (s.setRadius r).getRadius := by
  have key : ∀ (t : Sphere K) (x : K), (t.setRadius x).getRadius = max x 0 := by
    intro t x
    unfold Sphere.setRadius Sphere.getRadius
    dsimp only
    by_cases h : x < 0
    · rw [if_pos h, max_eq_right (le_of_lt h)]
    · rw [if_neg h, max_eq_left (not_lt.mp h)]
  refine ⟨key s r, key s r, key ⟨c, r⟩ r, key ⟨Vector3f.splat 0, r⟩ r,
    key ⟨Vector3f.splat 0, 1⟩ 1, ?_⟩
  rw [key s r]
  exact le_max_right r 0

/-- C15: for a zero discriminant `intersect` reports a hit if and only if `t = −B/2` is
strictly positive, and on a hit the distance stored in a supplied `IntersectInfo` is
`−B/2` (with the normal `normalize(ray.getPointAt(−B/2))`). -/
theorem Sphere.intersect_tangent (sqrt : K → K) (s : Sphere K) (ray : Ray K)
    (info : IntersectInfo K) (hdisc : s.quadDisc ray = 0) :
    ((s.intersect sqrt ray none).1 = true ↔ 0 < -(s.quadB ray) / 2) ∧
    ((s.intersect sqrt ray (some info)).1 = true ↔ 0 < -(s.quadB ray) / 2) ∧
    (0 < -(s.quadB ray) / 2 →
      s.intersect sqrt ray (some info) =
        (true, some { info with
          intersect := true
          normal := (ray.getPointAt (-(s.quadB ray) / 2)).normalize sqrt
          distance := -(s.quadB ray) / 2 })) ∧
    (¬ 0 < -(s.quadB ray) / 2 →
      s.intersect sqrt ray (some info) = (false, some { info with intersect := false })) := by
  have hsolve := Sphere.solve_of_disc_zero sqrt s ray hdisc
  refine ⟨?_, ?_, ?_, ?_⟩
  · rw [Sphere.intersect_fst, hsolve]
    simp
  · rw [Sphere.intersect_fst, hsolve]
    simp
  · intro h
    refine Prod.ext ?_ ?_
    · rw [Sphere.intersect_fst, hsolve]
      simp [h]
    · rw [Sphere.intersect_snd_some, hsolve]
      simp [h]
  · intro h
    refine Prod.ext ?_ ?_
    · rw [Sphere.intersect_fst, hsolve]
      simp [h]
    · rw [Sphere.intersect_snd_some, hsolve]
      simp [h]

/-- C15, at the unit sphere centred at `(1,0,5)` and the ray from the origin along `+z`,
which touches it at `t = 5`. -/
theorem Sphere.intersect_tangent_witness :
    sphereTangent.quadDisc rayZ = 0 ∧
    (0 < -(sphereTangent.quadB rayZ) / 2 ∧
      sphereTangent.intersect sqrtExact rayZ (some IntersectInfo.new) =
        (true, some { (IntersectInfo.new : IntersectInfo ℚ) with
          intersect := true
          normal := (rayZ.getPointAt (-(sphereTangent.quadB rayZ) / 2)).normalize sqrtExact
          distance := -(sphereTangent.quadB rayZ) / 2 })) := by
  have hd : sphereTangent.quadDisc rayZ = 0 := by
    norm_num [sphereTangent, rayZ, Sphere.new, Sphere.setAttributes, Sphere.setRadius,
      Sphere.setCenter, Sphere.quadB, Sphere.quadC, Sphere.quadDisc, Sphere.getRadius,
      Sphere.getCenter, Ray.getPoint, Ray.getDirection, Vector3f.sub, Vector3f.dot,
      Vector3f.getMagnitudeSq]
  have hb : 0 < -(sphereTangent.quadB rayZ) / 2 := by
    norm_num [sphereTangent, rayZ, Sphere.new, Sphere.setAttributes, Sphere.setRadius,
      Sphere.setCenter, Sphere.quadB, Sphere.getCenter, Ray.getPoint, Ray.getDirection,
      Vector3f.sub, Vector3f.dot]
  exact ⟨hd, hb,
    (Sphere.intersect_tangent sqrtExact sphereTangent rayZ IntersectInfo.new hd).2.2.1 hb⟩

/-- C16: for a strictly negative discriminant `intersect` returns `false`, and a supplied
`IntersectInfo` gets the flag `false` and is otherwise left as it was. -/
theorem Sphere.intersect_no_root (sqrt : K → K) (s : Sphere K) (ray : Ray K)
    (info : IntersectInfo K) (hdisc : s.quadDisc ray < 0) :
    (s.intersect sqrt ray none).1 = false ∧
    s.intersect sqrt ray (some info) = (false, some { info with intersect := false }) := by
  have hsolve := Sphere.solve_of_disc_neg sqrt s ray hdisc
  refine ⟨?_, Prod.ext ?_ ?_⟩
  · rw [Sphere.intersect_fst, hsolve]
  · rw [Sphere.intersect_fst, hsolve]
  · rw [Sphere.intersect_snd_some, hsolve]
    simp

/-- C16, at the unit sphere centred at `(5,0,0)` and the ray from the origin along `+z`. -/
theorem Sphere.intersect_no_root_witness :
    sphereBeside.quadDisc rayZ < 0 ∧
    ((sphereBeside.intersect sqrtExact rayZ none).1 = false ∧
      sphereBeside.intersect sqrtExact rayZ (some IntersectInfo.new) =
        (false, some { (IntersectInfo.new : IntersectInfo ℚ) with intersect := false })) := by
  have hd : sphereBeside.quadDisc rayZ < 0 := by
    norm_num [sphereBeside, rayZ, Sphere.new, Sphere.setAttributes, Sphere.setRadius,
      Sphere.setCenter, Sphere.quadB, Sphere.quadC, Sphere.quadDisc, Sphere.getRadius,
      Sphere.getCenter, Ray.getPoint, Ray.getDirection, Vector3f.sub, Vector3f.dot,
      Vector3f.getMagnitudeSq]
  exact ⟨hd, Sphere.intersect_no_root sqrtExact sphereBeside rayZ IntersectInfo.new hd⟩

end SphereMore

/-! ## More on the scan of the node list -/

section ScanMore

/-- C12 (failing input): the node list `[nodeSix, nodeFour, nodeSeven]` and the ray from
the origin along `+z`.  The three spheres are hit at distances `5`, `3` and `5`;
`intersectRay` returns the hit at distance `5` on the third node (`materialC`), although
the first node is hit at the same distance.  With the two tied nodes alone,
`[nodeSix, nodeSeven]`, it returns the first. -/
theorem RayTracerApp.intersectRay_tie_returns_later :
    SphereGeometry.hit sqrtExact ⟨sphereSix, materialA⟩ rayZ IntersectInfo.new =
      (true, { intersect := true, distance := 5, normal := ⟨0, 0, 1⟩,
               materialPtr := some materialA }) ∧
    SphereGeometry.hit sqrtExact ⟨sphereFour, materialB⟩ rayZ IntersectInfo.new =
      (true, { intersect := true, distance := 3, normal := ⟨0, 0, 1⟩,
               materialPtr := some materialB }) ∧
    SphereGeometry.hit sqrtExact ⟨sphereSeven, materialC⟩ rayZ IntersectInfo.new =
      (true, { intersect := true, distance := 5, normal := ⟨0, 0, 1⟩,
               materialPtr := some materialC }) ∧
    RayTracerApp.intersectRay [nodeSix, nodeFour, nodeSeven] rayZ =
      .ok { intersect := true, distance := 5, normal := ⟨0, 0, 1⟩,
            materialPtr := some materialC } ∧
    RayTracerApp.intersectRay [nodeSix, nodeSeven] rayZ =
      .ok { intersect := true, distance := 5, normal := ⟨0, 0, 1⟩,
            materialPtr := some materialA } := by
  refine ⟨?_, ?_, ?_, ?_, ?_⟩
  · norm_num [SphereGeometry.hit, sphereSix, rayZ, sqrtExact_four, sqrtExact_25, Sphere.intersect, Sphere.solve, Sphere.new,
      Sphere.setAttributes, Sphere.setRadius, Sphere.setCenter, Sphere.quadB, Sphere.quadC,
      Sphere.quadDisc, Sphere.getRadius, Sphere.getCenter, Ray.getPoint, Ray.getDirection,
      Ray.getPointAt, Vector3f.add, Vector3f.sub, Vector3f.scale, Vector3f.dot,
      Vector3f.getMagnitudeSq, Vector3f.getMagnitude, Vector3f.normalize, IntersectInfo.new,
      Vector3f.splat, min_def]
  · norm_num [SphereGeometry.hit, sphereFour, rayZ, sqrtExact_four, sqrtExact_nine, Sphere.intersect, Sphere.solve, Sphere.new,
      Sphere.setAttributes, Sphere.setRadius, Sphere.setCenter, Sphere.quadB, Sphere.quadC,
      Sphere.quadDisc, Sphere.getRadius, Sphere.getCenter, Ray.getPoint, Ray.getDirection,
      Ray.getPointAt, Vector3f.add, Vector3f.sub, Vector3f.scale, Vector3f.dot,
      Vector3f.getMagnitudeSq, Vector3f.getMagnitude, Vector3f.normalize, IntersectInfo.new,
      Vector3f.splat, min_def]
  · norm_num [SphereGeometry.hit, sphereSeven, rayZ, sqrtExact_sixteen, sqrtExact_25, Sphere.intersect, Sphere.solve, Sphere.new,
      Sphere.setAttributes, Sphere.setRadius, Sphere.setCenter, Sphere.quadB, Sphere.quadC,
      Sphere.quadDisc, Sphere.getRadius, Sphere.getCenter, Ray.getPoint, Ray.getDirection,
      Ray.getPointAt, Vector3f.add, Vector3f.sub, Vector3f.scale, Vector3f.dot,
      Vector3f.getMagnitudeSq, Vector3f.getMagnitude, Vector3f.normalize, IntersectInfo.new,
      Vector3f.splat, min_def]
  · norm_num [RayTracerApp.intersectRay, RayTracerApp.intersectRayLoop, nodeSix, nodeFour,
      nodeSeven, SceneNode.getDataPtr, SphereGeometry.toData, SphereGeometry.hit, sphereSix,
      sphereFour, sphereSeven, rayZ, sqrtExact_four, sqrtExact_sixteen, sqrtExact_nine,
      sqrtExact_25, Sphere.intersect, Sphere.solve, Sphere.new,
      Sphere.setAttributes, Sphere.setRadius, Sphere.setCenter, Sphere.quadB, Sphere.quadC,
      Sphere.quadDisc, Sphere.getRadius, Sphere.getCenter, Ray.getPoint, Ray.getDirection,
      Ray.getPointAt, Vector3f.add, Vector3f.sub, Vector3f.scale, Vector3f.dot,
      Vector3f.getMagnitudeSq, Vector3f.getMagnitude, Vector3f.normalize, IntersectInfo.new,
      Vector3f.splat, min_def]
  · norm_num [RayTracerApp.intersectRay, RayTracerApp.intersectRayLoop, nodeSix,
      nodeSeven, SceneNode.getDataPtr, SphereGeometry.toData, SphereGeometry.hit, sphereSix,
      sphereSeven, rayZ, sqrtExact_four, sqrtExact_sixteen, sqrtExact_25, Sphere.intersect, Sphere.solve, Sphere.new,
      Sphere.setAttributes, Sphere.setRadius, Sphere.setCenter, Sphere.quadB, Sphere.quadC,
      Sphere.quadDisc, Sphere.getRadius, Sphere.getCenter, Ray.getPoint, Ray.getDirection,
      Ray.getPointAt, Vector3f.add, Vector3f.sub, Vector3f.scale, Vector3f.dot,
      Vector3f.getMagnitudeSq, Vector3f.getMagnitude, Vector3f.normalize, IntersectInfo.new,
      Vector3f.splat, min_def]

end ScanMore

/-! ## Ray casting and shading -/

section TracerLemmas

variable {K : Type} [LinearOrderedField K]

/-- C17: for every pixel coordinate the ray of `castRay` starts at the eye, so all pixels
share the origin, and for two distinct pixel coordinates the directions differ.  The size
of a pixel, `cameraView.pixelSize`, comes from a header absent from the source and is
taken to be non-zero. -/
theorem RayTracerApp.castRay_origin_fixed_direction_varies (app : RayTracerApp K)
    (p q : Vector2f K) (hsize : app.cameraView.pixelSize ≠ 0) :
    (app.castRay p).getPoint = app.eye ∧
    (app.castRay q).getPoint = (app.castRay p).getPoint ∧
    (p ≠ q → (app.castRay p).getDirection ≠ (app.castRay q).getDirection) := by
  refine ⟨rfl, rfl, ?_⟩
  intro hpq hdir
  apply hpq
  simp only [RayTracerApp.castRay, Ray.getDirection, Vector3f.mk.injEq] at hdir
  obtain ⟨hx, hy, _⟩ := hdir
  have hx' := mul_left_cancel₀ hsize hx
  have hy' := mul_left_cancel₀ hsize hy
  cases p with
  | mk px py =>
    cases q with
    | mk qx qy =>
      simp only [Vector2f.mk.injEq]
      simp only at hx' hy'
      constructor
      · linarith
      · linarith

/-- C17, on the `2 × 2` frame with the pixels `(0,0)` and `(1,0)`. -/
theorem RayTracerApp.castRay_origin_fixed_direction_varies_witness :
    appExample.cameraView.pixelSize ≠ 0 ∧
    (appExample.castRay ⟨0, 0⟩).getPoint = appExample.eye ∧
    (appExample.castRay ⟨1, 0⟩).getPoint = (appExample.castRay ⟨0, 0⟩).getPoint ∧
    ((⟨0, 0⟩ : Vector2f ℚ) ≠ ⟨1, 0⟩ →
      (appExample.castRay ⟨0, 0⟩).getDirection ≠ (appExample.castRay ⟨1, 0⟩).getDirection) := by
  have h : appExample.cameraView.pixelSize ≠ 0 := by norm_num [appExample]
  exact ⟨h, RayTracerApp.castRay_origin_fixed_direction_varies appExample ⟨0, 0⟩ ⟨1, 0⟩ h⟩

/-- When no node of the list is hit, the loop of `intersectRay` ends with `info` as it
was. -/
theorem RayTracerApp.intersectRayLoop_all_miss (ray : Ray K) (nodes : List (SceneNode K))
    (hmiss : ∀ node ∈ nodes, ∃ data, node.getDataPtr = some data ∧
      ∀ info, (data.hit ray info).1 = false) :
    ∀ prevInfo currentInfo info : IntersectInfo K,
      RayTracerApp.intersectRayLoop ray nodes prevInfo currentInfo info = .ok info := by
  induction nodes with
  | nil => intro _ _ info; rfl
  | cons node rest ih =>
    intro prevInfo currentInfo info
    obtain ⟨data, hdata, hhit⟩ := hmiss node (List.mem_cons_self _ _)
    have hrest : ∀ n ∈ rest, ∃ data, n.getDataPtr = some data ∧
        ∀ info, (data.hit ray info).1 = false :=
      fun n hn => hmiss n (List.mem_cons_of_mem _ hn)
    rw [RayTracerApp.intersectRayLoop, hdata]
    have h1 := hhit currentInfo
    simp only [h1, Bool.false_eq_true, if_false]
    exact ih hrest prevInfo _ info

/-- C18: for every pixel whose ray hits none of the geometries of the node list,
`traceRay` raises no error and returns the background colour of the scene. -/
theorem RayTracerApp.traceRay_miss_background (app : RayTracerApp K)
    (sceneNodeList : List (SceneNode K)) (pixel : Vector2i)
    (hmiss : ∀ node ∈ sceneNodeList, ∃ data, node.getDataPtr = some data ∧
      ∀ info, (data.hit (app.castRay pixel.toVector2f) info).1 = false) :
    app.traceRay sceneNodeList pixel = .ok app.scene.getBackgroundColor := by
  have h := RayTracerApp.intersectRayLoop_all_miss (app.castRay pixel.toVector2f)
    sceneNodeList hmiss IntersectInfo.new IntersectInfo.new IntersectInfo.new
  unfold RayTracerApp.traceRay RayTracerApp.intersectRay
  simp only [h]
  simp [IntersectInfo.new]

/-- C18, on the `2 × 2` frame, pixel `(0,0)`, with the unit sphere beside the eye. -/
theorem RayTracerApp.traceRay_miss_background_witness :
    (∀ node ∈ [nodeBesideEye], ∃ data, node.getDataPtr = some data ∧
      ∀ info, (data.hit (appExample.castRay (Vector2i.toVector2f ⟨0, 0⟩)) info).1 = false) ∧
    appExample.traceRay [nodeBesideEye] ⟨0, 0⟩ = .ok ⟨0, 0, 0, 1⟩ := by
  have hd : sphereBesideEye.quadDisc (appExample.castRay (Vector2i.toVector2f ⟨0, 0⟩)) < 0 := by
    norm_num [sphereBesideEye, appExample, RayTracerApp.castRay, Vector2i.toVector2f,
      Sphere.new, Sphere.setAttributes, Sphere.setRadius,
      Sphere.setCenter, Sphere.quadB, Sphere.quadC, Sphere.quadDisc, Sphere.getRadius,
      Sphere.getCenter, Ray.getPoint, Ray.getDirection, Vector3f.sub, Vector3f.dot,
      Vector3f.getMagnitudeSq]
  have h : ∀ node ∈ [nodeBesideEye], ∃ data, node.getDataPtr = some data ∧
      ∀ info, (data.hit (appExample.castRay (Vector2i.toVector2f ⟨0, 0⟩)) info).1 = false := by
    intro node hnode
    rw [List.mem_singleton] at hnode
    subst hnode
    refine ⟨SphereGeometry.toData sqrtExact ⟨sphereBesideEye, materialA⟩, rfl, ?_⟩
    intro info
    show (SphereGeometry.hit sqrtExact ⟨sphereBesideEye, materialA⟩ _ info).1 = false
    rw [SphereGeometry.hit_fst, Sphere.solve_of_disc_neg sqrtExact _ _ hd]
  exact ⟨h, RayTracerApp.traceRay_miss_background appExample [nodeBesideEye] ⟨0, 0⟩ h⟩

theorem sqrtExact_89998_sq : sqrtExact 8099640004 = 89998 := by
  have h := sqrtExact_natCast_sq 89998
  norm_num at h
  exact h

theorem sqrtExact_75_sq : sqrtExact 5625 = 75 := by
  have h := sqrtExact_natCast_sq 75
  norm_num at h
  exact h

theorem sqrtExact_150_sq : sqrtExact 22500 = 150 := by
  have h := sqrtExact_natCast_sq 150
  norm_num at h
  exact h

/-- What `SphereGeometry::hit` returns, from the first half of `Sphere::intersect`. -/
theorem SphereGeometry.hit_eq (sqrt : K → K) (g : SphereGeometry K) (ray : Ray K)
    (info : IntersectInfo K) :
    g.hit sqrt ray info =
      if (g.sphere.solve sqrt ray).1 = true then
        (true, { intersect := true
                 distance := (g.sphere.solve sqrt ray).2
                 normal := (ray.getPointAt (g.sphere.solve sqrt ray).2).normalize sqrt
                 materialPtr := some g.material })
      else (false, { info with intersect := false }) := by
  have h1 := Sphere.intersect_fst sqrt g.sphere ray (some info)
  have h2 := Sphere.intersect_snd_some sqrt g.sphere ray info
  unfold SphereGeometry.hit
  generalize g.sphere.intersect sqrt ray (some info) = r at h1 h2
  obtain ⟨res, out⟩ := r
  simp only at h1 h2
  subst h1 h2
  cases h : (g.sphere.solve sqrt ray).1 <;> simp [h]

/-- A list of one node whose geometry is hit, with a material and a non-zero normal. -/
theorem RayTracerApp.intersectRay_single (ray : Ray K) (name : String)
    (data : SceneNodeData K) (hitInfo : IntersectInfo K)
    (hhit : data.hit ray IntersectInfo.new = (true, hitInfo))
    (hmat : hitInfo.materialPtr.isNone = false)
    (hnormal : hitInfo.normal ≠ Vector3f.splat 0) :
    RayTracerApp.intersectRay [SceneNode.mk name (some data) []] ray = .ok hitInfo := by
  have hzero : (IntersectInfo.new : IntersectInfo K).distance = 0 := rfl
  unfold RayTracerApp.intersectRay
  rw [RayTracerApp.intersectRayLoop]
  simp only [SceneNode.getDataPtr, hhit, hzero, true_or, if_true, hmat, hnormal,
    Bool.false_eq_true, if_false, RayTracerApp.intersectRayLoop]

/-- The hit of the ray `(0,0,z0) + t·(0,0,150)` on a unit sphere `300` ahead of its
origin, as `Sphere::intersect` computes it: `t = 1`. -/
theorem Sphere.solve_unit_sphere_300_ahead (z0 : ℚ) :
    (Sphere.new (1 : ℚ) ⟨0, 0, z0 + 300⟩).solve sqrtExact ⟨⟨0, 0, z0⟩, ⟨0, 0, 150⟩⟩ =
      (true, 1) := by
  have hd : (Sphere.new (1 : ℚ) ⟨0, 0, z0 + 300⟩).quadDisc ⟨⟨0, 0, z0⟩, ⟨0, 0, 150⟩⟩ =
      8099640004 := by
    norm_num [Sphere.new, Sphere.setAttributes, Sphere.setRadius,
      Sphere.setCenter, Sphere.quadB, Sphere.quadC, Sphere.quadDisc, Sphere.getRadius,
      Sphere.getCenter, Ray.getPoint, Ray.getDirection, Vector3f.sub, Vector3f.dot,
      Vector3f.getMagnitudeSq]
  have hb : (Sphere.new (1 : ℚ) ⟨0, 0, z0 + 300⟩).quadB ⟨⟨0, 0, z0⟩, ⟨0, 0, 150⟩⟩ =
      -90000 := by
    norm_num [Sphere.new, Sphere.setAttributes, Sphere.setRadius,
      Sphere.setCenter, Sphere.quadB, Sphere.getCenter, Ray.getPoint, Ray.getDirection,
      Vector3f.sub, Vector3f.dot]
  have hr : (Sphere.new (1 : ℚ) ⟨0, 0, z0 + 300⟩).root1 sqrtExact
      ⟨⟨0, 0, z0⟩, ⟨0, 0, 150⟩⟩ = 1 := by
    rw [Sphere.root1, hd, hb, sqrtExact_89998_sq]
    norm_num
  rw [Sphere.solve_of_disc_pos sqrtExact _ _ (by rw [hd]; norm_num) (sqrtExact_nonneg _), hr]
  norm_num

/-- The colour `traceRay` returns when the scan of the node list yields a hit with a
material that has the property "diffuse". -/
theorem RayTracerApp.traceRay_of_hit (app : RayTracerApp K)
    (sceneNodeList : List (SceneNode K)) (pixel : Vector2i) (info : IntersectInfo K)
    (material : Material K) (diffuse : Vector4f K)
    (hinfo : RayTracerApp.intersectRay sceneNodeList (app.castRay pixel.toVector2f) = .ok info)
    (hhit : info.intersect = true)
    (hmaterial : info.materialPtr = some material)
    (hdiffuse : material.getProperty4f "diffuse" = some diffuse) :
    app.traceRay sceneNodeList pixel =
      .ok ⟨max 0 (diffuse.x * info.normal.dot (app.castRay pixel.toVector2f).getDirection),
           max 0 (diffuse.y * info.normal.dot (app.castRay pixel.toVector2f).getDirection),
           max 0 (diffuse.z * info.normal.dot (app.castRay pixel.toVector2f).getDirection),
           max 0 (diffuse.w * info.normal.dot (app.castRay pixel.toVector2f).getDirection)⟩ := by
  generalize hf : info.normal.dot (app.castRay pixel.toVector2f).getDirection = f
  have hif : ∀ c : K, (if c < 0 then (0 : K) else c) = max 0 c := by
    intro c
    by_cases h : c < 0
    · rw [if_pos h, max_eq_left (le_of_lt h)]
    · rw [if_neg h, max_eq_right (not_lt.mp h)]
  unfold RayTracerApp.traceRay
  simp only [hinfo, hhit, if_true, hmaterial, hdiffuse, hf, Color.ofVector4f,
    Color.mulScalar]
  rw [← hif (diffuse.x * f), ← hif (diffuse.y * f), ← hif (diffuse.z * f),
    ← hif (diffuse.w * f)]
  by_cases h1 : diffuse.x * f < 0 <;> by_cases h2 : diffuse.y * f < 0 <;>
    by_cases h3 : diffuse.z * f < 0 <;> by_cases h4 : diffuse.w * f < 0 <;>
    simp [h1, h2, h3, h4]

/-- C13 (counterexample): on the `2 × 2` frame the ray of pixel `(0,0)` has direction
`(0,0,150)` and hits the unit sphere centred at `(0,0,225)` with the normal `(0,0,1)`, so
`dot(normal, rayDirection) = 150`.  `traceRay` returns `150` times the diffuse colour
`(1, 1/2, 1/4, 1)`, whereas `clamp01(150)` times the diffuse colour is the diffuse colour
itself. -/
theorem RayTracerApp.traceRay_not_clamped_above :
    appExample.castRay (Vector2i.toVector2f ⟨0, 0⟩) = ⟨⟨0, 0, -75⟩, ⟨0, 0, 150⟩⟩ ∧
    RayTracerApp.intersectRay [nodeAhead] (appExample.castRay (Vector2i.toVector2f ⟨0, 0⟩)) =
      .ok { intersect := true, distance := 1, normal := ⟨0, 0, 1⟩,
            materialPtr := some materialA } ∧
    materialA.getProperty4f "diffuse" = some ⟨1, 1 / 2, 1 / 4, 1⟩ ∧
    appExample.traceRay [nodeAhead] ⟨0, 0⟩ = .ok ⟨150, 75, 75 / 2, 150⟩ ∧
    (⟨clamp01 150 * 1, clamp01 150 * (1 / 2), clamp01 150 * (1 / 4), clamp01 150 * 1⟩ :
      Color ℚ) = ⟨1, 1 / 2, 1 / 4, 1⟩ := by
  have hray : appExample.castRay (Vector2i.toVector2f ⟨0, 0⟩) =
      ⟨⟨0, 0, -75⟩, ⟨0, 0, 150⟩⟩ := by
    norm_num [appExample, RayTracerApp.castRay, Vector2i.toVector2f]
  have hprop : materialA.getProperty4f "diffuse" = some ⟨1, 1 / 2, 1 / 4, 1⟩ := by
    simp [materialA, Material.getProperty4f]
  have hs : sphereAhead.solve sqrtExact ⟨⟨0, 0, -75⟩, ⟨0, 0, 150⟩⟩ = (true, 1) := by
    have h := Sphere.solve_unit_sphere_300_ahead (-75)
    norm_num at h
    exact h
  have hn : ((⟨⟨0, 0, -75⟩, ⟨0, 0, 150⟩⟩ : Ray ℚ).getPointAt 1).normalize sqrtExact =
      ⟨0, 0, 1⟩ := by
    norm_num [Ray.getPointAt, Vector3f.add, Vector3f.scale, Vector3f.normalize,
      Vector3f.getMagnitude, Vector3f.getMagnitudeSq, sqrtExact_75_sq]
  have hinfo : RayTracerApp.intersectRay [nodeAhead]
      (appExample.castRay (Vector2i.toVector2f ⟨0, 0⟩)) =
      .ok { intersect := true, distance := 1, normal := ⟨0, 0, 1⟩,
            materialPtr := some materialA } := by
    rw [hray]
    apply RayTracerApp.intersectRay_single
    · show SphereGeometry.hit sqrtExact ⟨sphereAhead, materialA⟩ _ _ = _
      rw [SphereGeometry.hit_eq, hs]
      simp only [if_true, hn]
    · rfl
    · simp [Vector3f.splat]
  refine ⟨hray, hinfo, hprop, ?_, ?_⟩
  · rw [RayTracerApp.traceRay_of_hit appExample [nodeAhead] ⟨0, 0⟩ _ materialA
      ⟨1, 1 / 2, 1 / 4, 1⟩ hinfo rfl rfl hprop, hray]
    norm_num [Vector3f.dot, Ray.getDirection]
  · norm_num [clamp01]

/-- C13 (amended): for every pixel whose ray hits a geometry, `traceRay` returns in each
of the four channels `max(0, dot(normal, rayDirection) · diffuse)`: the product with the
corresponding component of the hit material's "diffuse" property, clamped below at `0`
after the multiplication and not clamped above.  Where the dot product is at most `1` and
the diffuse components are non-negative this is `clamp01(dot(normal, rayDirection))`
times the component. -/
theorem RayTracerApp.traceRay_hit_shading (app : RayTracerApp K)
    (sceneNodeList : List (SceneNode K)) (pixel : Vector2i) (info : IntersectInfo K)
    (material : Material K) (diffuse : Vector4f K)
    (hinfo : RayTracerApp.intersectRay sceneNodeList (app.castRay pixel.toVector2f) = .ok info)
    (hhit : info.intersect = true)
    (hmaterial : info.materialPtr = some material)
    (hdiffuse : material.getProperty4f "diffuse" = some diffuse) :
    app.traceRay sceneNodeList pixel =
      .ok ⟨max 0 (diffuse.x * info.normal.dot (app.castRay pixel.toVector2f).getDirection),
           max 0 (diffuse.y * info.normal.dot (app.castRay pixel.toVector2f).getDirection),
           max 0 (diffuse.z * info.normal.dot (app.castRay pixel.toVector2f).getDirection),
           max 0 (diffuse.w * info.normal.dot (app.castRay pixel.toVector2f).getDirection)⟩ ∧
    (info.normal.dot (app.castRay pixel.toVector2f).getDirection ≤ 1 →
      0 ≤ diffuse.x → 0 ≤ diffuse.y → 0 ≤ diffuse.z → 0 ≤ diffuse.w →
      app.traceRay sceneNodeList pixel =
        .ok ⟨clamp01 (info.normal.dot (app.castRay pixel.toVector2f).getDirection) * diffuse.x,
             clamp01 (info.normal.dot (app.castRay pixel.toVector2f).getDirection) * diffuse.y,
             clamp01 (info.normal.dot (app.castRay pixel.toVector2f).getDirection) * diffuse.z,
             clamp01 (info.normal.dot (app.castRay pixel.toVector2f).getDirection) * diffuse.w⟩) := by
  have hmain := RayTracerApp.traceRay_of_hit app sceneNodeList pixel info material diffuse
    hinfo hhit hmaterial hdiffuse
  generalize hf : info.normal.dot (app.castRay pixel.toVector2f).getDirection = f at hmain ⊢
  refine ⟨hmain, ?_⟩
  intro hle hx hy hz hw
  rw [hmain]
  have hclamp : ∀ d : K, 0 ≤ d → max 0 (d * f) = clamp01 f * d := by
    intro d hd
    unfold clamp01
    rw [min_eq_right hle]
    by_cases h : 0 ≤ f
    · rw [max_eq_right (mul_nonneg hd h), max_eq_right h, mul_comm]
    · have hneg : f ≤ 0 := le_of_lt (not_le.mp h)
      rw [max_eq_left (mul_nonpos_of_nonneg_of_nonpos hd hneg), max_eq_left hneg, zero_mul]
  rw [hclamp _ hx, hclamp _ hy, hclamp _ hz, hclamp _ hw]

/-- C13 (amended), on the `2 × 2` frame with the eye at `(0,0,-300)`, pixel `(0,0)` and
the unit sphere at the origin: the hit has the normal `(0,0,-1)`, the dot product is
`-150` and the colour returned is zero in every channel. -/
theorem RayTracerApp.traceRay_hit_shading_witness :
    (RayTracerApp.intersectRay [nodeOrigin] (appFar.castRay (Vector2i.toVector2f ⟨0, 0⟩)) =
        .ok { intersect := true, distance := 1, normal := ⟨0, 0, -1⟩,
              materialPtr := some materialA } ∧
      materialA.getProperty4f "diffuse" = some ⟨1, 1 / 2, 1 / 4, 1⟩) ∧
    appFar.traceRay [nodeOrigin] ⟨0, 0⟩ =
      .ok ⟨max 0 (1 * (⟨0, 0, -1⟩ : Vector3f ℚ).dot
              (appFar.castRay (Vector2i.toVector2f ⟨0, 0⟩)).getDirection),
           max 0 (1 / 2 * (⟨0, 0, -1⟩ : Vector3f ℚ).dot
              (appFar.castRay (Vector2i.toVector2f ⟨0, 0⟩)).getDirection),
           max 0 (1 / 4 * (⟨0, 0, -1⟩ : Vector3f ℚ).dot
              (appFar.castRay (Vector2i.toVector2f ⟨0, 0⟩)).getDirection),
           max 0 (1 * (⟨0, 0, -1⟩ : Vector3f ℚ).dot
              (appFar.castRay (Vector2i.toVector2f ⟨0, 0⟩)).getDirection)⟩ := by
  have hray : appFar.castRay (Vector2i.toVector2f ⟨0, 0⟩) =
      ⟨⟨0, 0, -300⟩, ⟨0, 0, 150⟩⟩ := by
    norm_num [appFar, RayTracerApp.castRay, Vector2i.toVector2f]
  have hprop : materialA.getProperty4f "diffuse" = some ⟨1, 1 / 2, 1 / 4, 1⟩ := by
    simp [materialA, Material.getProperty4f]
  have hs : sphereOrigin.solve sqrtExact ⟨⟨0, 0, -300⟩, ⟨0, 0, 150⟩⟩ = (true, 1) := by
    have h := Sphere.solve_unit_sphere_300_ahead (-300)
    norm_num at h
    exact h
  have hn : ((⟨⟨0, 0, -300⟩, ⟨0, 0, 150⟩⟩ : Ray ℚ).getPointAt 1).normalize sqrtExact =
      ⟨0, 0, -1⟩ := by
    norm_num [Ray.getPointAt, Vector3f.add, Vector3f.scale, Vector3f.normalize,
      Vector3f.getMagnitude, Vector3f.getMagnitudeSq, sqrtExact_150_sq]
  have hinfo : RayTracerApp.intersectRay [nodeOrigin]
      (appFar.castRay (Vector2i.toVector2f ⟨0, 0⟩)) =
      .ok { intersect := true, distance := 1, normal := ⟨0, 0, -1⟩,
            materialPtr := some materialA } := by
    rw [hray]
    apply RayTracerApp.intersectRay_single
    · show SphereGeometry.hit sqrtExact ⟨sphereOrigin, materialA⟩ _ _ = _
      rw [SphereGeometry.hit_eq, hs]
      simp only [if_true, hn]
    · rfl
    · simp [Vector3f.splat]
  exact ⟨⟨hinfo, hprop⟩,
    (RayTracerApp.traceRay_hit_shading appFar [nodeOrigin] ⟨0, 0⟩ _ materialA
      ⟨1, 1 / 2, 1 / 4, 1⟩ hinfo rfl rfl hprop).1⟩

end TracerLemmas

/-! ## Camera setters, statement by statement: atomicity and the up vector -/

section SetterLemmas

variable {K : Type} [LinearOrderedField K]

theorem SetterM.exec_get_bind {K : Type} (f : Camera K → SetterM K Unit) (cam : Camera K) :
    SetterM.exec (get >>= f) cam = SetterM.exec (f cam) cam := rfl

theorem SetterM.exec_guard_throw {K : Type} (c : Prop) [Decidable c] (msg : String)
    (rest : SetterM K Unit) (cam : Camera K) :
    SetterM.exec (do if c then throw msg
                     rest) cam =
      if c then (.error msg, cam) else SetterM.exec rest cam := by
  by_cases h : c
  · simp only [h, if_true]; rfl
  · simp only [h, if_false]; rfl

theorem SetterM.exec_modify {K : Type} (f : Camera K → Camera K) (cam : Camera K) :
    SetterM.exec (modify f) cam = (.ok (), f cam) := rfl

theorem SetterM.exec_modify_modify {K : Type} (f g : Camera K → Camera K) (cam : Camera K) :
    SetterM.exec (do modify f
                     modify g) cam = (.ok (), g (f cam)) := rfl

theorem CameraSetterCall.setOrientationBody_exec (pos lookAt : Vector3f K) (cam : Camera K) :
    (CameraSetterCall.setOrientationBody pos lookAt).exec cam =
      if pos = lookAt then (.error Camera.invalidArgument, cam)
      else (.ok (), { cam with position := pos, lookAt := lookAt }) := by
  unfold CameraSetterCall.setOrientationBody
  rw [SetterM.exec_guard_throw, SetterM.exec_modify_modify]

theorem CameraSetterCall.setPositionBody_exec (pos : Vector3f K) (cam : Camera K) :
    (CameraSetterCall.setPositionBody pos).exec cam =
      if pos = cam.lookAt then (.error Camera.invalidArgument, cam)
      else (.ok (), { cam with position := pos }) := by
  unfold CameraSetterCall.setPositionBody
  rw [SetterM.exec_get_bind, SetterM.exec_guard_throw, SetterM.exec_modify]

theorem CameraSetterCall.setLookAtBody_exec (lookAt : Vector3f K) (cam : Camera K) :
    (CameraSetterCall.setLookAtBody lookAt).exec cam =
      if cam.position = lookAt then (.error Camera.invalidArgument, cam)
      else (.ok (), { cam with lookAt := lookAt }) := by
  unfold CameraSetterCall.setLookAtBody
  rw [SetterM.exec_get_bind, SetterM.exec_guard_throw, SetterM.exec_modify]

theorem CameraSetterCall.setViewportBody_exec (viewport : Rectf K) (cam : Camera K) :
    (CameraSetterCall.setViewportBody viewport).exec cam =
      if viewport.getSize = ⟨0, 0⟩ then
        (.error "El tamanio debe tener todos sus valores positivos", cam)
      else (.ok (), { cam with viewport := viewport }) := by
  unfold CameraSetterCall.setViewportBody
  rw [SetterM.exec_guard_throw, SetterM.exec_modify]

theorem CameraSetterCall.setUpBody_exec (flag : Bool) (sqrt : K → K) (up : Vector3f K)
    (cam : Camera K) :
    (CameraSetterCall.setUpBody flag sqrt up).exec cam =
      if flag = true ∧ up.isZero = true then
        (.error "exeng::scenegraph::Camera::setUp: The length of the up vector can't be zero.",
          cam)
      else (.ok (), { cam with up := up.normalize sqrt }) := by
  unfold CameraSetterCall.setUpBody
  cases flag
  · simp only [Bool.false_eq_true, false_and, if_false]; rfl
  · cases h : up.isZero
    · simp only [Bool.false_eq_true, and_false, if_false, if_true]; rfl
    · simp only [and_self, if_true]; rfl

/-- A setter body run statement by statement ends as the one-step setter of the same name
does: with its exception and the camera of before the call, or with the camera it
returns. -/
theorem CameraSetterCall.body_exec (flag : Bool) (sqrt : K → K) (call : CameraSetterCall K)
    (cam : Camera K) :
    (call.body flag sqrt).exec cam =
      match (match call with
        | .setOrientation pos lookAt => cam.setOrientation pos lookAt
        | .setPosition pos => cam.setPosition pos
        | .setLookAt lookAt => cam.setLookAt lookAt
        | .setUp up => Camera.setUp flag sqrt cam up
        | .setViewport viewport => cam.setViewport viewport) with
      | .ok cam' => (.ok (), cam')
      | .error msg => (.error msg, cam) := by
  cases call with
  | setOrientation pos lookAt =>
    simp only [CameraSetterCall.body, CameraSetterCall.setOrientationBody_exec,
      Camera.setOrientation]
    split_ifs <;> rfl
  | setPosition pos =>
    simp only [CameraSetterCall.body, CameraSetterCall.setPositionBody_exec,
      Camera.setPosition]
    split_ifs <;> rfl
  | setLookAt lookAt =>
    simp only [CameraSetterCall.body, CameraSetterCall.setLookAtBody_exec, Camera.setLookAt]
    split_ifs <;> rfl
  | setUp up =>
    simp only [CameraSetterCall.body, CameraSetterCall.setUpBody_exec, Camera.setUp]
    split_ifs <;> rfl
  | setViewport viewport =>
    simp only [CameraSetterCall.body, CameraSetterCall.setViewportBody_exec,
      Camera.setViewport]
    split_ifs <;> rfl

/-- C19: whenever the body of `setOrientation`, `setPosition`, `setLookAt`, `setUp` or
`setViewport`, run statement by statement on a camera, ends with its exception, the camera
after the call is the camera before it: position, lookAt, up, viewport and projection all
keep their values, in either build. -/
theorem CameraSetterCall.exec_error_unchanged (EXENG_DEBUG : Bool) (sqrt : K → K)
    (call : CameraSetterCall K) (cam : Camera K) (msg : String)
    (h : ((call.body EXENG_DEBUG sqrt).exec cam).1 = .error msg) :
    ((call.body EXENG_DEBUG sqrt).exec cam).2 = cam := by
  cases call with
  | setOrientation pos lookAt =>
    simp only [CameraSetterCall.body, CameraSetterCall.setOrientationBody_exec] at h ⊢
    split_ifs at h ⊢
    rfl
  | setPosition pos =>
    simp only [CameraSetterCall.body, CameraSetterCall.setPositionBody_exec] at h ⊢
    split_ifs at h ⊢
    rfl
  | setLookAt lookAt =>
    simp only [CameraSetterCall.body, CameraSetterCall.setLookAtBody_exec] at h ⊢
    split_ifs at h ⊢
    rfl
  | setUp up =>
    simp only [CameraSetterCall.body, CameraSetterCall.setUpBody_exec] at h ⊢
    split_ifs at h ⊢
    rfl
  | setViewport viewport =>
    simp only [CameraSetterCall.body, CameraSetterCall.setViewportBody_exec] at h ⊢
    split_ifs at h ⊢
    rfl

/-- C19, on a fresh camera whose lookAt is the origin: `setPosition` with the origin throws
and the camera is the fresh one. -/
theorem CameraSetterCall.exec_error_unchanged_witness :
    (((CameraSetterCall.setPosition ⟨0, 0, 0⟩ : CameraSetterCall ℚ).body true sqrtExact).exec
        cameraFresh).1 = .error Camera.invalidArgument ∧
    (((CameraSetterCall.setPosition ⟨0, 0, 0⟩ : CameraSetterCall ℚ).body true sqrtExact).exec
        cameraFresh).2 = cameraFresh := by
  have h : (((CameraSetterCall.setPosition ⟨0, 0, 0⟩ : CameraSetterCall ℚ).body true
      sqrtExact).exec cameraFresh).1 = .error Camera.invalidArgument := by
    simp [CameraSetterCall.body, CameraSetterCall.setPositionBody_exec, cameraFresh,
      Camera.new]
  exact ⟨h, CameraSetterCall.exec_error_unchanged true sqrtExact _ cameraFresh _ h⟩

/-- The normalized non-zero vector has squared length 1, when the square root is exact at
the squared length. -/
theorem Vector3f.normalize_getMagnitudeSq (sqrt : K → K) (v : Vector3f K)
    (hv : v ≠ Vector3f.splat 0) (hs : IsSqrtAt sqrt v.getMagnitudeSq) :
    0 < 1 / v.getMagnitude sqrt ∧ (v.normalize sqrt).getMagnitudeSq = 1 := by
  obtain ⟨h0, hsq⟩ := hs
  have hq : 0 < v.getMagnitudeSq := by
    have hne : v.x ≠ 0 ∨ v.y ≠ 0 ∨ v.z ≠ 0 := by
      by_contra hcon
      push_neg at hcon
      apply hv
      obtain ⟨x, y, z⟩ := v
      simp only [Vector3f.splat] at hcon ⊢
      obtain ⟨h1, h2, h3⟩ := hcon
      simp only [Vector3f.mk.injEq]
      exact ⟨h1, h2, h3⟩
    unfold Vector3f.getMagnitudeSq
    rcases hne with h | h | h
    · have := mul_self_pos.mpr h
      nlinarith [mul_self_nonneg v.y, mul_self_nonneg v.z]
    · have := mul_self_pos.mpr h
      nlinarith [mul_self_nonneg v.x, mul_self_nonneg v.z]
    · have := mul_self_pos.mpr h
      nlinarith [mul_self_nonneg v.x, mul_self_nonneg v.y]
  have hm : sqrt v.getMagnitudeSq ≠ 0 := by
    intro h
    have hq0 : v.getMagnitudeSq = 0 := by rw [← hsq, h, mul_zero]
    exact (ne_of_gt hq) hq0
  have hmpos : 0 < sqrt v.getMagnitudeSq := lt_of_le_of_ne h0 (Ne.symm hm)
  refine ⟨by unfold Vector3f.getMagnitude; positivity, ?_⟩
  have key : (v.normalize sqrt).getMagnitudeSq =
      v.getMagnitudeSq / (sqrt v.getMagnitudeSq * sqrt v.getMagnitudeSq) := by
    simp only [Vector3f.normalize, Vector3f.scale, Vector3f.getMagnitude]
    generalize sqrt v.getMagnitudeSq = m at hm
    unfold Vector3f.getMagnitudeSq
    field_simp
  rw [key, hsq]
  exact div_self (ne_of_gt hq)

/-- In a build with `EXENG_DEBUG`, one setter call keeps the stored up vector at squared
length 1. -/
theorem CameraSetterCall.exec_up_unit (sqrt : K → K) (call : CameraSetterCall K)
    (cam : Camera K) (hcall : ∀ up, call = .setUp up → IsSqrtAt sqrt up.getMagnitudeSq)
    (hcam : cam.up.getMagnitudeSq = 1) :
    ((call.body true sqrt).exec cam).2.up.getMagnitudeSq = 1 := by
  cases call with
  | setOrientation pos lookAt =>
    simp only [CameraSetterCall.body, CameraSetterCall.setOrientationBody_exec]
    split_ifs <;> exact hcam
  | setPosition pos =>
    simp only [CameraSetterCall.body, CameraSetterCall.setPositionBody_exec]
    split_ifs <;> exact hcam
  | setLookAt lookAt =>
    simp only [CameraSetterCall.body, CameraSetterCall.setLookAtBody_exec]
    split_ifs <;> exact hcam
  | setUp up =>
    simp only [CameraSetterCall.body, CameraSetterCall.setUpBody_exec]
    by_cases hz : up.isZero = true
    · simp only [hz, and_self, if_true]
      exact hcam
    · simp only [hz, and_false, if_false]
      have hne : up ≠ Vector3f.splat 0 := by
        intro h
        exact hz (by simp [Vector3f.isZero, h])
      exact (Vector3f.normalize_getMagnitudeSq sqrt up hne (hcall up rfl)).2
  | setViewport viewport =>
    simp only [CameraSetterCall.body, CameraSetterCall.setViewportBody_exec]
    split_ifs <;> exact hcam

/-- In a build with `EXENG_DEBUG`, a sequence of setter calls keeps the stored up vector at
squared length 1. -/
theorem CameraSetterCall.run_up_unit (sqrt : K → K) (calls : List (CameraSetterCall K)) :
    ∀ cam : Camera K, (∀ up, CameraSetterCall.setUp up ∈ calls →
      IsSqrtAt sqrt up.getMagnitudeSq) → cam.up.getMagnitudeSq = 1 →
      (CameraSetterCall.run true sqrt cam calls).up.getMagnitudeSq = 1 := by
  induction calls with
  | nil => intro cam _ hcam; exact hcam
  | cons call rest ih =>
    intro cam hcalls hcam
    simp only [CameraSetterCall.run, List.foldl_cons]
    apply ih
    · intro up hup
      exact hcalls up (List.mem_cons_of_mem _ hup)
    · apply CameraSetterCall.exec_up_unit sqrt call cam _ hcam
      intro up hup
      exact hcalls up (by rw [hup]; exact List.mem_cons_self _ _)

/-- C20 (counterexample): in a build without `EXENG_DEBUG`, `setUp` with the zero vector on a
fresh camera stores the zero vector, so a reachable camera has an up vector that is zero and
not of length 1. -/
theorem CameraSetterCall.run_release_up_zero :
    (CameraSetterCall.run false sqrtExact cameraFresh [.setUp ⟨0, 0, 0⟩]).up = ⟨0, 0, 0⟩ ∧
    (CameraSetterCall.run false sqrtExact cameraFresh [.setUp ⟨0, 0, 0⟩]).up.getMagnitudeSq
      ≠ 1 := by
  have h : (CameraSetterCall.run false sqrtExact cameraFresh [.setUp ⟨0, 0, 0⟩]).up =
      ⟨0, 0, 0⟩ := by
    simp [CameraSetterCall.run, CameraSetterCall.body, CameraSetterCall.setUpBody_exec,
      Vector3f.normalize, Vector3f.scale]
  rw [h]
  exact ⟨rfl, by norm_num [Vector3f.getMagnitudeSq]⟩

/-- C20 (amended): for every non-zero `v` at whose squared length the square root is exact,
`setUp(v)` does not throw in either build and stores `(1/|v|)·v` with `1/|v| > 0`, a vector
of squared length 1; and in a build with `EXENG_DEBUG`, the up vector of the camera reached
from a fresh one by any sequence of setter calls (the square root exact at the squared
length of every argument of `setUp`) has squared length 1 and is not the zero vector. -/
theorem CameraSetterCall.setUp_up_normalized (sqrt : K → K) (v : Vector3f K)
    (lookAt0 : Vector3f K) (viewport0 : Rectf K) (proj0 : CameraProjection)
    (calls : List (CameraSetterCall K))
    (hv : v ≠ Vector3f.splat 0) (hs : IsSqrtAt sqrt v.getMagnitudeSq)
    (hcalls : ∀ up, CameraSetterCall.setUp up ∈ calls → IsSqrtAt sqrt up.getMagnitudeSq) :
    (∀ (EXENG_DEBUG : Bool) (cam : Camera K),
      ((CameraSetterCall.setUp v).body EXENG_DEBUG sqrt).exec cam =
        (.ok (), { cam with up := Vector3f.scale (1 / v.getMagnitude sqrt) v }) ∧
      0 < 1 / v.getMagnitude sqrt ∧
      (((CameraSetterCall.setUp v).body EXENG_DEBUG sqrt).exec cam).2.getUp.getMagnitudeSq
        = 1) ∧
    (CameraSetterCall.run true sqrt (Camera.new lookAt0 viewport0 proj0)
      calls).getUp.getMagnitudeSq = 1 ∧
    (CameraSetterCall.run true sqrt (Camera.new lookAt0 viewport0 proj0) calls).getUp ≠
      Vector3f.splat 0 := by
  have hn := Vector3f.normalize_getMagnitudeSq sqrt v hv hs
  have hz : ¬ (v.isZero = true) := by
    intro h
    apply hv
    simpa [Vector3f.isZero] using h
  have hrun : (CameraSetterCall.run true sqrt (Camera.new lookAt0 viewport0 proj0)
      calls).up.getMagnitudeSq = 1 := by
    apply CameraSetterCall.run_up_unit sqrt calls _ hcalls
    simp [Camera.new, Vector3f.getMagnitudeSq]
  refine ⟨?_, hrun, ?_⟩
  · intro flag cam
    have hexec : ((CameraSetterCall.setUp v).body flag sqrt).exec cam =
        (.ok (), { cam with up := Vector3f.scale (1 / v.getMagnitude sqrt) v }) := by
      simp only [CameraSetterCall.body, CameraSetterCall.setUpBody_exec, hz,
        Bool.false_eq_true, and_false, if_false, Vector3f.normalize]
    refine ⟨hexec, hn.1, ?_⟩
    rw [hexec]
    exact hn.2
  · intro h
    unfold Camera.getUp at h
    rw [h] at hrun
    simp [Vector3f.getMagnitudeSq, Vector3f.splat] at hrun

/-- C20 (amended), with `v = (0,3,4)` and the calls `setUp (0,3,4)`, `setUp (0,0,0)`,
`setPosition (5,5,5)`, `setViewport` on a fresh camera. -/
theorem CameraSetterCall.setUp_up_normalized_witness :
    (∀ (EXENG_DEBUG : Bool) (cam : Camera ℚ),
      ((CameraSetterCall.setUp ⟨0, 3, 4⟩).body EXENG_DEBUG sqrtExact).exec cam =
        (.ok (), { cam with up :=
          (Vector3f.scale (1 / (⟨0, 3, 4⟩ : Vector3f ℚ).getMagnitude sqrtExact) ⟨0, 3, 4⟩) }) ∧
      0 < 1 / (⟨0, 3, 4⟩ : Vector3f ℚ).getMagnitude sqrtExact ∧
      (((CameraSetterCall.setUp ⟨0, 3, 4⟩).body EXENG_DEBUG sqrtExact).exec
        cam).2.getUp.getMagnitudeSq = 1) ∧
    (CameraSetterCall.run true sqrtExact
      (Camera.new ⟨0, 0, 0⟩ viewportUnit CameraProjection.perspective)
      callsSetters).getUp.getMagnitudeSq = 1 ∧
    (CameraSetterCall.run true sqrtExact
      (Camera.new ⟨0, 0, 0⟩ viewportUnit CameraProjection.perspective)
      callsSetters).getUp ≠ Vector3f.splat 0 := by
  have h25 : IsSqrtAt sqrtExact (⟨0, 3, 4⟩ : Vector3f ℚ).getMagnitudeSq := by
    have e : (⟨0, 3, 4⟩ : Vector3f ℚ).getMagnitudeSq = 25 := by
      norm_num [Vector3f.getMagnitudeSq]
    rw [e]
    unfold IsSqrtAt
    rw [sqrtExact_25]
    norm_num
  have h0 : IsSqrtAt sqrtExact (⟨0, 0, 0⟩ : Vector3f ℚ).getMagnitudeSq := by
    have e : (⟨0, 0, 0⟩ : Vector3f ℚ).getMagnitudeSq = 0 := by
      norm_num [Vector3f.getMagnitudeSq]
    rw [e]
    unfold IsSqrtAt
    rw [sqrtExact_zero]
    norm_num
  apply CameraSetterCall.setUp_up_normalized sqrtExact ⟨0, 3, 4⟩ ⟨0, 0, 0⟩ viewportUnit
    CameraProjection.perspective callsSetters
  · simp [Vector3f.splat]
  · exact h25
  · intro up hup
    simp only [callsSetters, List.mem_cons, CameraSetterCall.setUp.injEq, List.mem_singleton,
      List.not_mem_nil, or_false] at hup
    rcases hup with h | h | h | h
    · rw [h]; exact h25
    · rw [h]; exact h0
    · cases h
    · cases h

end SetterLemmas

/-! ## The frame buffer -/

section FrameBufferLemmas

variable {K : Type}

/-- The offset computed with 32-bit arithmetic is the mathematical offset modulo `2³²`. -/
theorem toUInt32_wrapInt32 (a b : Int) :
    toUInt32 (wrapInt32 (wrapInt32 a + b)) = ((a + b) % 4294967296).toNat := by
  unfold toUInt32 wrapInt32
  congr 1
  omega

/-- The offset of a pixel when no check throws. -/
theorem RayTracerApp.pointToOffset_ok (EXENG_DEBUG : Bool) (app : RayTracerApp K)
    (point : Vector2i) (hx0 : 0 ≤ point.x) (hx : point.x < app.cameraView.size.width)
    (hy0 : 0 ≤ point.y) (hy : point.y < app.cameraView.size.height) :
    app.pointToOffset EXENG_DEBUG point =
      .ok (((point.y * app.cameraView.size.width + point.x) % 4294967296).toNat) := by
  unfold RayTracerApp.pointToOffset
  have h1 : ¬ (point.x < 0 ∨ point.y < 0) := by omega
  have h2 : ¬ (point.x ≥ app.cameraView.size.width) := by omega
  have h3 : ¬ (point.y ≥ app.cameraView.size.height) := by omega
  simp only [h1, h2, h3, and_false, if_false, toUInt32_wrapInt32]

/-- The offset of a pixel of the frame whose mathematical offset a `uint32_t` holds. -/
theorem RayTracerApp.pointToOffset_of_lt (EXENG_DEBUG : Bool) (app : RayTracerApp K)
    (point : Vector2i) (hx0 : 0 ≤ point.x) (hx : point.x < app.cameraView.size.width)
    (hy0 : 0 ≤ point.y) (hy : point.y < app.cameraView.size.height)
    (hlt : point.y * app.cameraView.size.width + point.x < 4294967296) :
    app.pointToOffset EXENG_DEBUG point =
      .ok (point.y * app.cameraView.size.width + point.x).toNat := by
  rw [RayTracerApp.pointToOffset_ok EXENG_DEBUG app point hx0 hx hy0 hy]
  have hnn : 0 ≤ point.y * app.cameraView.size.width + point.x := by
    have : 0 ≤ point.y * app.cameraView.size.width :=
      mul_nonneg hy0 (by omega)
    omega
  rw [Int.emod_eq_of_lt hnn hlt]

/-- C21 (counterexample): on a frame of `1048576 × 8192` pixels the pixel `(0, 4096)` is in
the frame, and `pointToOffset` returns `0` for it, not `y·width + x = 4294967296`, which
no `uint32_t` holds. -/
theorem RayTracerApp.pointToOffset_wraps :
    (0 : Int) ≤ 0 ∧ (0 : Int) < appHuge.cameraView.size.width ∧
    (0 : Int) ≤ 4096 ∧ (4096 : Int) < appHuge.cameraView.size.height ∧
    appHuge.pointToOffset true ⟨0, 4096⟩ = .ok 0 ∧
    appHuge.pointToOffset false ⟨0, 4096⟩ = .ok 0 ∧
    (4096 : Int) * appHuge.cameraView.size.width + 0 = 4294967296 := by
  refine ⟨by decide, by decide, by decide, by decide, rfl, rfl, by decide⟩

/-- C21 (amended): in a build with `EXENG_DEBUG`, for every pixel coordinate outside the
frame (`x < 0`, `y < 0`, `x ≥ width` or `y ≥ height`) `pointToOffset` throws
`std::invalid_argument`; for every coordinate in the frame with `y·width + x < 2³²` it throws
nothing, in either build, and returns `y·width + x`. -/
theorem RayTracerApp.pointToOffset_checked (EXENG_DEBUG : Bool) (app : RayTracerApp K)
    (point : Vector2i) :
    ((point.x < 0 ∨ point.y < 0 ∨ point.x ≥ app.cameraView.size.width ∨
        point.y ≥ app.cameraView.size.height) →
      app.pointToOffset true point = .error "") ∧
    (0 ≤ point.x → point.x < app.cameraView.size.width →
      0 ≤ point.y → point.y < app.cameraView.size.height →
      point.y * app.cameraView.size.width + point.x < 4294967296 →
      app.pointToOffset EXENG_DEBUG point =
        .ok (point.y * app.cameraView.size.width + point.x).toNat) := by
  constructor
  · intro h
    unfold RayTracerApp.pointToOffset
    by_cases h1 : point.x < 0 ∨ point.y < 0
    · simp only [h1, and_self, if_true]
    · by_cases h2 : point.x ≥ app.cameraView.size.width
      · simp only [h1, h2, and_false, and_self, if_false, if_true]
      · have h3 : point.y ≥ app.cameraView.size.height := by omega
        simp only [h1, h2, h3, and_false, and_self, if_false, if_true]
  · intro hx0 hx hy0 hy hlt
    exact RayTracerApp.pointToOffset_of_lt EXENG_DEBUG app point hx0 hx hy0 hy hlt

/-- C21 (amended), on the `2 × 2` frame: the pixel `(2, 0)` is outside and the pixel
`(1, 1)` has the offset `3`. -/
theorem RayTracerApp.pointToOffset_checked_witness :
    appExample.pointToOffset true ⟨2, 0⟩ = .error "" ∧
    appExample.pointToOffset false ⟨1, 1⟩ = .ok 3 := by
  refine ⟨(RayTracerApp.pointToOffset_checked true appExample ⟨2, 0⟩).1 (by decide), ?_⟩
  exact (RayTracerApp.pointToOffset_checked false appExample ⟨1, 1⟩).2
    (by decide) (by decide) (by decide) (by decide) (by decide)

/-- The mathematical offset of a pixel of the frame is below `width·height`, and it
determines the pixel. -/
theorem offset_lt_and_injective (w h x1 y1 x2 y2 : Int)
    (hx1 : 0 ≤ x1 ∧ x1 < w) (hy1 : 0 ≤ y1 ∧ y1 < h) (hx2 : 0 ≤ x2 ∧ x2 < w) :
    0 ≤ y1 * w + x1 ∧ y1 * w + x1 < w * h ∧
    (y1 * w + x1 = y2 * w + x2 → x1 = x2 ∧ y1 = y2) := by
  have hw : 0 < w := by omega
  have h1 : 0 ≤ y1 * w := mul_nonneg hy1.1 (le_of_lt hw)
  have h2 : y1 * w ≤ (h - 1) * w := mul_le_mul_of_nonneg_right (by omega) (le_of_lt hw)
  have h3 : (h - 1) * w = w * h - w := by ring
  refine ⟨by omega, by omega, ?_⟩
  intro heq
  have hx : x1 = x2 := by
    have e1 : (y1 * w + x1) % w = x1 := by
      rw [add_comm, Int.add_mul_emod_self]
      exact Int.emod_eq_of_lt hx1.1 hx1.2
    have e2 : (y2 * w + x2) % w = x2 := by
      rw [add_comm, Int.add_mul_emod_self]
      exact Int.emod_eq_of_lt hx2.1 hx2.2
    rw [← e1, ← e2, heq]
  refine ⟨hx, ?_⟩
  subst hx
  have hmul : y1 * w = y2 * w := by omega
  exact mul_right_cancel₀ (ne_of_gt hw) hmul

/-- C25 (counterexample): on the frame of `1048576 × 8192` pixels the two pixels `(0, 4096)`
and `(0, 0)` of the frame have the same offset `0`; `putPixel` at the first changes what
`getPixel` returns at the second, from `0` to `7`. -/
theorem RayTracerApp.pointToOffset_not_injective :
    (0 : Int) < appHuge.cameraView.size.width ∧ (0 : Int) < appHuge.cameraView.size.height ∧
    (4096 : Int) < appHuge.cameraView.size.height ∧
    (⟨0, 4096⟩ : Vector2i) ≠ ⟨0, 0⟩ ∧
    appHuge.pointToOffset true ⟨0, 4096⟩ = .ok 0 ∧
    appHuge.pointToOffset true ⟨0, 0⟩ = .ok 0 ∧
    appHuge.getPixel true backbufferZero ⟨0, 0⟩ = .ok 0 ∧
    (appHuge.putPixel true backbufferZero ⟨0, 4096⟩ 7).bind
      (fun backbuffer => appHuge.getPixel true backbuffer ⟨0, 0⟩) = .ok 7 := by
  refine ⟨by decide, by decide, by decide, by decide, rfl, rfl, rfl, rfl⟩

/-- C25 (amended): for every frame size `width × height` with `width·height ≤ 2³²` (a frame
that has a pixel has `width, height > 0`), `pointToOffset` on the pixels of the frame
throws nothing, its value is below `width·height`, and it is injective; `putPixel(p, c)`
followed by `getPixel(p)` returns `c`, and `putPixel(p, c)` leaves `getPixel(q)` as it was
for every other pixel `q` of the frame. -/
theorem RayTracerApp.pointToOffset_injective (EXENG_DEBUG : Bool) (app : RayTracerApp K)
    (backbuffer : Nat → Nat) (p q : Vector2i) (c : Nat)
    (hsize : app.cameraView.size.width * app.cameraView.size.height ≤ 4294967296)
    (hp : 0 ≤ p.x ∧ p.x < app.cameraView.size.width ∧
      0 ≤ p.y ∧ p.y < app.cameraView.size.height)
    (hq : 0 ≤ q.x ∧ q.x < app.cameraView.size.width ∧
      0 ≤ q.y ∧ q.y < app.cameraView.size.height) :
    ∃ offsetP offsetQ : Nat,
      app.pointToOffset EXENG_DEBUG p = .ok offsetP ∧
      app.pointToOffset EXENG_DEBUG q = .ok offsetQ ∧
      (offsetP : Int) < app.cameraView.size.width * app.cameraView.size.height ∧
      (offsetP = offsetQ → p = q) ∧
      ∃ backbuffer' : Nat → Nat,
        app.putPixel EXENG_DEBUG backbuffer p c = .ok backbuffer' ∧
        app.getPixel EXENG_DEBUG backbuffer' p = .ok c ∧
        (q ≠ p →
          app.getPixel EXENG_DEBUG backbuffer' q = app.getPixel EXENG_DEBUG backbuffer q) := by
  obtain ⟨hpx0, hpx, hpy0, hpy⟩ := hp
  obtain ⟨hqx0, hqx, hqy0, hqy⟩ := hq
  have hP := offset_lt_and_injective app.cameraView.size.width app.cameraView.size.height
    p.x p.y q.x q.y ⟨hpx0, hpx⟩ ⟨hpy0, hpy⟩ ⟨hqx0, hqx⟩
  have hQ := offset_lt_and_injective app.cameraView.size.width app.cameraView.size.height
    q.x q.y p.x p.y ⟨hqx0, hqx⟩ ⟨hqy0, hqy⟩ ⟨hpx0, hpx⟩
  have eP := RayTracerApp.pointToOffset_of_lt EXENG_DEBUG app p hpx0 hpx hpy0 hpy
    (by omega)
  have eQ := RayTracerApp.pointToOffset_of_lt EXENG_DEBUG app q hqx0 hqx hqy0 hqy
    (by omega)
  have hinj : (p.y * app.cameraView.size.width + p.x).toNat =
      (q.y * app.cameraView.size.width + q.x).toNat → p = q := by
    intro h
    have h' : p.y * app.cameraView.size.width + p.x =
        q.y * app.cameraView.size.width + q.x := by omega
    obtain ⟨hx, hy⟩ := hP.2.2 h'
    obtain ⟨px, py⟩ := p
    obtain ⟨qx, qy⟩ := q
    simp only at hx hy
    rw [hx, hy]
  refine ⟨_, _, eP, eQ, by omega, hinj,
    Function.update backbuffer (p.y * app.cameraView.size.width + p.x).toNat c, ?_, ?_, ?_⟩
  · simp only [RayTracerApp.putPixel, eP]
  · simp only [RayTracerApp.getPixel, eP, Function.update_same]
  · intro hne
    have hne' : (q.y * app.cameraView.size.width + q.x).toNat ≠
        (p.y * app.cameraView.size.width + p.x).toNat := by
      intro h
      exact hne (hinj h.symm).symm
    simp only [RayTracerApp.getPixel, eQ, Function.update_noteq hne']

/-- C25 (amended), on the `2 × 2` frame with the pixels `(1, 1)` and `(0, 1)`. -/
theorem RayTracerApp.pointToOffset_injective_witness :
    ∃ offsetP offsetQ : Nat,
      appExample.pointToOffset true ⟨1, 1⟩ = .ok offsetP ∧
      appExample.pointToOffset true ⟨0, 1⟩ = .ok offsetQ ∧
      (offsetP : Int) < appExample.cameraView.size.width * appExample.cameraView.size.height ∧
      (offsetP = offsetQ → (⟨1, 1⟩ : Vector2i) = ⟨0, 1⟩) ∧
      ∃ backbuffer' : Nat → Nat,
        appExample.putPixel true backbufferZero ⟨1, 1⟩ 7 = .ok backbuffer' ∧
        appExample.getPixel true backbuffer' ⟨1, 1⟩ = .ok 7 ∧
        ((⟨0, 1⟩ : Vector2i) ≠ ⟨1, 1⟩ →
          appExample.getPixel true backbuffer' ⟨0, 1⟩ =
            appExample.getPixel true backbufferZero ⟨0, 1⟩) :=
  RayTracerApp.pointToOffset_injective true appExample backbufferZero ⟨1, 1⟩ ⟨0, 1⟩ 7
    (by decide) (by decide) (by decide)

end FrameBufferLemmas

/-! ## The scan of `intersectRay` over sphere geometries -/

section ScanGeneral

variable {K : Type} [LinearOrderedField K]

/-- The hit candidate of a node that holds a sphere geometry. -/
theorem RayTracerApp.candidate_sphere (sqrt : K → K) (ray : Ray K) (node : SceneNode K)
    (g : SphereGeometry K) (hdata : node.getDataPtr = some (g.toData sqrt)) :
    RayTracerApp.candidate ray node =
      if (g.sphere.solve sqrt ray).1 = true then
        some { intersect := true
               distance := (g.sphere.solve sqrt ray).2
               normal := (ray.getPointAt (g.sphere.solve sqrt ray).2).normalize sqrt
               materialPtr := some g.material }
      else none := by
  unfold RayTracerApp.candidate
  rw [hdata]
  simp only [SphereGeometry.toData, SphereGeometry.hit_eq]
  cases h : (g.sphere.solve sqrt ray).1 <;> simp

/-- A hit reported by `solve` has a strictly positive distance. -/
theorem Sphere.solve_pos (sqrt : K → K) (s : Sphere K) (ray : Ray K)
    (h : (s.solve sqrt ray).1 = true) : 0 < (s.solve sqrt ray).2 := by
  unfold Sphere.solve at h ⊢
  dsimp only at h ⊢
  split_ifs at h ⊢ with h1 h2
  · simpa using h
  · simpa using h

end ScanGeneral

/-! ## Soundness of the sphere test -/

section SphereSound

variable {K : Type} [LinearOrderedField K]

/-- The squared distance of the ray point at `t` from the centre, less the squared radius,
is the quadratic `|d|²·t² + B·t + C` of `Sphere::intersect`. -/
theorem Sphere.surface_quadratic (s : Sphere K) (ray : Ray K) (t : K) :
    ((ray.getPointAt t).sub s.getCenter).getMagnitudeSq - s.getRadius * s.getRadius =
      ray.getDirection.getMagnitudeSq * (t * t) + s.quadB ray * t + s.quadC ray := by
  simp only [Ray.getPointAt, Ray.getPoint, Ray.getDirection, Vector3f.sub, Vector3f.add,
    Vector3f.scale, Vector3f.getMagnitudeSq, Sphere.quadB, Sphere.quadC, Vector3f.dot]
  ring

/-- C24: for every sphere and every ray with a direction of length `1` (squared length
`1`), with the square root exact at a positive discriminant: whenever `intersect` reports
a hit and stores the distance `t`, then `t > 0`, the point `ray.getPointAt(t)` is on the
surface, `|r0 + t·d − c|² = r²`, and no `t'` with `0 < t' < t` puts the ray on the
surface. -/
theorem Sphere.intersect_sound (sqrt : K → K) (s : Sphere K) (ray : Ray K)
    (info info' : IntersectInfo K)
    (hunit : ray.getDirection.getMagnitudeSq = 1)
    (hsqrt : 0 < s.quadDisc ray → IsSqrtAt sqrt (s.quadDisc ray))
    (hhit : s.intersect sqrt ray (some info) = (true, some info')) :
    0 < info'.distance ∧
    ((ray.getPointAt info'.distance).sub s.getCenter).getMagnitudeSq =
      s.getRadius * s.getRadius ∧
    ∀ t', 0 < t' → t' < info'.distance →
      ((ray.getPointAt t').sub s.getCenter).getMagnitudeSq ≠ s.getRadius * s.getRadius := by
  have h1 := Sphere.intersect_fst sqrt s ray (some info)
  have h2 := Sphere.intersect_snd_some sqrt s ray info
  rw [hhit] at h1 h2
  simp only at h1 h2
  have hs : (s.solve sqrt ray).1 = true := h1.symm
  simp only [hs, if_true, Option.some.injEq] at h2
  have hd : info'.distance = (s.solve sqrt ray).2 := by rw [h2]
  rw [hd]
  have hpos := Sphere.solve_pos sqrt s ray hs
  have hq : ∀ t, ((ray.getPointAt t).sub s.getCenter).getMagnitudeSq -
      s.getRadius * s.getRadius = t * t + s.quadB ray * t + s.quadC ray := by
    intro t
    rw [Sphere.surface_quadratic, hunit, one_mul]
  have hC : s.quadC ray = (s.quadB ray * s.quadB ray - s.quadDisc ray) / 4 := by
    unfold Sphere.quadDisc
    ring
  refine ⟨hpos, ?_, ?_⟩
  · have := hq (s.solve sqrt ray).2
    suffices hzero : (s.solve sqrt ray).2 * (s.solve sqrt ray).2 +
        s.quadB ray * (s.solve sqrt ray).2 + s.quadC ray = 0 by
      rw [hzero] at this
      exact sub_eq_zero.mp this
    unfold Sphere.solve at hs ⊢
    dsimp only at hs ⊢
    split_ifs at hs ⊢ with hz hp
    · simp only
      rw [hC, hz]
      ring
    · obtain ⟨hm0, hmm⟩ := hsqrt hp
      have hmin : min ((-(s.quadB ray) - sqrt (s.quadDisc ray)) / 2)
          ((-(s.quadB ray) + sqrt (s.quadDisc ray)) / 2) =
          (-(s.quadB ray) - sqrt (s.quadDisc ray)) / 2 :=
        min_eq_left (by linarith)
      simp only [hmin]
      rw [hC]
      linear_combination (1 / 4 : K) * hmm
  · intro t' ht' hlt heq
    have h0 : t' * t' + s.quadB ray * t' + s.quadC ray = 0 := by
      rw [← hq t', heq, sub_self]
    unfold Sphere.solve at hs hlt
    dsimp only at hs hlt
    split_ifs at hs hlt with hz hp
    · simp only at hlt
      rw [hC, hz] at h0
      have hsq : (t' + s.quadB ray / 2) * (t' + s.quadB ray / 2) = 0 := by
        linear_combination h0
      have := mul_self_eq_zero.mp hsq
      linarith
    · obtain ⟨hm0, hmm⟩ := hsqrt hp
      have hmin : min ((-(s.quadB ray) - sqrt (s.quadDisc ray)) / 2)
          ((-(s.quadB ray) + sqrt (s.quadDisc ray)) / 2) =
          (-(s.quadB ray) - sqrt (s.quadDisc ray)) / 2 :=
        min_eq_left (by linarith)
      simp only [hmin] at hlt
      rw [hC] at h0
      have hprod : (t' - (-(s.quadB ray) - sqrt (s.quadDisc ray)) / 2) *
          (t' - (-(s.quadB ray) + sqrt (s.quadDisc ray)) / 2) = 0 := by
        linear_combination h0 - (1 / 4 : K) * hmm
      have hneg1 : t' - (-(s.quadB ray) - sqrt (s.quadDisc ray)) / 2 < 0 := by linarith
      have hneg2 : t' - (-(s.quadB ray) + sqrt (s.quadDisc ray)) / 2 < 0 := by linarith
      have := mul_pos_of_neg_of_neg hneg1 hneg2
      linarith

/-- C24, at the unit sphere centred at `(0,0,5)` and the ray from the origin along `+z`:
the hit is at `t = 4`. -/
theorem Sphere.intersect_sound_witness :
    sphereFive.intersect sqrtExact rayZ (some IntersectInfo.new) =
      (true, some { intersect := true, distance := 4, normal := ⟨0, 0, 1⟩,
                    materialPtr := none }) ∧
    (0 : ℚ) < 4 ∧
    ((rayZ.getPointAt 4).sub sphereFive.getCenter).getMagnitudeSq =
      sphereFive.getRadius * sphereFive.getRadius ∧
    ∀ t', 0 < t' → t' < (4 : ℚ) →
      ((rayZ.getPointAt t').sub sphereFive.getCenter).getMagnitudeSq ≠
        sphereFive.getRadius * sphereFive.getRadius := by
  have hhit : sphereFive.intersect sqrtExact rayZ (some IntersectInfo.new) =
      (true, some { intersect := true, distance := 4, normal := ⟨0, 0, 1⟩,
                    materialPtr := none }) := by
    norm_num [sphereFive, rayZ, sqrtExact_four, sqrtExact_sixteen, Sphere.intersect,
      Sphere.solve, Sphere.new, Sphere.setAttributes, Sphere.setRadius, Sphere.setCenter,
      Sphere.quadB, Sphere.quadC, Sphere.quadDisc, Sphere.getRadius, Sphere.getCenter,
      Ray.getPoint, Ray.getDirection, Ray.getPointAt, Vector3f.add, Vector3f.sub,
      Vector3f.scale, Vector3f.dot, Vector3f.getMagnitudeSq, Vector3f.getMagnitude,
      Vector3f.normalize, IntersectInfo.new, Vector3f.splat, min_def]
  have hdisc : sphereFive.quadDisc rayZ = 4 := by
    norm_num [sphereFive, rayZ, Sphere.new, Sphere.setAttributes, Sphere.setRadius,
      Sphere.setCenter, Sphere.quadB, Sphere.quadC, Sphere.quadDisc, Sphere.getRadius,
      Sphere.getCenter, Ray.getPoint, Ray.getDirection, Vector3f.sub, Vector3f.dot,
      Vector3f.getMagnitudeSq, Vector3f.splat]
  refine ⟨hhit, ?_⟩
  exact Sphere.intersect_sound sqrtExact sphereFive rayZ IntersectInfo.new _
    (by norm_num [rayZ, Ray.getDirection, Vector3f.getMagnitudeSq])
    (by intro _; rw [hdisc]; unfold IsSqrtAt; rw [sqrtExact_four]; norm_num)
    hhit

end SphereSound

/-! ## The camera update -/

section UpdateLemmas

/-- C26 (failing input): the camera of `initialize` (position `(0,0,-2)`, lookAt `(0,0,0)`,
up `(0,1,0)`), the key `Up` held, no turn, `seconds = 20/3`.  Then
`displace = 1.5 · 20/3 = 10`, position and lookAt are both `(0,0,8)`, and the call of
`setOrientation` at the end of `update` throws. -/
theorem raytracer.RayTracerApp.update_throws :
    cameraInitial.position ≠ cameraInitial.lookAt ∧
    cameraInitial.up.getMagnitudeSq = 1 ∧
    (0 : ℚ) ≤ 20 / 3 ∧
    cameraInitial.getPosition.add (Vector3f.scale (3 / 2 * (20 / 3))
      (rotationNone cameraInitial.getUp 0
        ((cameraInitial.getLookAt.sub cameraInitial.getPosition).normalize sqrtExact))) =
      ⟨0, 0, 8⟩ ∧
    cameraInitial.getPosition.add (Vector3f.scale 10
      (rotationNone cameraInitial.getUp 0
        ((cameraInitial.getLookAt.sub cameraInitial.getPosition).normalize sqrtExact))) =
      ⟨0, 0, 8⟩ ∧
    raytracer.RayTracerApp.update sqrtExact rotationNone keysUp
      raytracer.ApplicationStatus.Running cameraInitial (20 / 3) =
      .error Camera.invalidArgument := by
  refine ⟨by decide, ?_, by norm_num, ?_, ?_, ?_⟩
  · norm_num [cameraInitial, Vector3f.getMagnitudeSq]
  · norm_num [cameraInitial, rotationNone, Camera.getPosition, Camera.getLookAt,
      Camera.getUp, Vector3f.add, Vector3f.sub, Vector3f.scale, Vector3f.normalize,
      Vector3f.getMagnitude, Vector3f.getMagnitudeSq, sqrtExact_four]
  · norm_num [cameraInitial, rotationNone, Camera.getPosition, Camera.getLookAt,
      Camera.getUp, Vector3f.add, Vector3f.sub, Vector3f.scale, Vector3f.normalize,
      Vector3f.getMagnitude, Vector3f.getMagnitudeSq, sqrtExact_four]
  · norm_num [raytracer.RayTracerApp.update, keysUp, cameraInitial, rotationNone,
      Camera.setOrientation, Camera.getPosition, Camera.getLookAt,
      Camera.getUp, Vector3f.add, Vector3f.sub, Vector3f.scale, Vector3f.normalize,
      Vector3f.getMagnitude, Vector3f.getMagnitudeSq, sqrtExact_four]

end UpdateLemmas

/-! ## Material formats -/

section MaterialLemmas

/-- C28 (failing input): five elements of one byte with `align = 4`.  The raw size is `5`,
`getSize()` returns `5 + 5 % 4 = 6`, which is not a multiple of `4`; the smallest multiple
of `4` that is not less than `5` is `8`. -/
theorem MaterialAttribDesc2.getSize_not_padded :
    0 ≤ attribFiveBytes.count ∧ 1 ≤ attribFiveBytes.align ∧
    attribFiveBytes.count * dataTypeBytes attribFiveBytes.type = 5 ∧
    attribFiveBytes.getSize dataTypeBytes = 6 ∧
    ¬ (attribFiveBytes.align ∣ attribFiveBytes.getSize dataTypeBytes) ∧
    (attribFiveBytes.align ∣ 8 ∧ (5 : Int) ≤ 8 ∧
      ∀ m : Int, attribFiveBytes.align ∣ m → 5 ≤ m → 8 ≤ m) := by
  refine ⟨by decide, by decide, by decide, by decide, by decide, by decide, by decide, ?_⟩
  intro m hdvd hm
  obtain ⟨k, hk⟩ := hdvd
  have h4 : attribFiveBytes.align = 4 := rfl
  rw [h4] at hk
  omega

/-- The size of a descriptor does not depend on its offset. -/
theorem MaterialAttribDesc2.getSize_offset (typeSize : DataType → Int)
    (a : MaterialAttribDesc2) (offset : Int) :
    MaterialAttribDesc2.getSize typeSize { a with offset := offset } =
      MaterialAttribDesc2.getSize typeSize a := rfl

/-- A value in the range of `int` is its own wrap. -/
theorem wrapInt32_of_range (n : Int) (h0 : 0 ≤ n) (h1 : n < 2147483648) :
    wrapInt32 n = n := by
  unfold wrapInt32
  omega

/-- An array entry overwritten, as the entries before it, the new entry and the entries
after it. -/
theorem List.set_eq_take_cons_drop_of_lt {α : Type} (l : List α) (i : Nat) (a : α)
    (h : i < l.length) : l.set i a = l.take i ++ a :: l.drop (i + 1) := by
  rw [List.set_eq_take_append_cons_drop, if_pos h]

/-- The loop of `construct` from entry `i` on: it overwrites the entries from `i` on with
the attributes it stores, each at the running offset, and leaves the others. -/
theorem MaterialFormat2.constructLoop_eq (typeSize : DataType → Int)
    (input : List MaterialAttribDesc2) :
    ∀ (i : Nat) (offset : Int) (attribs : List MaterialAttribDesc2),
      i < 8 → attribs.length = 8 →
      (∀ a ∈ (input.takeWhile (fun a => decide (a.type ≠ DataType.Unknown))).take (8 - i),
        0 ≤ a.getSize typeSize) →
      0 ≤ offset →
      offset + (((input.takeWhile (fun a => decide (a.type ≠ DataType.Unknown))).take
        (8 - i)).map (MaterialAttribDesc2.getSize typeSize)).sum < 2147483648 →
      MaterialFormat2.constructLoop typeSize input i offset attribs =
        (attribs.take i ++
          MaterialFormat2.assignOffsets typeSize offset
            ((input.takeWhile (fun a => decide (a.type ≠ DataType.Unknown))).take (8 - i)) ++
          attribs.drop (i + ((input.takeWhile
            (fun a => decide (a.type ≠ DataType.Unknown))).take (8 - i)).length),
         offset + (((input.takeWhile (fun a => decide (a.type ≠ DataType.Unknown))).take
          (8 - i)).map (MaterialAttribDesc2.getSize typeSize)).sum) := by
  induction input with
  | nil =>
    intro i offset attribs _ _ _ _ _
    simp [MaterialFormat2.constructLoop, MaterialFormat2.assignOffsets]
  | cons attrib rest ih =>
    intro i offset attribs hi hlen hsize hoff hsum
    by_cases hu : attrib.type = DataType.Unknown
    · simp [MaterialFormat2.constructLoop, MaterialFormat2.assignOffsets, hu]
    · have htw : (attrib :: rest).takeWhile (fun a => decide (a.type ≠ DataType.Unknown)) =
          attrib :: rest.takeWhile (fun a => decide (a.type ≠ DataType.Unknown)) := by
        simp [List.takeWhile_cons, hu]
      have h8 : 8 - i = (8 - (i + 1)) + 1 := by omega
      rw [htw, h8, List.take_succ_cons] at hsize hsum ⊢
      simp only [List.map_cons, List.sum_cons, List.mem_cons, forall_eq_or_imp,
        List.length_cons] at hsize hsum ⊢
      obtain ⟨hs0, hsrest⟩ := hsize
      have hsumrest : 0 ≤ (((rest.takeWhile
          (fun a => decide (a.type ≠ DataType.Unknown))).take (8 - (i + 1))).map
          (MaterialAttribDesc2.getSize typeSize)).sum := by
        apply List.sum_nonneg
        intro x hx
        rw [List.mem_map] at hx
        obtain ⟨a, ha, rfl⟩ := hx
        exact hsrest a ha
      have hget : (attribs.set i attrib).getD i {} = attrib := by
        rw [List.getD_eq_getElem?_getD, List.getElem?_set_self (by omega)]
        rfl
      have hget2 : ((attribs.set i attrib).set i { attrib with offset := offset }).getD i {} =
          { attrib with offset := offset } := by
        rw [List.getD_eq_getElem?_getD, List.getElem?_set_self (by simp; omega)]
        rfl
      have hget3 : (attribs.set i { attrib with offset := offset }).getD i {} =
          { attrib with offset := offset } := by
        rw [List.getD_eq_getElem?_getD, List.getElem?_set_self (by omega)]
        rfl
      have hwrap : wrapInt32 (offset + attrib.getSize typeSize) =
          offset + attrib.getSize typeSize :=
        wrapInt32_of_range _ (by omega) (by omega)
      have hwrap2 : wrapInt32 (offset +
          MaterialAttribDesc2.getSize typeSize { attrib with offset := offset }) =
          offset + attrib.getSize typeSize := hwrap
      have hA : MaterialFormat2.AttribCount = 8 := rfl
      have hset := List.set_eq_take_cons_drop_of_lt attribs i
        { attrib with offset := offset } (by omega)
      rw [MaterialFormat2.constructLoop]
      simp only [hu, if_false, hget, hget2, hget3, hwrap2, List.set_set, hA,
        MaterialFormat2.assignOffsets]
      by_cases hlast : i + 1 = 8
      · have hi7 : 8 - (i + 1) = 0 := by omega
        rw [if_pos hlast, hi7]
        simp only [List.take_zero, MaterialFormat2.assignOffsets, List.map_nil, List.sum_nil,
          add_zero, List.length_nil]
        rw [hset]
        simp
      · rw [if_neg hlast]
        have hi' : i + 1 < 8 := by omega
        rw [ih (i + 1) (offset + attrib.getSize typeSize)
          (attribs.set i { attrib with offset := offset }) hi' (by simp [hlen]) hsrest
          (by omega) (by omega)]
        have htake : (attribs.set i { attrib with offset := offset }).take (i + 1) =
            attribs.take i ++ [{ attrib with offset := offset }] := by
          rw [hset, List.take_append_eq_append_take]
          simp [List.length_take, hlen, Nat.min_eq_left (le_of_lt hi)]
        have hdrop : ∀ k, (attribs.set i { attrib with offset := offset }).drop (i + 1 + k) =
            attribs.drop (i + 1 + k) := by
          intro k
          rw [List.drop_set_of_lt _ _ (by omega)]
        rw [htake, hdrop]
        simp only [List.append_assoc, List.singleton_append, Prod.mk.injEq]
        constructor
        · congr 3
          omega
        · ring

/-- The entries of `assignOffsets`: the descriptors of the list, each at the start offset
plus the sizes of the descriptors before it. -/
theorem MaterialFormat2.assignOffsets_getElem? (typeSize : DataType → Int)
    (l : List MaterialAttribDesc2) :
    ∀ (offset : Int) (i : Nat) (a : MaterialAttribDesc2),
      (MaterialFormat2.assignOffsets typeSize offset l)[i]? = some a →
      ∃ b, l[i]? = some b ∧
        a = { b with offset :=
          offset + ((l.take i).map (MaterialAttribDesc2.getSize typeSize)).sum } := by
  induction l with
  | nil => intro offset i a h; simp [MaterialFormat2.assignOffsets] at h
  | cons first rest ih =>
    intro offset i a h
    cases i with
    | zero =>
      simp only [MaterialFormat2.assignOffsets, List.getElem?_cons_zero,
        Option.some.injEq] at h
      exact ⟨first, by simp, by simp [← h]⟩
    | succ k =>
      simp only [MaterialFormat2.assignOffsets, List.getElem?_cons_succ] at h
      obtain ⟨b, hb, ha⟩ := ih _ k a h
      refine ⟨b, by simpa using hb, ?_⟩
      rw [ha]
      simp only [List.take_succ_cons, List.map_cons, List.sum_cons, add_assoc]

theorem MaterialFormat2.assignOffsets_length (typeSize : DataType → Int)
    (l : List MaterialAttribDesc2) :
    ∀ offset : Int, (MaterialFormat2.assignOffsets typeSize offset l).length = l.length := by
  induction l with
  | nil => intro offset; rfl
  | cons first rest ih =>
    intro offset
    simp [MaterialFormat2.assignOffsets, ih]

/-- The sum of non-negative sizes grows with the number of summands taken. -/
theorem MaterialFormat2.sum_take_le (typeSize : DataType → Int)
    (l : List MaterialAttribDesc2) (hnn : ∀ a ∈ l, 0 ≤ a.getSize typeSize) :
    ∀ i j : Nat, i ≤ j →
      ((l.take i).map (MaterialAttribDesc2.getSize typeSize)).sum ≤
        ((l.take j).map (MaterialAttribDesc2.getSize typeSize)).sum := by
  induction l with
  | nil => intro i j _; simp
  | cons first rest ih =>
    intro i j hij
    have hrest : ∀ a ∈ rest, 0 ≤ a.getSize typeSize :=
      fun a ha => hnn a (List.mem_cons_of_mem _ ha)
    cases i with
    | zero =>
      simp only [List.take_zero, List.map_nil, List.sum_nil]
      apply List.sum_nonneg
      intro x hx
      rw [List.mem_map] at hx
      obtain ⟨a, ha, rfl⟩ := hx
      exact hnn a (List.mem_of_mem_take ha)
    | succ k =>
      cases j with
      | zero => omega
      | succ m =>
        simp only [List.take_succ_cons, List.map_cons, List.sum_cons]
        have := ih hrest k m (by omega)
        omega

/-- The result of `construct` on a format whose array has its `8` entries. -/
theorem MaterialFormat2.construct_eq (typeSize : DataType → Int) (format : MaterialFormat2)
    (attribs : List MaterialAttribDesc2)
    (hlen : format.attribs.length = 8)
    (hnn : ∀ a ∈ MaterialFormat2.storedPrefix attribs, 0 ≤ a.getSize typeSize)
    (hsum : ((MaterialFormat2.storedPrefix attribs).map
      (MaterialAttribDesc2.getSize typeSize)).sum < 2147483648) :
    format.construct typeSize attribs =
      { attribs := MaterialFormat2.assignOffsets typeSize 0
          (MaterialFormat2.storedPrefix attribs) ++
          format.attribs.drop (MaterialFormat2.storedPrefix attribs).length
        size := ((MaterialFormat2.storedPrefix attribs).map
          (MaterialAttribDesc2.getSize typeSize)).sum } := by
  unfold MaterialFormat2.construct
  have h := MaterialFormat2.constructLoop_eq typeSize attribs 0 0 format.attribs
    (by norm_num) hlen hnn (le_refl 0) (by rw [zero_add]; exact hsum)
  rw [h]
  simp [MaterialFormat2.storedPrefix, MaterialFormat2.AttribCount]

/-- C27 (counterexample): three attributes of one-byte elements with the counts `8`, `-4`
and `8`, none of type `Unknown`.  `construct` stores them at the offsets `0`, `8` and `4`;
their sizes are `8`, `-4` and `8`, so the byte ranges `[0, 8)` of the first and `[4, 12)` of
the third overlap. -/
theorem MaterialFormat2.construct_overlap :
    (({} : MaterialFormat2).construct dataTypeBytes attribsNegativeCount).attribs.take 3 =
      [{ type := DataType.UInt8, count := 8, align := 1, offset := 0, name := "a" },
       { type := DataType.UInt8, count := -4, align := 1, offset := 8, name := "b" },
       { type := DataType.UInt8, count := 8, align := 1, offset := 4, name := "c" }] ∧
    attribsNegativeCount.map (MaterialAttribDesc2.getSize dataTypeBytes) = [8, -4, 8] ∧
    ((0 : Int) ≤ 4 ∧ (4 : Int) < 0 + 8) ∧ ((4 : Int) ≤ 4 ∧ (4 : Int) < 4 + 8) := by
  refine ⟨by decide, by decide, by decide, by decide⟩

/-- C27 (amended): for every sequence of attribute descriptors whose stored ones (the longest
prefix without an attribute of type `Unknown`, cut to at most `8` entries) have a non-zero
`align`, a non-negative `getSize()` and sizes that sum to less than `2³¹`: `construct` writes
the stored attributes to the first entries of the array and leaves the other entries; the
`i`-th stored attribute is the `i`-th of the prefix with its offset set to the sum of
`getSize()` of the stored attributes before it; the byte ranges
`[offset, offset + getSize())` of distinct stored attributes do not overlap; and the
format's `getSize()` is the sum of `getSize()` over the stored attributes. -/
theorem MaterialFormat2.construct_layout (typeSize : DataType → Int)
    (format : MaterialFormat2) (attribs : List MaterialAttribDesc2)
    (hlen : format.attribs.length = 8)
    (hdom : ∀ a ∈ MaterialFormat2.storedPrefix attribs,
      a.align ≠ 0 ∧ 0 ≤ a.getSize typeSize)
    (hsum : ((MaterialFormat2.storedPrefix attribs).map
      (MaterialAttribDesc2.getSize typeSize)).sum < 2147483648) :
    (format.construct typeSize attribs).attribs.length = 8 ∧
    (format.construct typeSize attribs).attribs.drop
        (MaterialFormat2.storedPrefix attribs).length =
      format.attribs.drop (MaterialFormat2.storedPrefix attribs).length ∧
    (∀ i a, i < (MaterialFormat2.storedPrefix attribs).length →
      (format.construct typeSize attribs).attribs[i]? = some a →
      ∃ b, (MaterialFormat2.storedPrefix attribs)[i]? = some b ∧
        a = { b with offset := (((MaterialFormat2.storedPrefix attribs).take i).map
          (MaterialAttribDesc2.getSize typeSize)).sum }) ∧
    (∀ i j a b, i < j → j < (MaterialFormat2.storedPrefix attribs).length →
      (format.construct typeSize attribs).attribs[i]? = some a →
      (format.construct typeSize attribs).attribs[j]? = some b →
      a.offset + a.getSize typeSize ≤ b.offset) ∧
    (format.construct typeSize attribs).getSize =
      ((MaterialFormat2.storedPrefix attribs).map
        (MaterialAttribDesc2.getSize typeSize)).sum := by
  have hnn : ∀ a ∈ MaterialFormat2.storedPrefix attribs, 0 ≤ a.getSize typeSize :=
    fun a ha => (hdom a ha).2
  have hpre : (MaterialFormat2.storedPrefix attribs).length ≤ 8 := by
    unfold MaterialFormat2.storedPrefix MaterialFormat2.AttribCount
    simp
  have hentry : ∀ i a, i < (MaterialFormat2.storedPrefix attribs).length →
      (format.construct typeSize attribs).attribs[i]? = some a →
      ∃ b, (MaterialFormat2.storedPrefix attribs)[i]? = some b ∧
        a = { b with offset := (((MaterialFormat2.storedPrefix attribs).take i).map
          (MaterialAttribDesc2.getSize typeSize)).sum } := by
    intro i a hi ha
    rw [MaterialFormat2.construct_eq typeSize format attribs hlen hnn hsum] at ha
    simp only at ha
    rw [List.getElem?_append_left
      (by rw [MaterialFormat2.assignOffsets_length]; exact hi)] at ha
    obtain ⟨b, hb, hab⟩ := MaterialFormat2.assignOffsets_getElem? typeSize _ 0 i a ha
    exact ⟨b, hb, by rw [hab, zero_add]⟩
  refine ⟨?_, ?_, hentry, ?_, ?_⟩
  · rw [MaterialFormat2.construct_eq typeSize format attribs hlen hnn hsum]
    simp only [List.length_append, MaterialFormat2.assignOffsets_length, List.length_drop]
    omega
  · rw [MaterialFormat2.construct_eq typeSize format attribs hlen hnn hsum]
    simp only
    rw [List.drop_append_of_le_length
      (by rw [MaterialFormat2.assignOffsets_length])]
    rw [List.drop_of_length_le (by rw [MaterialFormat2.assignOffsets_length])]
    simp
  · intro i j a b hij hj ha hb
    obtain ⟨a0, ha0, haeq⟩ := hentry i a (by omega) ha
    obtain ⟨b0, hb0, hbeq⟩ := hentry j b hj hb
    have hstep : (((MaterialFormat2.storedPrefix attribs).take (i + 1)).map
        (MaterialAttribDesc2.getSize typeSize)).sum =
        (((MaterialFormat2.storedPrefix attribs).take i).map
          (MaterialAttribDesc2.getSize typeSize)).sum + a0.getSize typeSize := by
      rw [List.take_succ, ha0]
      simp
    have hle := MaterialFormat2.sum_take_le typeSize _ hnn (i + 1) j (by omega)
    rw [haeq, hbeq]
    simp only [MaterialAttribDesc2.getSize_offset]
    omega
  · rw [MaterialFormat2.construct_eq typeSize format attribs hlen hnn hsum]
    rfl

/-- C27 (amended), on a fresh format with a position of three floats, a colour of four
bytes, an attribute of type `Unknown` and one more attribute: two attributes are stored. -/
theorem MaterialFormat2.construct_layout_witness :
    (({} : MaterialFormat2).construct dataTypeBytes attribsExample).attribs.length = 8 ∧
    (({} : MaterialFormat2).construct dataTypeBytes attribsExample).attribs.drop
        (MaterialFormat2.storedPrefix attribsExample).length =
      ({} : MaterialFormat2).attribs.drop (MaterialFormat2.storedPrefix attribsExample).length ∧
    (∀ i a, i < (MaterialFormat2.storedPrefix attribsExample).length →
      (({} : MaterialFormat2).construct dataTypeBytes attribsExample).attribs[i]? = some a →
      ∃ b, (MaterialFormat2.storedPrefix attribsExample)[i]? = some b ∧
        a = { b with offset := (((MaterialFormat2.storedPrefix attribsExample).take i).map
          (MaterialAttribDesc2.getSize dataTypeBytes)).sum }) ∧
    (∀ i j a b, i < j → j < (MaterialFormat2.storedPrefix attribsExample).length →
      (({} : MaterialFormat2).construct dataTypeBytes attribsExample).attribs[i]? = some a →
      (({} : MaterialFormat2).construct dataTypeBytes attribsExample).attribs[j]? = some b →
      a.offset + a.getSize dataTypeBytes ≤ b.offset) ∧
    (({} : MaterialFormat2).construct dataTypeBytes attribsExample).getSize =
      ((MaterialFormat2.storedPrefix attribsExample).map
        (MaterialAttribDesc2.getSize dataTypeBytes)).sum :=
  MaterialFormat2.construct_layout dataTypeBytes {} attribsExample (by decide) (by decide)
    (by decide)

end MaterialLemmas

/-! ## The plugin manager -/

section PluginLemmas

/-- A key is absent from the map exactly when it is not among the keys of its entries. -/
theorem List.lookup_eq_none_iff_not_mem_keys (l : List (String × Nat)) (key : String) :
    l.lookup key = none ↔ key ∉ l.map Prod.fst := by
  induction l with
  | nil => simp
  | cons entry rest ih =>
    obtain ⟨k, v⟩ := entry
    rw [List.lookup_cons]
    by_cases h : key = k
    · subst h
      simp
    · have hb : (key == k) = false := by simpa using h
      simp only [hb, List.map_cons, List.mem_cons, h, false_or]
      exact ih

/-- A key that the map holds is among the keys of its entries. -/
theorem List.lookup_eq_some_mem (l : List (String × Nat)) (key : String) (plugin : Nat)
    (h : l.lookup key = some plugin) : (key, plugin) ∈ l := by
  induction l with
  | nil => simp at h
  | cons entry rest ih =>
    obtain ⟨k, v⟩ := entry
    rw [List.lookup_cons] at h
    by_cases hk : key = k
    · subst hk
      simp only [beq_self_eq_true, Option.some.injEq] at h
      subst h
      exact List.mem_cons_self _ _
    · have hb : (key == k) = false := by simpa using hk
      simp only [hb] at h
      exact List.mem_cons_of_mem _ (ih h)

/-- The entries left after the key is erased from a map that holds it: their values are the
values of the map less the value of the key. -/
theorem List.filter_key_perm (l : List (String × Nat)) (name : String) (plugin : Nat)
    (hkeys : (l.map Prod.fst).Nodup) (h : l.lookup name = some plugin) :
    ((l.filter (fun entry => entry.1 != name)).map Prod.snd).Perm
      ((l.map Prod.snd).erase plugin) := by
  induction l with
  | nil => simp at h
  | cons entry rest ih =>
    obtain ⟨k, v⟩ := entry
    rw [List.map_cons, List.nodup_cons] at hkeys
    obtain ⟨hk, hrest⟩ := hkeys
    rw [List.lookup_cons] at h
    by_cases hname : name = k
    · subst hname
      simp only [beq_self_eq_true, Option.some.injEq] at h
      subst h
      have hfilter : rest.filter (fun entry => entry.1 != name) = rest := by
        rw [List.filter_eq_self]
        intro entry hentry
        have : entry.1 ≠ name := by
          intro heq
          apply hk
          rw [List.mem_map]
          exact ⟨entry, hentry, heq⟩
        simpa using this
      simp [List.filter_cons, hfilter]
    · have hb : (name == k) = false := by simpa using hname
      simp only [hb] at h
      have hkeep : ((k, v).1 != name) = true := by
        simp only [bne_iff_ne, ne_eq]
        exact fun heq => hname heq.symm
      rw [List.filter_cons, if_pos hkeep, List.map_cons, List.map_cons]
      have hih := ih hrest h
      by_cases hv : v = plugin
      · subst hv
        rw [List.erase_cons_head]
        have hmem : v ∈ rest.map Prod.snd := by
          rw [List.mem_map]
          exact ⟨(name, v), List.lookup_eq_some_mem rest name v h, rfl⟩
        exact (List.Perm.cons v hih).trans (List.perm_cons_erase hmem).symm
      · rw [List.erase_cons_tail (by simpa using hv)]
        exact List.Perm.cons v hih

/-- Method `loadPluginFile(file, key)` keeps the registry invariant, whether it returns or
throws. -/
theorem PluginManager.loadPluginFileKey_invariant (pm : PluginManager) (file key : String)
    (events : LoadEvents) (h : pm.Invariant) :
    (pm.loadPluginFileKey file key events).2.Invariant := by
  obtain ⟨hperm, hnodup, hkeys, hnext⟩ := h
  unfold PluginManager.loadPluginFileKey
  by_cases hfind : (pm.plugins.lookup key).isNone = true
  · rw [if_pos hfind]
    by_cases hctor : events.constructorThrows = true
    · rw [if_pos hctor]
      exact ⟨hperm, hnodup, hkeys, hnext⟩
    · rw [if_neg hctor]
      have hnone : pm.plugins.lookup key = none := by
        simpa [Option.isNone_iff_eq_none] using hfind
      have habsent := (List.lookup_eq_none_iff_not_mem_keys pm.plugins key).mp hnone
      have hnew : (PluginManager.Invariant
          { plugins := pm.plugins ++ [(key, pm.next)]
            pluginArray := pm.pluginArray ++ [pm.next]
            pluginPath := pm.pluginPath
            next := pm.next + 1 }) := by
        refine ⟨?_, ?_, ?_, ?_⟩
        · simp only [List.map_append, List.map_cons, List.map_nil]
          exact List.Perm.append_right _ hperm
        · rw [List.nodup_append]
          refine ⟨hnodup, List.nodup_singleton _, ?_⟩
          intro a ha hb
          rw [List.mem_singleton] at hb
          rw [hb] at ha
          exact absurd (hnext _ ha) (lt_irrefl _)
        · simp only [List.map_append, List.map_cons, List.map_nil]
          rw [List.nodup_append]
          refine ⟨hkeys, List.nodup_singleton _, ?_⟩
          intro a ha hb
          rw [List.mem_singleton] at hb
          rw [hb] at ha
          exact habsent ha
        · intro plugin hplugin
          simp only [List.mem_append, List.mem_singleton] at hplugin
          rcases hplugin with hp | hp
          · exact Nat.lt_succ_of_lt (hnext plugin hp)
          · rw [hp]; exact Nat.lt_succ_self _
      by_cases hinit : events.initializeThrows = true
      · simp only [hinit, if_true]
        exact hnew
      · simp only [hinit, if_false]
        exact hnew
  · rw [if_neg hfind]
    exact ⟨hperm, hnodup, hkeys, hnext⟩

/-- Method `unloadPlugin(name)` keeps the registry invariant, whether it returns or
throws. -/
theorem PluginManager.unloadPlugin_invariant (pm : PluginManager) (name : String)
    (terminateThrows : Bool) (h : pm.Invariant) :
    (pm.unloadPlugin name terminateThrows).2.Invariant := by
  obtain ⟨hperm, hnodup, hkeys, hnext⟩ := h
  unfold PluginManager.unloadPlugin
  cases hfind : pm.plugins.lookup name with
  | none => exact ⟨hperm, hnodup, hkeys, hnext⟩
  | some plugin =>
    by_cases ht : terminateThrows = true
    · simp only [ht, if_true]
      exact ⟨hperm, hnodup, hkeys, hnext⟩
    · simp only [ht, if_false]
      refine ⟨?_, hnodup.erase _, ?_, ?_⟩
      · exact (hperm.erase plugin).trans
          (List.filter_key_perm pm.plugins name plugin hkeys hfind).symm
      · exact hkeys.sublist ((List.filter_sublist _).map Prod.fst)
      · intro p hp
        exact hnext p (List.mem_of_mem_erase hp)

/-- Every record reached from a fresh manager satisfies the registry invariant. -/
theorem PluginCall.run_invariant (EXENG_WINDOWS : Bool) (calls : List PluginCall) :
    ∀ pm : PluginManager, pm.Invariant →
      (PluginCall.run EXENG_WINDOWS pm calls).Invariant := by
  induction calls with
  | nil => intro pm h; exact h
  | cons call rest ih =>
    intro pm h
    simp only [PluginCall.run, List.foldl_cons]
    apply ih
    cases call with
    | loadPlugin name events =>
      exact PluginManager.loadPluginFileKey_invariant pm _ _ events h
    | loadPluginFile file events =>
      exact PluginManager.loadPluginFileKey_invariant pm _ _ events h
    | unloadPlugin name terminateThrows =>
      exact PluginManager.unloadPlugin_invariant pm name terminateThrows h

/-- Loading a key that the map holds changes nothing and throws nothing. -/
theorem PluginManager.loadPluginFileKey_present (pm : PluginManager) (file key : String)
    (events : LoadEvents) (hkey : (pm.plugins.lookup key).isSome = true) :
    pm.loadPluginFileKey file key events = (.ok (), pm) := by
  unfold PluginManager.loadPluginFileKey
  have hnot : ¬ ((pm.plugins.lookup key).isNone = true) := by
    cases hl : pm.plugins.lookup key with
    | none => rw [hl] at hkey; simp at hkey
    | some v => simp
  rw [if_neg hnot]

/-- After `loadPluginFile(file, key)` has returned, the map holds the key. -/
theorem PluginManager.loadPluginFileKey_ok_present (pm : PluginManager) (file key : String)
    (events : LoadEvents) (hok : (pm.loadPluginFileKey file key events).1 = .ok ()) :
    ((pm.loadPluginFileKey file key events).2.plugins.lookup key).isSome = true := by
  unfold PluginManager.loadPluginFileKey at hok ⊢
  by_cases hfind : (pm.plugins.lookup key).isNone = true
  · rw [if_pos hfind] at hok ⊢
    by_cases hctor : events.constructorThrows = true
    · rw [if_pos hctor] at hok
      cases hok
    · rw [if_neg hctor] at hok ⊢
      have hlookup : (pm.plugins ++ [(key, pm.next)]).lookup key = some pm.next := by
        have hnone : pm.plugins.lookup key = none := by
          simpa [Option.isNone_iff_eq_none] using hfind
        generalize pm.plugins = l at hnone
        induction l with
        | nil => simp [List.lookup_cons]
        | cons entry rest ih =>
          obtain ⟨k, v⟩ := entry
          rw [List.lookup_cons] at hnone
          rw [List.cons_append, List.lookup_cons]
          cases hb : (key == k)
          · rw [hb] at hnone
            exact ih hnone
          · rw [hb] at hnone
            cases hnone
      by_cases hinit : events.initializeThrows = true
      · simp only [hinit, if_true] at hok
        cases hok
      · simp only [hinit, Bool.false_eq_true, if_false, hlookup, Option.isSome_some]
  · rw [if_neg hfind]
    cases hl : pm.plugins.lookup key with
    | none => rw [hl] at hfind; simp at hfind
    | some v => simp

/-- C29: for the record `pm` reached from a fresh manager by any sequence of `loadPlugin`,
`loadPluginFile` and `unloadPlugin` calls, each returning or throwing: the plugin array
holds the values of the map, each once, and `getPluginCount()` is the number of keys, which
are distinct; loading a key that is present changes nothing; unloading an absent name
changes nothing; unloading a present name whose `terminate` returns removes the key from
the map, leaves the other keys as they were, and removes the plugin from the array, the
other plugins keeping their order. -/
theorem PluginManager.registry_invariant (EXENG_WINDOWS : Bool) (currentPath : String)
    (calls : List PluginCall) (pm : PluginManager)
    (hpm : pm = PluginCall.run EXENG_WINDOWS (PluginManager.new currentPath) calls) :
    pm.pluginArray.Perm (pm.plugins.map Prod.snd) ∧
    pm.pluginArray.Nodup ∧
    (pm.plugins.map Prod.fst).Nodup ∧
    pm.getPluginCount = (pm.plugins.map Prod.fst).length ∧
    (∀ file key events, (pm.plugins.lookup key).isSome = true →
      pm.loadPluginFileKey file key events = (.ok (), pm)) ∧
    (∀ name events, (pm.plugins.lookup name).isSome = true →
      pm.loadPlugin EXENG_WINDOWS name events = (.ok (), pm)) ∧
    (∀ name terminateThrows, pm.plugins.lookup name = none →
      pm.unloadPlugin name terminateThrows = (.ok (), pm)) ∧
    (∀ name plugin, pm.plugins.lookup name = some plugin →
      plugin ∈ pm.pluginArray ∧
      (pm.unloadPlugin name false).1 = .ok () ∧
      (pm.unloadPlugin name false).2.plugins.lookup name = none ∧
      (∀ other, other ≠ name →
        (pm.unloadPlugin name false).2.plugins.lookup other = pm.plugins.lookup other) ∧
      (pm.unloadPlugin name false).2.pluginArray =
        pm.pluginArray.filter (fun other => other != plugin)) := by
  have hinv : pm.Invariant := by
    rw [hpm]
    apply PluginCall.run_invariant
    exact ⟨List.Perm.nil, List.nodup_nil, List.nodup_nil, fun _ h => absurd h (List.not_mem_nil _)⟩
  obtain ⟨hperm, hnodup, hkeys, hnext⟩ := hinv
  have hpresent : ∀ file key events, (pm.plugins.lookup key).isSome = true →
      pm.loadPluginFileKey file key events = (.ok (), pm) :=
    fun file key events hkey => PluginManager.loadPluginFileKey_present pm file key events hkey
  refine ⟨hperm, hnodup, hkeys, ?_, hpresent, ?_, ?_, ?_⟩
  · unfold PluginManager.getPluginCount
    rw [List.length_map, ← List.length_map pm.plugins Prod.snd, hperm.length_eq]
  · intro name events hkey
    exact hpresent _ name events hkey
  · intro name terminateThrows hnone
    unfold PluginManager.unloadPlugin
    rw [hnone]
  · intro name plugin hsome
    have hmem : plugin ∈ pm.pluginArray := by
      rw [hperm.mem_iff, List.mem_map]
      exact ⟨(name, plugin), List.lookup_eq_some_mem pm.plugins name plugin hsome, rfl⟩
    have hun : pm.unloadPlugin name false =
        (.ok (), { pm with
          pluginArray := pm.pluginArray.erase plugin
          plugins := pm.plugins.filter (fun entry => entry.1 != name) }) := by
      unfold PluginManager.unloadPlugin
      rw [hsome]
      simp
    refine ⟨hmem, by rw [hun], ?_, ?_, ?_⟩
    · rw [hun]
      simp only
      rw [List.lookup_eq_none_iff_not_mem_keys]
      intro hin
      rw [List.mem_map] at hin
      obtain ⟨entry, hentry, hfst⟩ := hin
      rw [List.mem_filter] at hentry
      have := hentry.2
      simp [hfst] at this
    · intro other hother
      rw [hun]
      simp only
      generalize pm.plugins = l
      induction l with
      | nil => simp
      | cons entry rest ih =>
        obtain ⟨k, v⟩ := entry
        by_cases hk : k = name
        · subst hk
          have hb : (other == k) = false := by simpa using hother
          simp [List.filter_cons, List.lookup_cons, hb, ih]
        · have hkeep : ((k, v).1 != name) = true := by simpa using hk
          rw [List.filter_cons, if_pos hkeep, List.lookup_cons, List.lookup_cons, ih]
    · rw [hun]
      simp only
      rw [hnodup.erase_eq_filter]

/-- C29, on a fresh manager with a plugin loaded by name, another loaded from a file, the
first loaded once more and then unloaded. -/
theorem PluginManager.registry_invariant_witness :
    (PluginCall.run false (PluginManager.new "/opt/app") callsPlugins).pluginArray.Perm ((PluginCall.run false (PluginManager.new "/opt/app") callsPlugins).plugins.map Prod.snd) ∧
    (PluginCall.run false (PluginManager.new "/opt/app") callsPlugins).pluginArray.Nodup ∧
    ((PluginCall.run false (PluginManager.new "/opt/app") callsPlugins).plugins.map Prod.fst).Nodup ∧
    (PluginCall.run false (PluginManager.new "/opt/app") callsPlugins).getPluginCount = ((PluginCall.run false (PluginManager.new "/opt/app") callsPlugins).plugins.map Prod.fst).length ∧
    (∀ file key events, ((PluginCall.run false (PluginManager.new "/opt/app") callsPlugins).plugins.lookup key).isSome = true →
      (PluginCall.run false (PluginManager.new "/opt/app") callsPlugins).loadPluginFileKey file key events = (.ok (), (PluginCall.run false (PluginManager.new "/opt/app") callsPlugins))) ∧
    (∀ name events, ((PluginCall.run false (PluginManager.new "/opt/app") callsPlugins).plugins.lookup name).isSome = true →
      (PluginCall.run false (PluginManager.new "/opt/app") callsPlugins).loadPlugin false name events = (.ok (), (PluginCall.run false (PluginManager.new "/opt/app") callsPlugins))) ∧
    (∀ name terminateThrows, (PluginCall.run false (PluginManager.new "/opt/app") callsPlugins).plugins.lookup name = none →
      (PluginCall.run false (PluginManager.new "/opt/app") callsPlugins).unloadPlugin name terminateThrows = (.ok (), (PluginCall.run false (PluginManager.new "/opt/app") callsPlugins))) ∧
    (∀ name plugin, (PluginCall.run false (PluginManager.new "/opt/app") callsPlugins).plugins.lookup name = some plugin →
      plugin ∈ (PluginCall.run false (PluginManager.new "/opt/app") callsPlugins).pluginArray ∧
      ((PluginCall.run false (PluginManager.new "/opt/app") callsPlugins).unloadPlugin name false).1 = .ok () ∧
      ((PluginCall.run false (PluginManager.new "/opt/app") callsPlugins).unloadPlugin name false).2.plugins.lookup name = none ∧
      (∀ other, other ≠ name →
        ((PluginCall.run false (PluginManager.new "/opt/app") callsPlugins).unloadPlugin name false).2.plugins.lookup other = (PluginCall.run false (PluginManager.new "/opt/app") callsPlugins).plugins.lookup other) ∧
      ((PluginCall.run false (PluginManager.new "/opt/app") callsPlugins).unloadPlugin name false).2.pluginArray =
        (PluginCall.run false (PluginManager.new "/opt/app") callsPlugins).pluginArray.filter (fun other => other != plugin)) :=
  PluginManager.registry_invariant false "/opt/app" callsPlugins _ rfl

/-- The part of a list up to an element that fails the test, when all before it pass. -/
theorem List.takeWhile_append_cons_of_neg {α : Type} (p : α → Bool) (l1 l2 : List α) (a : α)
    (h1 : ∀ x ∈ l1, p x = true) (ha : p a = false) :
    (l1 ++ a :: l2).takeWhile p = l1 := by
  induction l1 with
  | nil => simp [List.takeWhile_cons, ha]
  | cons x rest ih =>
    have hx : p x = true := h1 x (List.mem_cons_self _ _)
    simp only [List.cons_append, List.takeWhile_cons, hx, if_true]
    rw [ih (fun y hy => h1 y (List.mem_cons_of_mem _ hy))]

/-- The part of a list from an element that fails the test, when all before it pass. -/
theorem List.dropWhile_append_cons_of_neg {α : Type} (p : α → Bool) (l1 l2 : List α) (a : α)
    (h1 : ∀ x ∈ l1, p x = true) (ha : p a = false) :
    (l1 ++ a :: l2).dropWhile p = a :: l2 := by
  induction l1 with
  | nil => simp [List.dropWhile_cons, ha]
  | cons x rest ih =>
    have hx : p x = true := h1 x (List.mem_cons_self _ _)
    simp only [List.cons_append, List.dropWhile_cons, hx, if_true]
    rw [ih (fun y hy => h1 y (List.mem_cons_of_mem _ hy))]

/-- The file name of a name without separators appended to a directory is the name. -/
theorem pathFilename_pathAppend (EXENG_WINDOWS : Bool) (directory name : String)
    (hsep : ∀ c ∈ name.data, isPathSeparator EXENG_WINDOWS c = false) :
    pathFilename EXENG_WINDOWS (pathAppend directory name) = name := by
  unfold pathFilename pathAppend
  apply String.ext
  have hdata : (directory ++ "/" ++ name).data = directory.data ++ '/' :: name.data := by
    simp [String.data_append]
  simp only [hdata, List.reverse_append, List.reverse_cons, List.append_assoc,
    List.singleton_append]
  rw [List.takeWhile_append_cons_of_neg]
  · simp
  · intro x hx
    rw [List.mem_reverse] at hx
    simp [hsep x hx]
  · simp [isPathSeparator]

/-- The stem of a name that ends in a dot and a non-empty extension without a dot is what
stands before that dot. -/
theorem pathStem_append_extension (base extension : String)
    (hne : extension.data ≠ []) (hdot : '.' ∉ extension.data) :
    pathStem (base ++ "." ++ extension) = base := by
  have hdata : (base ++ "." ++ extension).data = base.data ++ '.' :: extension.data := by
    simp [String.data_append]
  have hlast : ∃ c rest, extension.data.reverse = c :: rest ∧ c ≠ '.' := by
    cases hrev : extension.data.reverse with
    | nil => exact absurd (List.reverse_eq_nil_iff.mp hrev) hne
    | cons c rest =>
      refine ⟨c, rest, rfl, ?_⟩
      intro hc
      apply hdot
      rw [← List.mem_reverse, hrev, hc]
      exact List.mem_cons_self _ _
  obtain ⟨c, rest, hrev, hc⟩ := hlast
  have hrevdata : (base ++ "." ++ extension).data.reverse =
      c :: (rest ++ '.' :: base.data.reverse) := by
    rw [hdata, List.reverse_append, List.reverse_cons, hrev]
    simp
  have h1 : base ++ "." ++ extension ≠ "." := by
    intro h
    have := congrArg (fun s => s.data.reverse) h
    simp only [hrevdata] at this
    have h' : c :: (rest ++ '.' :: base.data.reverse) = ['.'] := this
    simp only [List.cons.injEq] at h'
    exact hc h'.1
  have h2 : base ++ "." ++ extension ≠ ".." := by
    intro h
    have := congrArg (fun s => s.data.reverse) h
    simp only [hrevdata] at this
    have h' : c :: (rest ++ '.' :: base.data.reverse) = ['.', '.'] := this
    simp only [List.cons.injEq] at h'
    exact hc h'.1
  have h3 : '.' ∈ (base ++ "." ++ extension).data := by
    rw [hdata]
    simp
  unfold pathStem
  rw [if_neg (by simp [h1, h2]), if_pos h3]
  apply String.ext
  simp only [hdata, List.reverse_append, List.reverse_cons, List.append_assoc,
    List.singleton_append]
  rw [List.dropWhile_append_cons_of_neg]
  · simp
  · intro x hx
    rw [List.mem_reverse] at hx
    have : x ≠ '.' := fun h => hdot (h ▸ hx)
    simpa using this
  · simp

/-- C30 (counterexample): with the Windows naming the plugin name `library` has the file
name `library.dll`, and the key that `loadPluginFile(file)` derives from it is `rary`: the
stem begins with `lib`, which is removed.  Loaded from the file and by name, the plugin is
in the registry twice. -/
theorem PluginManager.keyOfFile_windows_lib :
    (∀ c ∈ "library".data, isPathSeparator true c = false) ∧
    plugin_filename true "library" = "library.dll" ∧
    PluginManager.keyOfFile true (pathAppend "plugins" (plugin_filename true "library")) =
      "rary" ∧
    "rary" ≠ "library" ∧
    (((PluginManager.new "plugins").loadPluginFile true
        (pathAppend "plugins" (plugin_filename true "library")) loadOk).2.loadPlugin true
        "library" loadOk).2.getPluginCount = 2 := by
  refine ⟨by decide, by decide, by decide, by decide, by decide⟩

/-- C30 (amended): for every plugin name `n` without path separators, and on Windows not
beginning with `lib`, the key that `loadPluginFile(file)` derives from the file
`plugin_filename(n)` in any directory is `n`, with the Unix naming `lib` + `n` + `.so` and
with the Windows naming `n` + `.dll`; and once that file is loaded, `loadPlugin(n)` finds
the key, loads nothing and changes nothing. -/
theorem PluginManager.keyOfFile_plugin_filename (EXENG_WINDOWS : Bool)
    (directory n : String)
    (hsep : ∀ c ∈ n.data, isPathSeparator EXENG_WINDOWS c = false)
    (hlib : EXENG_WINDOWS = true → n.data.take 3 ≠ "lib".data) :
    PluginManager.keyOfFile EXENG_WINDOWS
        (pathAppend directory (plugin_filename EXENG_WINDOWS n)) = n ∧
    ∀ (pm : PluginManager) (events1 events2 : LoadEvents),
      (pm.loadPluginFile EXENG_WINDOWS
        (pathAppend directory (plugin_filename EXENG_WINDOWS n)) events1).1 = .ok () →
      (pm.loadPluginFile EXENG_WINDOWS
        (pathAppend directory (plugin_filename EXENG_WINDOWS n)) events1).2.loadPlugin
          EXENG_WINDOWS n events2 =
        (.ok (), (pm.loadPluginFile EXENG_WINDOWS
          (pathAppend directory (plugin_filename EXENG_WINDOWS n)) events1).2) := by
  have hkey : PluginManager.keyOfFile EXENG_WINDOWS
      (pathAppend directory (plugin_filename EXENG_WINDOWS n)) = n := by
    unfold PluginManager.keyOfFile
    cases EXENG_WINDOWS with
    | false =>
      have hname : plugin_filename false n = ("lib" ++ n) ++ "." ++ "so" := by
        unfold plugin_filename
        apply String.ext
        simp [String.data_append]
      have hsepname : ∀ c ∈ (plugin_filename false n).data,
          isPathSeparator false c = false := by
        intro c hc
        rw [hname] at hc
        simp only [String.data_append, List.mem_append] at hc
        rcases hc with ((hc | hc) | hc) | hc
        · have : c = 'l' ∨ c = 'i' ∨ c = 'b' := by simpa using hc
          rcases this with h | h | h <;> subst h <;> decide
        · exact hsep c hc
        · have : c = '.' := by simpa using hc
          subst this; decide
        · have : c = 's' ∨ c = 'o' := by simpa using hc
          rcases this with h | h <;> subst h <;> decide
      rw [pathFilename_pathAppend false directory _ hsepname, hname,
        pathStem_append_extension ("lib" ++ n) "so" (by decide) (by decide)]
      have htake : ("lib" ++ n).data.take 3 = "lib".data := by
        simp [String.data_append]
      simp only [htake, if_true]
      apply String.ext
      simp [String.data_append]
    | true =>
      have hname : plugin_filename true n = n ++ "." ++ "dll" := by
        unfold plugin_filename
        apply String.ext
        simp [String.data_append]
      have hsepname : ∀ c ∈ (plugin_filename true n).data,
          isPathSeparator true c = false := by
        intro c hc
        rw [hname] at hc
        simp only [String.data_append, List.mem_append] at hc
        rcases hc with (hc | hc) | hc
        · exact hsep c hc
        · have : c = '.' := by simpa using hc
          subst this; decide
        · have : c = 'd' ∨ c = 'l' := by simpa using hc
          rcases this with h | h <;> subst h <;> decide
      rw [pathFilename_pathAppend true directory _ hsepname, hname,
        pathStem_append_extension n "dll" (by decide) (by decide)]
      rw [if_neg (hlib rfl)]
  refine ⟨hkey, ?_⟩
  intro pm events1 events2 hok
  unfold PluginManager.loadPluginFile at hok ⊢
  rw [hkey] at hok ⊢
  unfold PluginManager.loadPlugin
  exact PluginManager.loadPluginFileKey_present _ _ n events2
    (PluginManager.loadPluginFileKey_ok_present pm _ n events1 hok)

/-- C30 (amended), with the Windows naming and the plugin name `xe.gfx.gl3`. -/
theorem PluginManager.keyOfFile_plugin_filename_witness :
    PluginManager.keyOfFile true (pathAppend "plugins" (plugin_filename true "xe.gfx.gl3")) =
      "xe.gfx.gl3" ∧
    ∀ (pm : PluginManager) (events1 events2 : LoadEvents),
      (pm.loadPluginFile true
        (pathAppend "plugins" (plugin_filename true "xe.gfx.gl3")) events1).1 = .ok () →
      (pm.loadPluginFile true
        (pathAppend "plugins" (plugin_filename true "xe.gfx.gl3")) events1).2.loadPlugin
          true "xe.gfx.gl3" events2 =
        (.ok (), (pm.loadPluginFile true
          (pathAppend "plugins" (plugin_filename true "xe.gfx.gl3")) events1).2) :=
  PluginManager.keyOfFile_plugin_filename true "plugins" "xe.gfx.gl3" (by decide)
    (fun _ => by decide)

end PluginLemmas

/-! ## The scan in a build without the asserts -/

section ScanNDEBUG

variable {K : Type} [LinearOrderedField K]

/-- Whenever the scan with the asserts returns a record, the scan without them returns the
same record. -/
theorem RayTracerApp.intersectRayLoopNDEBUG_of_ok (ray : Ray K) (nodes : List (SceneNode K)) :
    ∀ prevInfo currentInfo info result : IntersectInfo K,
      RayTracerApp.intersectRayLoop ray nodes prevInfo currentInfo info = .ok result →
      RayTracerApp.intersectRayLoopNDEBUG ray nodes prevInfo currentInfo info = .ok result := by
  induction nodes with
  | nil =>
    intro prevInfo currentInfo info result h
    simpa [RayTracerApp.intersectRayLoop, RayTracerApp.intersectRayLoopNDEBUG] using h
  | cons node rest ih =>
    intro prevInfo currentInfo info result h
    rw [RayTracerApp.intersectRayLoop] at h
    rw [RayTracerApp.intersectRayLoopNDEBUG]
    cases hdata : node.getDataPtr with
    | none => rw [hdata] at h; cases h
    | some geometry =>
      rw [hdata] at h
      simp only at h ⊢
      cases hr : (geometry.hit ray currentInfo).1
      · simp only [hr, Bool.false_eq_true, if_false] at h ⊢
        exact ih _ _ _ _ h
      · simp only [hr, if_true] at h ⊢
        by_cases hcond : prevInfo.distance = 0 ∨
            (geometry.hit ray currentInfo).2.distance > prevInfo.distance
        · simp only [hcond, if_true] at h ⊢
          split_ifs at h with h1 h2
          exact ih _ _ _ _ h
        · simp only [hcond, if_false] at h ⊢
          exact ih _ _ _ _ h

/-- The scan without the asserts over nodes that hold sphere geometries ends with the
`info` that the locals carried over the hit candidates end with. -/
theorem RayTracerApp.intersectRayLoopNDEBUG_eq_scanHits (sqrt : K → K) (ray : Ray K)
    (nodes : List (SceneNode K)) :
    (∀ node ∈ nodes, ∃ g : SphereGeometry K, node.getDataPtr = some (g.toData sqrt)) →
    ∀ prevInfo currentInfo info : IntersectInfo K,
      RayTracerApp.intersectRayLoopNDEBUG ray nodes prevInfo currentInfo info =
        .ok (RayTracerApp.scanHits prevInfo info (RayTracerApp.candidates ray nodes)) := by
  induction nodes with
  | nil =>
    intro _ prevInfo currentInfo info
    simp [RayTracerApp.intersectRayLoopNDEBUG, RayTracerApp.candidates,
      RayTracerApp.scanHits]
  | cons node rest ih =>
    intro hsphere prevInfo currentInfo info
    obtain ⟨g, hdata⟩ := hsphere node (List.mem_cons_self _ _)
    have hrest : ∀ node ∈ rest, ∃ g : SphereGeometry K,
        node.getDataPtr = some (g.toData sqrt) :=
      fun n hn => hsphere n (List.mem_cons_of_mem _ hn)
    have hcand := RayTracerApp.candidate_sphere sqrt ray node g hdata
    rw [RayTracerApp.intersectRayLoopNDEBUG]
    simp only [hdata, SphereGeometry.toData, SphereGeometry.hit_eq]
    cases hs : (g.sphere.solve sqrt ray).1
    · simp only [hs, Bool.false_eq_true, if_false] at hcand ⊢
      have hc : RayTracerApp.candidates ray (node :: rest) =
          RayTracerApp.candidates ray rest := by
        simp [RayTracerApp.candidates, List.filterMap_cons, hcand]
      rw [hc]
      exact ih hrest _ _ _
    · simp only [hs, if_true] at hcand ⊢
      have hc : RayTracerApp.candidates ray (node :: rest) =
          { intersect := true
            distance := (g.sphere.solve sqrt ray).2
            normal := (ray.getPointAt (g.sphere.solve sqrt ray).2).normalize sqrt
            materialPtr := some g.material } :: RayTracerApp.candidates ray rest := by
        simp [RayTracerApp.candidates, List.filterMap_cons, hcand]
      rw [hc]
      simp only [RayTracerApp.scanHits]
      by_cases hcond : prevInfo.distance = 0 ∨
          (g.sphere.solve sqrt ray).2 > prevInfo.distance
      · simp only [hcond, if_true]
        exact ih hrest _ _ _
      · simp only [hcond, if_false]
        exact ih hrest _ _ _

/-- In the scenario of C11, `Sphere::intersect` finds no root for sphere A and the root
`t = 75` for sphere B. -/
theorem RayTracerApp.scene_solve :
    sphereA.solve sqrtExact rayScene = (false, 0) ∧
    sphereB.solve sqrtExact rayScene = (true, 75) := by
  constructor
  · norm_num [sphereA, rayScene, Sphere.solve, Sphere.new, Sphere.setAttributes,
      Sphere.setRadius, Sphere.setCenter, Sphere.quadB, Sphere.quadC, Sphere.quadDisc,
      Sphere.getRadius, Sphere.getCenter, Ray.getPoint, Ray.getDirection, Vector3f.sub,
      Vector3f.dot, Vector3f.getMagnitudeSq]
  · norm_num [sphereB, rayScene, Sphere.solve, Sphere.new, Sphere.setAttributes,
      Sphere.setRadius, Sphere.setCenter, Sphere.quadB, Sphere.quadC, Sphere.quadDisc,
      Sphere.getRadius, Sphere.getCenter, Ray.getPoint, Ray.getDirection, Vector3f.sub,
      Vector3f.dot, Vector3f.getMagnitudeSq]

/-- In the scenario of C11 the only hit candidate is the hit on sphere B, at distance `75`. -/
theorem RayTracerApp.scene_candidates :
    RayTracerApp.candidates rayScene [nodeA, nodeB] =
      [{ intersect := true, distance := 75,
         normal := (rayScene.getPointAt 75).normalize sqrtExact,
         materialPtr := some materialB }] := by
  have hA := RayTracerApp.candidate_sphere sqrtExact rayScene nodeA ⟨sphereA, materialA⟩ rfl
  have hB := RayTracerApp.candidate_sphere sqrtExact rayScene nodeB ⟨sphereB, materialB⟩ rfl
  simp only [RayTracerApp.scene_solve.1, RayTracerApp.scene_solve.2, Bool.false_eq_true,
    if_false, if_true] at hA hB
  simp only [RayTracerApp.candidates, List.filterMap_cons, List.filterMap_nil, hA, hB]

/-- The two nodes of the scenario of C11 hold sphere geometries. -/
theorem RayTracerApp.scene_spheres :
    ∀ node ∈ [nodeA, nodeB], ∃ g : SphereGeometry ℚ,
      node.getDataPtr = some (g.toData sqrtExact) := by
  intro node hnode
  simp only [List.mem_cons, List.mem_singleton, List.not_mem_nil, or_false] at hnode
  rcases hnode with h | h
  · exact ⟨⟨sphereA, materialA⟩, by rw [h]; rfl⟩
  · exact ⟨⟨sphereB, materialB⟩, by rw [h]; rfl⟩

/-- In the scenario of C11 the scan without the asserts returns the hit on sphere B. -/
theorem RayTracerApp.scene_intersectRayNDEBUG :
    RayTracerApp.intersectRayNDEBUG [nodeA, nodeB] rayScene =
      .ok { intersect := true, distance := 75,
            normal := (rayScene.getPointAt 75).normalize sqrtExact,
            materialPtr := some materialB } := by
  unfold RayTracerApp.intersectRayNDEBUG
  rw [RayTracerApp.intersectRayLoopNDEBUG_eq_scanHits sqrtExact rayScene _
    RayTracerApp.scene_spheres, RayTracerApp.scene_candidates]
  have hzero : (IntersectInfo.new : IntersectInfo ℚ).distance = 0 := rfl
  simp only [RayTracerApp.scanHits, hzero, true_or, if_true]

/-- C11 (counterexample): in the scenario of the claim the ray does not meet sphere A: its
discriminant is negative and the hit test of A fails whatever record it is handed.  The only
hit candidate of the node list is the hit on B, and `intersectRay`, with its asserts
compiled out, returns that hit, with B's material and not A's. -/
theorem RayTracerApp.intersectRay_scene_not_A :
    sphereA.quadDisc rayScene < 0 ∧
    (∀ record : IntersectInfo ℚ,
      (SphereGeometry.hit sqrtExact ⟨sphereA, materialA⟩ rayScene record).1 = false) ∧
    (RayTracerApp.candidates rayScene [nodeA, nodeB]).map IntersectInfo.materialPtr =
      [some materialB] ∧
    (RayTracerApp.intersectRayNDEBUG [nodeA, nodeB] rayScene).map IntersectInfo.materialPtr =
      .ok (some materialB) ∧
    materialB ≠ materialA := by
  refine ⟨?_, ?_, ?_, ?_, by decide⟩
  · norm_num [sphereA, rayScene, Sphere.new, Sphere.setAttributes, Sphere.setRadius,
      Sphere.setCenter, Sphere.quadB, Sphere.quadC, Sphere.quadDisc, Sphere.getRadius,
      Sphere.getCenter, Ray.getPoint, Ray.getDirection, Vector3f.sub, Vector3f.dot,
      Vector3f.getMagnitudeSq]
  · intro record
    rw [SphereGeometry.hit_fst, RayTracerApp.scene_solve.1]
  · rw [RayTracerApp.scene_candidates]
    rfl
  · rw [RayTracerApp.scene_intersectRayNDEBUG]
    rfl

/-- C11 (amended): with sphere A and sphere B in the node list, in that order, and the
ray from `(0,0,−75)` along `+z`: the discriminant of A is `−7500`, so the ray misses A and
the hit test of A returns `false`; the discriminant of B is `0`, the ray touches B at
`t = 75` in the point `(0,0,0)`, and the hit test of B returns `true` with distance `75`
and B's material.  The hit on B is the only hit candidate, and `intersectRay`, with its
asserts compiled out, returns it: flag set, distance `75`, B's material.  Nothing is
stated about the normal stored, which is the normalized zero vector. -/
theorem RayTracerApp.intersectRay_scene :
    sphereA.quadDisc rayScene = -7500 ∧
    sphereB.quadDisc rayScene = 0 ∧
    SphereGeometry.hit sqrtExact ⟨sphereA, materialA⟩ rayScene IntersectInfo.new =
      (false, IntersectInfo.new) ∧
    rayScene.getPointAt 75 = ⟨0, 0, 0⟩ ∧
    (SphereGeometry.hit sqrtExact ⟨sphereB, materialB⟩ rayScene IntersectInfo.new).1 = true ∧
    (SphereGeometry.hit sqrtExact ⟨sphereB, materialB⟩ rayScene
      IntersectInfo.new).2.withoutNormal = (true, 75, some materialB) ∧
    (RayTracerApp.candidates rayScene [nodeA, nodeB]).map IntersectInfo.withoutNormal =
      [(true, 75, some materialB)] ∧
    (RayTracerApp.intersectRayNDEBUG [nodeA, nodeB] rayScene).map
      IntersectInfo.withoutNormal = .ok (true, 75, some materialB) := by
  have hB := SphereGeometry.hit_eq sqrtExact ⟨sphereB, materialB⟩ rayScene IntersectInfo.new
  simp only [RayTracerApp.scene_solve.2, if_true] at hB
  refine ⟨?_, ?_, ?_, ?_, ?_, ?_, ?_, ?_⟩
  · norm_num [sphereA, rayScene, Sphere.new, Sphere.setAttributes, Sphere.setRadius,
      Sphere.setCenter, Sphere.quadB, Sphere.quadC, Sphere.quadDisc, Sphere.getRadius,
      Sphere.getCenter, Ray.getPoint, Ray.getDirection, Vector3f.sub, Vector3f.dot,
      Vector3f.getMagnitudeSq]
  · norm_num [sphereB, rayScene, Sphere.new, Sphere.setAttributes, Sphere.setRadius,
      Sphere.setCenter, Sphere.quadB, Sphere.quadC, Sphere.quadDisc, Sphere.getRadius,
      Sphere.getCenter, Ray.getPoint, Ray.getDirection, Vector3f.sub, Vector3f.dot,
      Vector3f.getMagnitudeSq]
  · rw [SphereGeometry.hit_eq, RayTracerApp.scene_solve.1]
    rfl
  · norm_num [rayScene, Ray.getPointAt, Vector3f.add, Vector3f.scale]
  · rw [hB]
  · rw [hB]
    rfl
  · rw [RayTracerApp.scene_candidates]
    rfl
  · rw [RayTracerApp.scene_intersectRayNDEBUG]
    rfl

end ScanNDEBUG

end exeng
